import Mathlib

/-!
Verification of the Viper-IR expression algebra
(`prusti-viper/src/encoder/vir/ast/expr.rs`).

The expression data model and every operation claimed about it are embedded
shallowly: Rust enums become Lean inductives, `Vec` becomes `List`,
panicking code paths become `Option`, and the custom `PartialEq`/`Hash`
implementations become the Boolean function `exprEq` and the
hash-input encoding `hashExpr`.

Supporting value types (`Position`, `Type`, `LocalVar`, `Field`,
`PermAmount`, `Trigger`, `typaram::Substs`) are declared in sibling files
that are not part of the sources at hand; they are modelled from the
specification document and marked as such in their doc comments.
-/

namespace Vir

/-- Modelled from the spec: `Position` is an opaque source-location tag with a
distinguished "unknown" (default) value; it is carried on every node but is
excluded from equality and hashing. -/
structure Position where
  id : Nat
  deriving DecidableEq, Repr

/-- Modelled from the spec: constructors default the Position to "unknown". -/
def Position.default : Position := ⟨0⟩

/-- Modelled from the spec: `Type` is the closed set of value types plus
predicate-named references `TypedRef(predicate_name)`. -/
inductive Ty where
  | int
  | bool
  | typedRef (name : String)
  deriving DecidableEq, Repr

/-- Modelled from the spec: a type is a reference iff it is a `TypedRef`. -/
def Ty.isRef : Ty → Bool
  | .typedRef _ => true
  | _ => false

/-- Modelled from the spec: the predicate name carried by a `TypedRef`
(value types render as their keyword). -/
def Ty.name : Ty → String
  | .int => "int"
  | .bool => "bool"
  | .typedRef n => n

/-- Modelled from the spec: `LocalVar` is a pair of a name and a type;
identity is the pair (name, type). -/
structure LocalVar where
  name : String
  typ : Ty
  deriving DecidableEq, Repr

/-- Modelled from the spec: `Field` is a named member-access descriptor
carrying a name and a type. -/
structure Field where
  name : String
  typ : Ty
  deriving DecidableEq, Repr

/-- Modelled from the spec: `Field::new(name, typ)`. -/
def Field.new (name : String) (typ : Ty) : Field := ⟨name, typ⟩

/-- Modelled from the spec: `PermAmount` is the ordered set
\x7bNone, Read, Write, fractional\x7d. -/
inductive PermAmount where
  | none
  | read
  | write
  | fractional
  deriving DecidableEq, Repr

/-- Modelled from the spec: the validity predicate restricting specifications
to \x7bNone, Read, Write\x7d. -/
def PermAmount.isValidForSpecs : PermAmount → Bool
  | .fractional => false
  | _ => true

/-- `Const` from `expr.rs`: booleans, machine integers, big integers. -/
inductive Const where
  | bool (b : Bool)
  | int (i : Int)
  | bigInt (v : String)
  deriving DecidableEq, Repr

/-- `UnaryOpKind` from `expr.rs`. -/
inductive UnaryOpKind where
  | not
  | minus
  deriving DecidableEq, Repr

/-- `BinOpKind` from `expr.rs`. -/
inductive BinOpKind where
  | eqCmp
  | gtCmp
  | geCmp
  | ltCmp
  | leCmp
  | add
  | sub
  | mul
  | div
  | mod
  | and
  | or
  | implies
  deriving DecidableEq, Repr

/-- Modelled from the spec: a borrow tag is an opaque identifier (its content
never influences the operations under study beyond derived equality). -/
abbrev Borrow := Nat

/-- `MaybeEnumVariantIndex` from the ast module: an optional variant name. -/
abbrev MaybeEnumVariantIndex := Option String

mutual
/-- The `Expr` enum from `expr.rs`: the closed recursive variant set, each
variant carrying a trailing `Position`. -/
inductive Expr where
  | local_ (v : LocalVar) (p : Position)
  | variant (base : Expr) (f : Field) (p : Position)
  | field (base : Expr) (f : Field) (p : Position)
  | addrOf (base : Expr) (t : Ty) (p : Position)
  | labelledOld (label : String) (base : Expr) (p : Position)
  | const (c : Const) (p : Position)
  | magicWand (lhs : Expr) (rhs : Expr) (b : Option Borrow) (p : Position)
  | predicateAccessPredicate (name : String) (arg : Expr) (perm : PermAmount)
      (p : Position)
  | fieldAccessPredicate (receiver : Expr) (perm : PermAmount) (p : Position)
  | unaryOp (op : UnaryOpKind) (arg : Expr) (p : Position)
  | binOp (op : BinOpKind) (left : Expr) (right : Expr) (p : Position)
  | unfolding (name : String) (args : List Expr) (body : Expr)
      (perm : PermAmount) (variantIdx : MaybeEnumVariantIndex) (p : Position)
  | cond (guard : Expr) (thenE : Expr) (elseE : Expr) (p : Position)
  | forAll (vars : List LocalVar) (triggers : List Trigger) (body : Expr)
      (p : Position)
  | letExpr (v : LocalVar) (def_ : Expr) (body : Expr) (p : Position)
  | funcApp (name : String) (args : List Expr) (formalArgs : List LocalVar)
      (returnType : Ty) (p : Position)

/-- `Trigger` from the ast module; modelled from the spec: an ordered
sequence of expressions serving as a quantifier hint. -/
inductive Trigger where
  | mk (parts : List Expr)
end

/-- The expression list of a trigger. -/
def Trigger.parts : Trigger → List Expr
  | .mk es => es

/-- `PlaceComponent` from `expr.rs`: one peeled access step of a place. -/
inductive PlaceComponent where
  | field (f : Field) (p : Position)
  | variant (f : Field) (p : Position)
  deriving Repr

namespace Expr

/-- `Expr::set_pos`: replace the (top-level) position of the node. -/
def setPos : Expr → Position → Expr
  | .local_ v _, pos => .local_ v pos
  | .variant b f _, pos => .variant b f pos
  | .field b f _, pos => .field b f pos
  | .addrOf b t _, pos => .addrOf b t pos
  | .labelledOld l b _, pos => .labelledOld l b pos
  | .const c _, pos => .const c pos
  | .magicWand l r b _, pos => .magicWand l r b pos
  | .predicateAccessPredicate n a pa _, pos => .predicateAccessPredicate n a pa pos
  | .fieldAccessPredicate b pa _, pos => .fieldAccessPredicate b pa pos
  | .unaryOp op a _, pos => .unaryOp op a pos
  | .binOp op l r _, pos => .binOp op l r pos
  | .unfolding n args b pa v _, pos => .unfolding n args b pa v pos
  | .cond g t e _, pos => .cond g t e pos
  | .forAll vs ts b _, pos => .forAll vs ts b pos
  | .letExpr v d b _, pos => .letExpr v d b pos
  | .funcApp n args fa rt _, pos => .funcApp n args fa rt pos

end Expr

mutual
/-- The custom `impl PartialEq for Expr`: structural equality that compares
discriminant and children while ignoring every `Position` field, and that
ignores the `formal_args` and `return_type` components of `FuncApp`. -/
def exprEq : Expr → Expr → Bool
  | .local_ v _, .local_ v' _ => decide (v = v')
  | .variant b f _, .variant b' f' _ => exprEq b b' && decide (f = f')
  | .field b f _, .field b' f' _ => exprEq b b' && decide (f = f')
  | .addrOf b t _, .addrOf b' t' _ => exprEq b b' && decide (t = t')
  | .labelledOld l b _, .labelledOld l' b' _ => decide (l = l') && exprEq b b'
  | .const c _, .const c' _ => decide (c = c')
  | .magicWand l r b _, .magicWand l' r' b' _ =>
      exprEq l l' && exprEq r r' && decide (b = b')
  | .predicateAccessPredicate n a pa _, .predicateAccessPredicate n' a' pa' _ =>
      decide (n = n') && exprEq a a' && decide (pa = pa')
  | .fieldAccessPredicate b pa _, .fieldAccessPredicate b' pa' _ =>
      exprEq b b' && decide (pa = pa')
  | .unaryOp op a _, .unaryOp op' a' _ => decide (op = op') && exprEq a a'
  | .binOp op l r _, .binOp op' l' r' _ =>
      decide (op = op') && exprEq l l' && exprEq r r'
  | .unfolding n args b pa v _, .unfolding n' args' b' pa' v' _ =>
      decide (n = n') && exprEqList args args' && exprEq b b'
        && decide (pa = pa') && decide (v = v')
  | .cond g t e _, .cond g' t' e' _ => exprEq g g' && exprEq t t' && exprEq e e'
  | .forAll vs ts b _, .forAll vs' ts' b' _ =>
      decide (vs = vs') && triggerEqList ts ts' && exprEq b b'
  | .letExpr v d b _, .letExpr v' d' b' _ =>
      decide (v = v') && exprEq d d' && exprEq b b'
  | .funcApp n args _ _ _, .funcApp n' args' _ _ _ =>
      decide (n = n') && exprEqList args args'
  | _, _ => false

/-- Element-wise `Vec<Expr>` equality (derived `PartialEq` on vectors). -/
def exprEqList : List Expr → List Expr → Bool
  | [], [] => true
  | e :: es, e' :: es' => exprEq e e' && exprEqList es es'
  | _, _ => false

/-- Element-wise `Vec<Trigger>` equality; a trigger compares its expression
list with the position-ignoring expression equality. -/
def triggerEqList : List Trigger → List Trigger → Bool
  | [], [] => true
  | .mk ps :: ts, .mk ps' :: ts' => exprEqList ps ps' && triggerEqList ts ts'
  | _, _ => false
end

/-- A Nat encoding of a string, standing for the bytes fed to a hasher. -/
def hashString (s : String) : Nat :=
  s.data.foldl (fun h c => Nat.pair h c.toNat) 17

/-- A Nat encoding of the data fed to the hasher for a `Ty`. -/
def hashTy : Ty → Nat
  | .int => 0
  | .bool => 1
  | .typedRef n => Nat.pair 2 (hashString n)

/-- A Nat encoding of the data fed to the hasher for a `LocalVar`. -/
def hashLocalVar (v : LocalVar) : Nat :=
  Nat.pair (hashString v.name) (hashTy v.typ)

/-- A Nat encoding of the data fed to the hasher for a `Field`. -/
def hashField (f : Field) : Nat :=
  Nat.pair (hashString f.name) (hashTy f.typ)

/-- A Nat encoding of the data fed to the hasher for a `PermAmount`. -/
def hashPermAmount : PermAmount → Nat
  | .none => 0
  | .read => 1
  | .write => 2
  | .fractional => 3

/-- A Nat encoding of the data fed to the hasher for a `Const`. -/
def hashConst : Const → Nat
  | .bool b => Nat.pair 0 (Bool.toNat b)
  | .int i => Nat.pair 1 (Nat.pair i.natAbs (Bool.toNat (decide (0 ≤ i))))
  | .bigInt v => Nat.pair 2 (hashString v)

/-- A Nat encoding of an optional hash input. -/
def hashOption (f : α → Nat) : Option α → Nat
  | Option.none => 0
  | Option.some x => Nat.pair 1 (f x)

/-- A Nat encoding of the data fed to the hasher for a list of vars. -/
def hashLocalVarList (vs : List LocalVar) : Nat :=
  vs.foldl (fun h v => Nat.pair h (hashLocalVar v)) 19

/-- Hash input of a `UnaryOpKind` discriminant. -/
def hashUnaryOpKind : UnaryOpKind → Nat
  | .not => 0
  | .minus => 1

/-- Hash input of a `BinOpKind` discriminant. -/
def hashBinOpKind : BinOpKind → Nat
  | .eqCmp => 0
  | .gtCmp => 1
  | .geCmp => 2
  | .ltCmp => 3
  | .leCmp => 4
  | .add => 5
  | .sub => 6
  | .mul => 7
  | .div => 8
  | .mod => 9
  | .and => 10
  | .or => 11
  | .implies => 12

mutual
/-- The custom `impl Hash for Expr`: the data fed into the hasher, encoded as
a natural number.  Mirroring the source, it feeds the discriminant and the
children, ignores every `Position`, and for `FuncApp` ignores the
`formal_args` and `return_type` components. -/
def hashExpr : Expr → Nat
  | .local_ v _ => Nat.pair 0 (hashLocalVar v)
  | .variant b f _ => Nat.pair 1 (Nat.pair (hashExpr b) (hashField f))
  | .field b f _ => Nat.pair 2 (Nat.pair (hashExpr b) (hashField f))
  | .addrOf b t _ => Nat.pair 3 (Nat.pair (hashExpr b) (hashTy t))
  | .labelledOld l b _ => Nat.pair 4 (Nat.pair (hashString l) (hashExpr b))
  | .const c _ => Nat.pair 5 (hashConst c)
  | .magicWand l r b _ =>
      Nat.pair 6 (Nat.pair (hashExpr l) (Nat.pair (hashExpr r) (hashOption id b)))
  | .predicateAccessPredicate n a pa _ =>
      Nat.pair 7 (Nat.pair (hashString n)
        (Nat.pair (hashExpr a) (hashPermAmount pa)))
  | .fieldAccessPredicate b pa _ =>
      Nat.pair 8 (Nat.pair (hashExpr b) (hashPermAmount pa))
  | .unaryOp op a _ =>
      Nat.pair 9 (Nat.pair (hashUnaryOpKind op) (hashExpr a))
  | .binOp op l r _ =>
      Nat.pair 10 (Nat.pair (hashBinOpKind op) (Nat.pair (hashExpr l) (hashExpr r)))
  | .unfolding n args b pa v _ =>
      Nat.pair 11 (Nat.pair (hashString n) (Nat.pair (hashExprList args)
        (Nat.pair (hashExpr b)
          (Nat.pair (hashPermAmount pa) (hashOption hashString v)))))
  | .cond g t e _ =>
      Nat.pair 12 (Nat.pair (hashExpr g) (Nat.pair (hashExpr t) (hashExpr e)))
  | .forAll vs ts b _ =>
      Nat.pair 13 (Nat.pair (hashLocalVarList vs)
        (Nat.pair (hashTriggerList ts) (hashExpr b)))
  | .letExpr v d b _ =>
      Nat.pair 14 (Nat.pair (hashLocalVar v) (Nat.pair (hashExpr d) (hashExpr b)))
  | .funcApp n args _ _ _ =>
      Nat.pair 15 (Nat.pair (hashString n) (hashExprList args))

/-- Hash input of a `Vec of Expr` (element hashes in order). -/
def hashExprList : List Expr → Nat
  | [] => 23
  | e :: es => Nat.pair (hashExpr e) (hashExprList es)

/-- Hash input of a `Vec<Trigger>` (element hashes in order). -/
def hashTriggerList : List Trigger → Nat
  | [] => 29
  | .mk ps :: ts => Nat.pair (hashExprList ps) (hashTriggerList ts)
end

namespace Expr

/-- `impl From<bool> for Expr` at `true`; modelled from the spec: constant
constructors default the Position to "unknown". -/
def trueLit : Expr := .const (.bool true) Position.default

/-- `impl From<i64> for Expr`; modelled from the spec: constant constructors
default the Position to "unknown". -/
def intLit (i : Int) : Expr := .const (.int i) Position.default

/-- `Expr::acc_permission`: a field-access predicate at the default
position. -/
def accPermission (place : Expr) (perm : PermAmount) : Expr :=
  .fieldAccessPredicate place perm Position.default

/-- `Expr::is_place`: a local, or a `Variant`/`Field`/`AddrOf`/
`LabelledOld`/`Unfolding` wrapper over a place. -/
def isPlace : Expr → Bool
  | .local_ _ _ => true
  | .variant b _ _ => isPlace b
  | .field b _ _ => isPlace b
  | .addrOf b _ _ => isPlace b
  | .labelledOld _ b _ => isPlace b
  | .unfolding _ _ b _ _ _ => isPlace b
  | _ => false

/-- `Expr::is_simple_place`: a local under `Variant`/`Field` wrappers only. -/
def isSimplePlace : Expr → Bool
  | .local_ _ _ => true
  | .variant b _ _ => isSimplePlace b
  | .field b _ _ => isSimplePlace b
  | _ => false

/-- `Expr::is_local`. -/
def isLocal : Expr → Bool
  | .local_ _ _ => true
  | _ => false

/-- `Expr::place_depth`: the number of parts of a place.  The source is
`unreachable!` on non-places; those inputs are mapped to 0 here. -/
def placeDepth : Expr → Nat
  | .local_ _ _ => 1
  | .variant b _ _ => placeDepth b + 1
  | .field b _ _ => placeDepth b + 1
  | .addrOf b _ _ => placeDepth b + 1
  | .labelledOld _ b _ => placeDepth b + 1
  | .unfolding _ _ b _ _ _ => placeDepth b + 1
  | _ => 0

/-- `Expr::get_parent`: the base of a `Variant`/`Field`/`AddrOf` place;
`None` for locals and for the `LabelledOld`/`Unfolding` comparison roots.
The source is `unreachable!` on non-places; those inputs map to `none`. -/
def getParent : Expr → Option Expr
  | .variant b _ _ => some b
  | .field b _ _ => some b
  | .addrOf b _ _ => some b
  | _ => none

/-- `Expr::get_base`: the root local variable of a place.  The source
panics (via `unwrap`) on non-places; those inputs map to `none`. -/
def getBase : Expr → Option LocalVar
  | .local_ v _ => some v
  | .variant b _ _ => getBase b
  | .field b _ _ => getBase b
  | .addrOf b _ _ => getBase b
  | .labelledOld _ b _ => getBase b
  | .unfolding _ _ b _ _ _ => getBase b
  | _ => none

/-- `Expr::get_type`: the type of a place.  The source panics on
non-places; those inputs map to `none`. -/
def getType : Expr → Option Ty
  | .local_ v _ => some v.typ
  | .variant _ f _ => some f.typ
  | .field _ f _ => some f.typ
  | .addrOf _ t _ => some t
  | .labelledOld _ b _ => getType b
  | .unfolding _ _ b _ _ _ => getType b
  | _ => none

/-- `Expr::has_prefix`: self equals other, or some iterated parent of self
equals other (equality is the position-ignoring structural one).  Written by
direct recursion on the `get_parent` chain. -/
def hasPrefixOf : Expr → Expr → Bool
  | .variant b f p, other => exprEq (.variant b f p) other || hasPrefixOf b other
  | .field b f p, other => exprEq (.field b f p) other || hasPrefixOf b other
  | .addrOf b t p, other => exprEq (.addrOf b t p) other || hasPrefixOf b other
  | e, other => exprEq e other

/-- `Expr::has_proper_prefix`: a strict prefix (`self != other` under the
position-ignoring equality, and `has_prefix`). -/
def hasProperPrefixOf (e other : Expr) : Bool :=
  !(exprEq e other) && hasPrefixOf e other

/-- `Expr::all_prefixes`: all prefixes from the shortest to the longest,
ending with the place itself.  The source composes `all_proper_prefixes`
(which recurses through `get_parent`) with a final push of `self`; the
recursion is written out structurally here. -/
def allPrefixes : Expr → List Expr
  | .variant b f p => allPrefixes b ++ [.variant b f p]
  | .field b f p => allPrefixes b ++ [.field b f p]
  | .addrOf b t p => allPrefixes b ++ [.addrOf b t p]
  | e => [e]

/-- `Expr::all_proper_prefixes`. -/
def allProperPrefixes (e : Expr) : List Expr :=
  match getParent e with
  | some parent => allPrefixes parent
  | none => []

/-- `Expr::explode_place`: peel outer `Variant`/`Field` wrappers into an
ordered component sequence down to an irreducible base. -/
def explodePlace : Expr → Expr × List PlaceComponent
  | .variant b f p =>
      let (bb, cs) := explodePlace b
      (bb, cs ++ [.variant f p])
  | .field b f p =>
      let (bb, cs) := explodePlace b
      (bb, cs ++ [.field f p])
  | e => (e, [])

/-- `Expr::reconstruct_place`: left fold re-wrapping the components in their
original order. -/
def reconstructPlace (e : Expr) (components : List PlaceComponent) : Expr :=
  components.foldl
    (fun acc component =>
      match component with
      | .variant f p => Expr.variant acc f p
      | .field f p => Expr.field acc f p)
    e

end Expr

namespace Expr

/-- `Expr::not`. -/
def notE (e : Expr) : Expr := .unaryOp .not e Position.default

/-- `Expr::minus`. -/
def minus (e : Expr) : Expr := .unaryOp .minus e Position.default

/-- `Expr::ge_cmp`. -/
def geCmp (l r : Expr) : Expr := .binOp .geCmp l r Position.default

/-- `Expr::eq_cmp`. -/
def eqCmp (l r : Expr) : Expr := .binOp .eqCmp l r Position.default

/-- `Expr::sub`. -/
def subE (l r : Expr) : Expr := .binOp .sub l r Position.default

/-- `Expr::modulo`. -/
def modulo (l r : Expr) : Expr := .binOp .mod l r Position.default

/-- `Expr::and`. -/
def andE (l r : Expr) : Expr := .binOp .and l r Position.default

/-- `Expr::or`. -/
def orE (l r : Expr) : Expr := .binOp .or l r Position.default

/-- `Expr::ite`. -/
def ite (guard l r : Expr) : Expr := .cond guard l r Position.default

/-- `Expr::rem`: encode the Rust remainder (sign follows the dividend) on
top of the `Mod` primitive. -/
def rem (left right : Expr) : Expr :=
  let absRight := Expr.ite (geCmp right (intLit 0)) right (minus right)
  Expr.ite
    (orE (geCmp left (intLit 0)) (eqCmp (modulo left right) (intLit 0)))
    (modulo left right)
    (subE (modulo left right) absRight)

end Expr

/-- A constant value produced by evaluating an expression. -/
inductive Val where
  | int (i : Int)
  | bool (b : Bool)
  deriving DecidableEq, Repr

/-- Modelled from the spec: the meaning the external engine assigns to a
binary operator on integer constants; `Mod` is the SMT-LIB Euclidean-style
modulo (`Int.emod`, non-negative for every non-zero divisor) and `Div` the
matching Euclidean division. -/
def evalIntOp : BinOpKind → Int → Int → Option Val
  | .eqCmp, i, j => some (.bool (decide (i = j)))
  | .gtCmp, i, j => some (.bool (decide (j < i)))
  | .geCmp, i, j => some (.bool (decide (j ≤ i)))
  | .ltCmp, i, j => some (.bool (decide (i < j)))
  | .leCmp, i, j => some (.bool (decide (i ≤ j)))
  | .add, i, j => some (.int (i + j))
  | .sub, i, j => some (.int (i - j))
  | .mul, i, j => some (.int (i * j))
  | .div, i, j => some (.int (Int.ediv i j))
  | .mod, i, j => some (.int (Int.emod i j))
  | _, _, _ => none

/-- Modelled from the spec: the meaning of a binary operator on boolean
constants. -/
def evalBoolOp : BinOpKind → Bool → Bool → Option Val
  | .eqCmp, a, b => some (.bool (a == b))
  | .and, a, b => some (.bool (a && b))
  | .or, a, b => some (.bool (a || b))
  | .implies, a, b => some (.bool (!a || b))
  | _, _, _ => none

/-- Modelled from the spec: evaluation of the constant first-order fragment
(constants, unary and binary operators, conditionals) under the engine's
interpretation; every other node is not a constant expression. -/
def evalE : Expr → Option Val
  | .const (.int i) _ => some (.int i)
  | .const (.bool b) _ => some (.bool b)
  | .unaryOp .minus a _ =>
      match evalE a with
      | some (.int i) => some (.int (-i))
      | _ => none
  | .unaryOp .not a _ =>
      match evalE a with
      | some (.bool b) => some (.bool (!b))
      | _ => none
  | .binOp k l r _ =>
      match evalE l, evalE r with
      | some (.int i), some (.int j) => evalIntOp k i j
      | some (.bool a), some (.bool b) => evalBoolOp k a b
      | _, _ => none
  | .cond g a b _ =>
      match evalE g with
      | some (.bool true) => evalE a
      | some (.bool false) => evalE b
      | _ => none
  | _ => none

mutual
/-- `Expr::compute_footprint`: the walker `Collector`, which pushes an
`acc(..)` for every `Field`/`Variant` node after visiting its base (so the
shallowest step of a chain is pushed first), stops at `LabelledOld`, and
otherwise follows the default walk (which does not enter `ForAll`
triggers). -/
def computeFootprint (perm : PermAmount) : Expr → List Expr
  | .local_ _ _ => []
  | .variant b f p =>
      computeFootprint perm b ++ [Expr.accPermission (.variant b f p) perm]
  | .field b f p =>
      computeFootprint perm b ++ [Expr.accPermission (.field b f p) perm]
  | .addrOf b _ _ => computeFootprint perm b
  | .labelledOld _ _ _ => []
  | .const _ _ => []
  | .magicWand l r _ _ => computeFootprint perm l ++ computeFootprint perm r
  | .predicateAccessPredicate _ a _ _ => computeFootprint perm a
  | .fieldAccessPredicate b _ _ => computeFootprint perm b
  | .unaryOp _ a _ => computeFootprint perm a
  | .binOp _ l r _ => computeFootprint perm l ++ computeFootprint perm r
  | .unfolding _ args b _ _ _ =>
      computeFootprintList perm args ++ computeFootprint perm b
  | .cond g t e _ =>
      computeFootprint perm g ++ computeFootprint perm t ++ computeFootprint perm e
  | .forAll _ _ b _ => computeFootprint perm b
  | .letExpr _ d b _ => computeFootprint perm d ++ computeFootprint perm b
  | .funcApp _ args _ _ _ => computeFootprintList perm args

/-- Footprints of a vector of expressions, left to right. -/
def computeFootprintList (perm : PermAmount) : List Expr → List Expr
  | [] => []
  | e :: es => computeFootprint perm e ++ computeFootprintList perm es
end

mutual
/-- The walk performed by `Expr::is_pure`'s `PurityFinder`: the flag it
raises.  The permission-node hooks set the flag without recursing; the
default `walk_forall` visits the bound variables and the body but not the
triggers. -/
def purityFlag : Expr → Bool
  | .local_ _ _ => false
  | .variant b _ _ => purityFlag b
  | .field b _ _ => purityFlag b
  | .addrOf b _ _ => purityFlag b
  | .labelledOld _ b _ => purityFlag b
  | .const _ _ => false
  | .magicWand l r _ _ => purityFlag l || purityFlag r
  | .predicateAccessPredicate _ _ _ _ => true
  | .fieldAccessPredicate _ _ _ => true
  | .unaryOp _ a _ => purityFlag a
  | .binOp _ l r _ => purityFlag l || purityFlag r
  | .unfolding _ args b _ _ _ => purityFlagList args || purityFlag b
  | .cond g t e _ => purityFlag g || purityFlag t || purityFlag e
  | .forAll _ _ b _ => purityFlag b
  | .letExpr _ d b _ => purityFlag d || purityFlag b
  | .funcApp _ args _ _ _ => purityFlagList args

/-- Flag accumulation over a vector of expressions. -/
def purityFlagList : List Expr → Bool
  | [] => false
  | e :: es => purityFlag e || purityFlagList es
end

/-- `Expr::is_pure`: purity holds iff the walker's flag stays unset. -/
def Expr.isPure (e : Expr) : Bool := !purityFlag e

/-- Whether a node is a permission node (`PredicateAccessPredicate` or
`FieldAccessPredicate`). -/
def isPermNode : Expr → Bool
  | .predicateAccessPredicate _ _ _ _ => true
  | .fieldAccessPredicate _ _ _ => true
  | _ => false

mutual
/-- The claim-side occurrence test: does a permission node occur anywhere
in the expression?  When `withTriggers` is true, quantifier triggers count
as part of the expression; when it is false they do not. -/
def containsPermNode (withTriggers : Bool) : Expr → Bool
  | .local_ _ _ => false
  | .variant b _ _ => containsPermNode withTriggers b
  | .field b _ _ => containsPermNode withTriggers b
  | .addrOf b _ _ => containsPermNode withTriggers b
  | .labelledOld _ b _ => containsPermNode withTriggers b
  | .const _ _ => false
  | .magicWand l r _ _ =>
      containsPermNode withTriggers l || containsPermNode withTriggers r
  | .predicateAccessPredicate _ _ _ _ => true
  | .fieldAccessPredicate _ _ _ => true
  | .unaryOp _ a _ => containsPermNode withTriggers a
  | .binOp _ l r _ =>
      containsPermNode withTriggers l || containsPermNode withTriggers r
  | .unfolding _ args b _ _ _ =>
      containsPermNodeList withTriggers args || containsPermNode withTriggers b
  | .cond g t e _ =>
      containsPermNode withTriggers g || containsPermNode withTriggers t
        || containsPermNode withTriggers e
  | .forAll _ ts b _ =>
      (withTriggers && containsPermNodeTriggers withTriggers ts)
        || containsPermNode withTriggers b
  | .letExpr _ d b _ =>
      containsPermNode withTriggers d || containsPermNode withTriggers b
  | .funcApp _ args _ _ _ => containsPermNodeList withTriggers args

/-- Occurrence test over a vector of expressions. -/
def containsPermNodeList (withTriggers : Bool) : List Expr → Bool
  | [] => false
  | e :: es =>
      containsPermNode withTriggers e || containsPermNodeList withTriggers es

/-- Occurrence test over a vector of triggers. -/
def containsPermNodeTriggers (withTriggers : Bool) : List Trigger → Bool
  | [] => false
  | .mk ps :: ts =>
      containsPermNodeList withTriggers ps
        || containsPermNodeTriggers withTriggers ts
end

/-- `Expr::filter_perm_conjunction`: keep permission leaves and `&&` spines,
replace every other node by the constant `true`. -/
def Expr.filterPermConjunction : Expr → Expr
  | .predicateAccessPredicate n a pa p => .predicateAccessPredicate n a pa p
  | .fieldAccessPredicate b pa p => .fieldAccessPredicate b pa p
  | .binOp .and l r p =>
      .binOp .and (Expr.filterPermConjunction l) (Expr.filterPermConjunction r) p
  | _ => Expr.trueLit

/-- The claim-side output grammar for `filter_perm_conjunction` read
strictly: permission leaves joined by `&&` and nothing else. -/
def isPermConjStrict : Expr → Bool
  | .predicateAccessPredicate _ _ _ _ => true
  | .fieldAccessPredicate _ _ _ => true
  | .binOp .and l r _ => isPermConjStrict l && isPermConjStrict r
  | _ => false

/-- The output grammar that the code actually produces: permission leaves
and the default-position constant `true`, joined by `&&`. -/
def isPermConjOrTrue : Expr → Bool
  | .predicateAccessPredicate _ _ _ _ => true
  | .fieldAccessPredicate _ _ _ => true
  | .binOp .and l r _ => isPermConjOrTrue l && isPermConjOrTrue r
  | .const (.bool true) p => decide (p = Position.default)
  | _ => false

mutual
/-- `Expr::remove_read_permissions`: the `ReadPermRemover` fold.  The two
permission hooks assert `is_valid_for_specs`, keep `Write` nodes as they
are (without folding their argument), rewrite `Read` nodes to `true`, and
are `unreachable!` for `None`; every assertion or `unreachable!` failure is
a `none` result here.  All other variants follow the default fold, whose
`fold_forall` does not fold the triggers. -/
def removeReadPermissions : Expr → Option Expr
  | .local_ v p => some (.local_ v p)
  | .variant b f p => do
      let b' ← removeReadPermissions b
      pure (.variant b' f p)
  | .field b f p => do
      let b' ← removeReadPermissions b
      pure (.field b' f p)
  | .addrOf b t p => do
      let b' ← removeReadPermissions b
      pure (.addrOf b' t p)
  | .labelledOld l b p => do
      let b' ← removeReadPermissions b
      pure (.labelledOld l b' p)
  | .const c p => some (.const c p)
  | .magicWand l r b p => do
      let l' ← removeReadPermissions l
      let r' ← removeReadPermissions r
      pure (.magicWand l' r' b p)
  | .predicateAccessPredicate n a pa p =>
      match pa with
      | .write => some (.predicateAccessPredicate n a pa p)
      | .read => some Expr.trueLit
      | _ => none
  | .fieldAccessPredicate b pa p =>
      match pa with
      | .write => some (.fieldAccessPredicate b pa p)
      | .read => some Expr.trueLit
      | _ => none
  | .unaryOp op a p => do
      let a' ← removeReadPermissions a
      pure (.unaryOp op a' p)
  | .binOp op l r p => do
      let l' ← removeReadPermissions l
      let r' ← removeReadPermissions r
      pure (.binOp op l' r' p)
  | .unfolding n args b pa v p => do
      let args' ← removeReadPermissionsList args
      let b' ← removeReadPermissions b
      pure (.unfolding n args' b' pa v p)
  | .cond g t e p => do
      let g' ← removeReadPermissions g
      let t' ← removeReadPermissions t
      let e' ← removeReadPermissions e
      pure (.cond g' t' e' p)
  | .forAll vs ts b p => do
      let b' ← removeReadPermissions b
      pure (.forAll vs ts b' p)
  | .letExpr v d b p => do
      let d' ← removeReadPermissions d
      let b' ← removeReadPermissions b
      pure (.letExpr v d' b' p)
  | .funcApp n args fa rt p => do
      let args' ← removeReadPermissionsList args
      pure (.funcApp n args' fa rt p)

/-- The fold over a vector of expressions. -/
def removeReadPermissionsList : List Expr → Option (List Expr)
  | [] => some []
  | e :: es => do
      let e' ← removeReadPermissions e
      let es' ← removeReadPermissionsList es
      pure (e' :: es')
end

mutual
/-- Claim side: every permission node that reaches the transform (that is,
every outermost permission node outside quantifier triggers) carries
amount `Read` or `Write`. -/
def visitedPermsRW : Expr → Bool
  | .local_ _ _ => true
  | .variant b _ _ => visitedPermsRW b
  | .field b _ _ => visitedPermsRW b
  | .addrOf b _ _ => visitedPermsRW b
  | .labelledOld _ b _ => visitedPermsRW b
  | .const _ _ => true
  | .magicWand l r _ _ => visitedPermsRW l && visitedPermsRW r
  | .predicateAccessPredicate _ _ pa _ =>
      decide (pa = .read) || decide (pa = .write)
  | .fieldAccessPredicate _ pa _ =>
      decide (pa = .read) || decide (pa = .write)
  | .unaryOp _ a _ => visitedPermsRW a
  | .binOp _ l r _ => visitedPermsRW l && visitedPermsRW r
  | .unfolding _ args b _ _ _ => visitedPermsRWList args && visitedPermsRW b
  | .cond g t e _ => visitedPermsRW g && visitedPermsRW t && visitedPermsRW e
  | .forAll _ _ b _ => visitedPermsRW b
  | .letExpr _ d b _ => visitedPermsRW d && visitedPermsRW b
  | .funcApp _ args _ _ _ => visitedPermsRWList args

/-- The check over a vector of expressions. -/
def visitedPermsRWList : List Expr → Bool
  | [] => true
  | e :: es => visitedPermsRW e && visitedPermsRWList es
end

mutual
/-- Claim side (`removeReadSpec`): leave every `Write`-amount permission
node unchanged, replace every `Read`-amount one by the constant `true`, and
rebuild everything else structurally (triggers are not transformed, as in
the default fold). -/
def removeReadSpec : Expr → Expr
  | .local_ v p => .local_ v p
  | .variant b f p => .variant (removeReadSpec b) f p
  | .field b f p => .field (removeReadSpec b) f p
  | .addrOf b t p => .addrOf (removeReadSpec b) t p
  | .labelledOld l b p => .labelledOld l (removeReadSpec b) p
  | .const c p => .const c p
  | .magicWand l r b p => .magicWand (removeReadSpec l) (removeReadSpec r) b p
  | .predicateAccessPredicate n a pa p =>
      if pa = .read then Expr.trueLit else .predicateAccessPredicate n a pa p
  | .fieldAccessPredicate b pa p =>
      if pa = .read then Expr.trueLit else .fieldAccessPredicate b pa p
  | .unaryOp op a p => .unaryOp op (removeReadSpec a) p
  | .binOp op l r p => .binOp op (removeReadSpec l) (removeReadSpec r) p
  | .unfolding n args b pa v p =>
      .unfolding n (removeReadSpecList args) (removeReadSpec b) pa v p
  | .cond g t e p =>
      .cond (removeReadSpec g) (removeReadSpec t) (removeReadSpec e) p
  | .forAll vs ts b p => .forAll vs ts (removeReadSpec b) p
  | .letExpr v d b p => .letExpr v (removeReadSpec d) (removeReadSpec b) p
  | .funcApp n args fa rt p => .funcApp n (removeReadSpecList args) fa rt p

/-- The claim-side transform over a vector of expressions. -/
def removeReadSpecList : List Expr → List Expr
  | [] => []
  | e :: es => removeReadSpec e :: removeReadSpecList es
end

/-- Modelled from the spec: `typaram::Substs`, a name-to-name substitution
table for generic-name fragments. -/
abbrev Substs := List (String × String)

/-- Modelled from the spec: infer a generic-name substitution from two type
names; learning from two equal names yields no substitution. -/
def Substs.learn (a b : String) : Substs :=
  if a = b then [] else [(a, b)]

/-- Modelled from the spec: apply the learned table by textual
substitution. -/
def Substs.apply (s : Substs) (n : String) : String :=
  s.foldl (fun acc q => acc.replace q.1 q.2) n

/-- The field patching performed by `PlaceReplacer::fold` right after a
`Field` node is rebuilt: when a typaram table was learned, the `subst` flag
is up and the field type is a reference, the field's predicate name is
rewritten through the table. -/
def patchField (ts : Option Substs) (subst : Bool) (f : Field) : Field :=
  match ts with
  | Option.none => f
  | Option.some s =>
      if subst && f.typ.isRef then
        Field.new f.name (.typedRef (s.apply f.typ.name))
      else f

/-- The typaram table learned at the start of `Expr::replace_place`: only
when both target and replacement are reference-typed locals. -/
def learnSubsts : Expr → Expr → Option Substs
  | .local_ tv _, .local_ rv _ =>
      if tv.typ.isRef && rv.typ.isRef then
        some (Substs.learn tv.typ.name rv.typ.name)
      else none
  | _, _ => none

/-- The replacement guard of `PlaceReplacer::fold`: the node is a place
structurally equal (ignoring positions) to the target. -/
def isTheTarget (t e : Expr) : Bool := e.isPlace && exprEq e t

/-- The shadowing guard of `PlaceReplacer::fold_forall`: the bound
variables contain the target's root variable. -/
def shadowsTarget (t : Expr) (vs : List LocalVar) : Bool :=
  match Expr.getBase t with
  | some v => vs.contains v
  | none => false

mutual
/-- The `PlaceReplacer` fold of `Expr::replace_place`, with the mutable
`subst` flag threaded explicitly: a place equal (ignoring positions) to the
target becomes the replacement and raises the flag; a `ForAll` whose bound
variables contain the target's root variable is returned untouched;
otherwise children are folded left to right, a rebuilt `Field` keeps the
flag and patches its type through the typaram table, and every other
rebuilt node lowers the flag. -/
def rpFold (t r : Expr) (ts : Option Substs) : Expr → Bool → Expr × Bool
  | e, flag =>
    if isTheTarget t e then (r, true)
    else
      match e with
      | .local_ v p => (.local_ v p, false)
      | .variant b f p =>
          let x := rpFold t r ts b flag
          (.variant x.1 f p, false)
      | .field b f p =>
          let x := rpFold t r ts b flag
          (.field x.1 (patchField ts x.2 f) p, x.2)
      | .addrOf b ty p =>
          let x := rpFold t r ts b flag
          (.addrOf x.1 ty p, false)
      | .labelledOld l b p =>
          let x := rpFold t r ts b flag
          (.labelledOld l x.1 p, false)
      | .const c p => (.const c p, false)
      | .magicWand l rr br p =>
          let x := rpFold t r ts l flag
          let y := rpFold t r ts rr x.2
          (.magicWand x.1 y.1 br p, false)
      | .predicateAccessPredicate n a pa p =>
          let x := rpFold t r ts a flag
          (.predicateAccessPredicate n x.1 pa p, false)
      | .fieldAccessPredicate b pa p =>
          let x := rpFold t r ts b flag
          (.fieldAccessPredicate x.1 pa p, false)
      | .unaryOp op a p =>
          let x := rpFold t r ts a flag
          (.unaryOp op x.1 p, false)
      | .binOp op l rr p =>
          let x := rpFold t r ts l flag
          let y := rpFold t r ts rr x.2
          (.binOp op x.1 y.1 p, false)
      | .unfolding n args b pa v p =>
          let xs := rpFoldList t r ts args flag
          let y := rpFold t r ts b xs.2
          (.unfolding n xs.1 y.1 pa v p, false)
      | .cond g th el p =>
          let x := rpFold t r ts g flag
          let y := rpFold t r ts th x.2
          let z := rpFold t r ts el y.2
          (.cond x.1 y.1 z.1 p, false)
      | .forAll vs trigs b p =>
          if shadowsTarget t vs then
            (.forAll vs trigs b p, false)
          else
            let trigs' := rpFoldTriggers t r ts trigs
            let y := rpFold t r ts b flag
            (.forAll vs trigs' y.1 p, false)
      | .letExpr v d b p =>
          let x := rpFold t r ts d flag
          let y := rpFold t r ts b x.2
          (.letExpr v x.1 y.1 p, false)
      | .funcApp n args fa rt p =>
          let xs := rpFoldList t r ts args flag
          (.funcApp n xs.1 fa rt p, false)

/-- The fold over a vector of expressions, threading the flag left to
right. -/
def rpFoldList (t r : Expr) (ts : Option Substs) :
    List Expr → Bool → List Expr × Bool
  | [], flag => ([], flag)
  | e :: es, flag =>
      let x := rpFold t r ts e flag
      let ys := rpFoldList t r ts es x.2
      (x.1 :: ys.1, ys.2)

/-- Modelled from the spec: `Trigger::replace_place` applies the
substitution to each expression of each trigger (each with a fresh
folder, so with a fresh flag). -/
def rpFoldTriggers (t r : Expr) (ts : Option Substs) :
    List Trigger → List Trigger
  | [] => []
  | .mk ps :: rest => .mk (rpFoldParts t r ts ps) :: rpFoldTriggers t r ts rest

/-- The substitution over the expressions of one trigger. -/
def rpFoldParts (t r : Expr) (ts : Option Substs) : List Expr → List Expr
  | [] => []
  | e :: es => (rpFold t r ts e false).1 :: rpFoldParts t r ts es
end

/-- `Expr::replace_place`: assert the types are compatible when the
replacement is a place (a failure is `none`), learn the typaram table, and
run the `PlaceReplacer` fold with the flag initially down. -/
def Expr.replacePlace (e t r : Expr) : Option Expr :=
  if r.isPlace && !(decide (Expr.getType t = Expr.getType r)) then none
  else some (rpFold t r (learnSubsts t r) e false).1

mutual
/-- Claim side (`replacePlaceSpec`): replace every place sub-expression
structurally equal (ignoring positions) to the target with the
replacement, leaving untouched any `ForAll` subtree whose bound variables
contain the target's root variable. -/
def replacePlaceSpec (t r : Expr) : Expr → Expr
  | .local_ v p =>
      if isTheTarget t (.local_ v p) then r else .local_ v p
  | .variant b f p =>
      if isTheTarget t (.variant b f p) then r
      else .variant (replacePlaceSpec t r b) f p
  | .field b f p =>
      if isTheTarget t (.field b f p) then r
      else .field (replacePlaceSpec t r b) f p
  | .addrOf b ty p =>
      if isTheTarget t (.addrOf b ty p) then r
      else .addrOf (replacePlaceSpec t r b) ty p
  | .labelledOld l b p =>
      if isTheTarget t (.labelledOld l b p) then r
      else .labelledOld l (replacePlaceSpec t r b) p
  | .const c p =>
      if isTheTarget t (.const c p) then r else .const c p
  | .magicWand l rr br p =>
      if isTheTarget t (.magicWand l rr br p) then r
      else .magicWand (replacePlaceSpec t r l) (replacePlaceSpec t r rr) br p
  | .predicateAccessPredicate n a pa p =>
      if isTheTarget t (.predicateAccessPredicate n a pa p) then r
      else .predicateAccessPredicate n (replacePlaceSpec t r a) pa p
  | .fieldAccessPredicate b pa p =>
      if isTheTarget t (.fieldAccessPredicate b pa p) then r
      else .fieldAccessPredicate (replacePlaceSpec t r b) pa p
  | .unaryOp op a p =>
      if isTheTarget t (.unaryOp op a p) then r
      else .unaryOp op (replacePlaceSpec t r a) p
  | .binOp op l rr p =>
      if isTheTarget t (.binOp op l rr p) then r
      else .binOp op (replacePlaceSpec t r l) (replacePlaceSpec t r rr) p
  | .unfolding n args b pa v p =>
      if isTheTarget t (.unfolding n args b pa v p) then r
      else
        .unfolding n (replacePlaceSpecList t r args)
          (replacePlaceSpec t r b) pa v p
  | .cond g th el p =>
      if isTheTarget t (.cond g th el p) then r
      else
        .cond (replacePlaceSpec t r g) (replacePlaceSpec t r th)
          (replacePlaceSpec t r el) p
  | .forAll vs trigs b p =>
      if isTheTarget t (.forAll vs trigs b p) then r
      else if shadowsTarget t vs then .forAll vs trigs b p
      else
        .forAll vs (replacePlaceSpecTriggers t r trigs)
          (replacePlaceSpec t r b) p
  | .letExpr v d b p =>
      if isTheTarget t (.letExpr v d b p) then r
      else .letExpr v (replacePlaceSpec t r d) (replacePlaceSpec t r b) p
  | .funcApp n args fa rt p =>
      if isTheTarget t (.funcApp n args fa rt p) then r
      else .funcApp n (replacePlaceSpecList t r args) fa rt p

/-- The claim-side substitution over a vector of expressions. -/
def replacePlaceSpecList (t r : Expr) : List Expr → List Expr
  | [] => []
  | e :: es => replacePlaceSpec t r e :: replacePlaceSpecList t r es

/-- The claim-side substitution over a vector of triggers. -/
def replacePlaceSpecTriggers (t r : Expr) : List Trigger → List Trigger
  | [] => []
  | .mk ps :: rest =>
      .mk (replacePlaceSpecList t r ps) :: replacePlaceSpecTriggers t r rest
end


/-! ## Unfold lemmas (the mutual definitions do not produce usable
equation lemmas in reasonable time, so they are stated once by `rfl`) -/

@[simp] theorem exprEq_loc_loc (v : LocalVar) (p : Position) (vq : LocalVar) (pq : Position) :
    exprEq (Expr.local_ v p) (Expr.local_ vq pq) = decide (v = vq) := rfl

@[simp] theorem exprEq_loc_var (v : LocalVar) (p : Position) (bq : Expr) (fq : Field) (pq : Position) :
    exprEq (Expr.local_ v p) (Expr.variant bq fq pq) = false := rfl

@[simp] theorem exprEq_loc_fld (v : LocalVar) (p : Position) (bq : Expr) (fq : Field) (pq : Position) :
    exprEq (Expr.local_ v p) (Expr.field bq fq pq) = false := rfl

@[simp] theorem exprEq_loc_adr (v : LocalVar) (p : Position) (bq : Expr) (tyq : Ty) (pq : Position) :
    exprEq (Expr.local_ v p) (Expr.addrOf bq tyq pq) = false := rfl

@[simp] theorem exprEq_loc_old (v : LocalVar) (p : Position) (lq : String) (bq : Expr) (pq : Position) :
    exprEq (Expr.local_ v p) (Expr.labelledOld lq bq pq) = false := rfl

@[simp] theorem exprEq_loc_cst (v : LocalVar) (p : Position) (cq : Const) (pq : Position) :
    exprEq (Expr.local_ v p) (Expr.const cq pq) = false := rfl

@[simp] theorem exprEq_loc_mgw (v : LocalVar) (p : Position) (a1q : Expr) (a2q : Expr) (brq : Option Borrow) (pq : Position) :
    exprEq (Expr.local_ v p) (Expr.magicWand a1q a2q brq pq) = false := rfl

@[simp] theorem exprEq_loc_pap (v : LocalVar) (p : Position) (nq : String) (aq : Expr) (paq : PermAmount) (pq : Position) :
    exprEq (Expr.local_ v p) (Expr.predicateAccessPredicate nq aq paq pq) = false := rfl

@[simp] theorem exprEq_loc_fap (v : LocalVar) (p : Position) (bq : Expr) (paq : PermAmount) (pq : Position) :
    exprEq (Expr.local_ v p) (Expr.fieldAccessPredicate bq paq pq) = false := rfl

@[simp] theorem exprEq_loc_uop (v : LocalVar) (p : Position) (opq : UnaryOpKind) (aq : Expr) (pq : Position) :
    exprEq (Expr.local_ v p) (Expr.unaryOp opq aq pq) = false := rfl

@[simp] theorem exprEq_loc_bop (v : LocalVar) (p : Position) (opq : BinOpKind) (a1q : Expr) (a2q : Expr) (pq : Position) :
    exprEq (Expr.local_ v p) (Expr.binOp opq a1q a2q pq) = false := rfl

@[simp] theorem exprEq_loc_unf (v : LocalVar) (p : Position) (nq : String) (argsq : List Expr) (bq : Expr) (paq : PermAmount) (viq : MaybeEnumVariantIndex) (pq : Position) :
    exprEq (Expr.local_ v p) (Expr.unfolding nq argsq bq paq viq pq) = false := rfl

@[simp] theorem exprEq_loc_cnd (v : LocalVar) (p : Position) (gq : Expr) (a1q : Expr) (a2q : Expr) (pq : Position) :
    exprEq (Expr.local_ v p) (Expr.cond gq a1q a2q pq) = false := rfl

@[simp] theorem exprEq_loc_fal (v : LocalVar) (p : Position) (vsq : List LocalVar) (trgsq : List Trigger) (bq : Expr) (pq : Position) :
    exprEq (Expr.local_ v p) (Expr.forAll vsq trgsq bq pq) = false := rfl

@[simp] theorem exprEq_loc_lte (v : LocalVar) (p : Position) (vq : LocalVar) (dq : Expr) (bq : Expr) (pq : Position) :
    exprEq (Expr.local_ v p) (Expr.letExpr vq dq bq pq) = false := rfl

@[simp] theorem exprEq_loc_app (v : LocalVar) (p : Position) (nq : String) (argsq : List Expr) (faq : List LocalVar) (rtq : Ty) (pq : Position) :
    exprEq (Expr.local_ v p) (Expr.funcApp nq argsq faq rtq pq) = false := rfl

@[simp] theorem exprEq_var_loc (b : Expr) (f : Field) (p : Position) (vq : LocalVar) (pq : Position) :
    exprEq (Expr.variant b f p) (Expr.local_ vq pq) = false := rfl

@[simp] theorem exprEq_var_var (b : Expr) (f : Field) (p : Position) (bq : Expr) (fq : Field) (pq : Position) :
    exprEq (Expr.variant b f p) (Expr.variant bq fq pq) = (exprEq b bq && decide (f = fq)) := rfl

@[simp] theorem exprEq_var_fld (b : Expr) (f : Field) (p : Position) (bq : Expr) (fq : Field) (pq : Position) :
    exprEq (Expr.variant b f p) (Expr.field bq fq pq) = false := rfl

@[simp] theorem exprEq_var_adr (b : Expr) (f : Field) (p : Position) (bq : Expr) (tyq : Ty) (pq : Position) :
    exprEq (Expr.variant b f p) (Expr.addrOf bq tyq pq) = false := rfl

@[simp] theorem exprEq_var_old (b : Expr) (f : Field) (p : Position) (lq : String) (bq : Expr) (pq : Position) :
    exprEq (Expr.variant b f p) (Expr.labelledOld lq bq pq) = false := rfl

@[simp] theorem exprEq_var_cst (b : Expr) (f : Field) (p : Position) (cq : Const) (pq : Position) :
    exprEq (Expr.variant b f p) (Expr.const cq pq) = false := rfl

@[simp] theorem exprEq_var_mgw (b : Expr) (f : Field) (p : Position) (a1q : Expr) (a2q : Expr) (brq : Option Borrow) (pq : Position) :
    exprEq (Expr.variant b f p) (Expr.magicWand a1q a2q brq pq) = false := rfl

@[simp] theorem exprEq_var_pap (b : Expr) (f : Field) (p : Position) (nq : String) (aq : Expr) (paq : PermAmount) (pq : Position) :
    exprEq (Expr.variant b f p) (Expr.predicateAccessPredicate nq aq paq pq) = false := rfl

@[simp] theorem exprEq_var_fap (b : Expr) (f : Field) (p : Position) (bq : Expr) (paq : PermAmount) (pq : Position) :
    exprEq (Expr.variant b f p) (Expr.fieldAccessPredicate bq paq pq) = false := rfl

@[simp] theorem exprEq_var_uop (b : Expr) (f : Field) (p : Position) (opq : UnaryOpKind) (aq : Expr) (pq : Position) :
    exprEq (Expr.variant b f p) (Expr.unaryOp opq aq pq) = false := rfl

@[simp] theorem exprEq_var_bop (b : Expr) (f : Field) (p : Position) (opq : BinOpKind) (a1q : Expr) (a2q : Expr) (pq : Position) :
    exprEq (Expr.variant b f p) (Expr.binOp opq a1q a2q pq) = false := rfl

@[simp] theorem exprEq_var_unf (b : Expr) (f : Field) (p : Position) (nq : String) (argsq : List Expr) (bq : Expr) (paq : PermAmount) (viq : MaybeEnumVariantIndex) (pq : Position) :
    exprEq (Expr.variant b f p) (Expr.unfolding nq argsq bq paq viq pq) = false := rfl

@[simp] theorem exprEq_var_cnd (b : Expr) (f : Field) (p : Position) (gq : Expr) (a1q : Expr) (a2q : Expr) (pq : Position) :
    exprEq (Expr.variant b f p) (Expr.cond gq a1q a2q pq) = false := rfl

@[simp] theorem exprEq_var_fal (b : Expr) (f : Field) (p : Position) (vsq : List LocalVar) (trgsq : List Trigger) (bq : Expr) (pq : Position) :
    exprEq (Expr.variant b f p) (Expr.forAll vsq trgsq bq pq) = false := rfl

@[simp] theorem exprEq_var_lte (b : Expr) (f : Field) (p : Position) (vq : LocalVar) (dq : Expr) (bq : Expr) (pq : Position) :
    exprEq (Expr.variant b f p) (Expr.letExpr vq dq bq pq) = false := rfl

@[simp] theorem exprEq_var_app (b : Expr) (f : Field) (p : Position) (nq : String) (argsq : List Expr) (faq : List LocalVar) (rtq : Ty) (pq : Position) :
    exprEq (Expr.variant b f p) (Expr.funcApp nq argsq faq rtq pq) = false := rfl

@[simp] theorem exprEq_fld_loc (b : Expr) (f : Field) (p : Position) (vq : LocalVar) (pq : Position) :
    exprEq (Expr.field b f p) (Expr.local_ vq pq) = false := rfl

@[simp] theorem exprEq_fld_var (b : Expr) (f : Field) (p : Position) (bq : Expr) (fq : Field) (pq : Position) :
    exprEq (Expr.field b f p) (Expr.variant bq fq pq) = false := rfl

@[simp] theorem exprEq_fld_fld (b : Expr) (f : Field) (p : Position) (bq : Expr) (fq : Field) (pq : Position) :
    exprEq (Expr.field b f p) (Expr.field bq fq pq) = (exprEq b bq && decide (f = fq)) := rfl

@[simp] theorem exprEq_fld_adr (b : Expr) (f : Field) (p : Position) (bq : Expr) (tyq : Ty) (pq : Position) :
    exprEq (Expr.field b f p) (Expr.addrOf bq tyq pq) = false := rfl

@[simp] theorem exprEq_fld_old (b : Expr) (f : Field) (p : Position) (lq : String) (bq : Expr) (pq : Position) :
    exprEq (Expr.field b f p) (Expr.labelledOld lq bq pq) = false := rfl

@[simp] theorem exprEq_fld_cst (b : Expr) (f : Field) (p : Position) (cq : Const) (pq : Position) :
    exprEq (Expr.field b f p) (Expr.const cq pq) = false := rfl

@[simp] theorem exprEq_fld_mgw (b : Expr) (f : Field) (p : Position) (a1q : Expr) (a2q : Expr) (brq : Option Borrow) (pq : Position) :
    exprEq (Expr.field b f p) (Expr.magicWand a1q a2q brq pq) = false := rfl

@[simp] theorem exprEq_fld_pap (b : Expr) (f : Field) (p : Position) (nq : String) (aq : Expr) (paq : PermAmount) (pq : Position) :
    exprEq (Expr.field b f p) (Expr.predicateAccessPredicate nq aq paq pq) = false := rfl

@[simp] theorem exprEq_fld_fap (b : Expr) (f : Field) (p : Position) (bq : Expr) (paq : PermAmount) (pq : Position) :
    exprEq (Expr.field b f p) (Expr.fieldAccessPredicate bq paq pq) = false := rfl

@[simp] theorem exprEq_fld_uop (b : Expr) (f : Field) (p : Position) (opq : UnaryOpKind) (aq : Expr) (pq : Position) :
    exprEq (Expr.field b f p) (Expr.unaryOp opq aq pq) = false := rfl

@[simp] theorem exprEq_fld_bop (b : Expr) (f : Field) (p : Position) (opq : BinOpKind) (a1q : Expr) (a2q : Expr) (pq : Position) :
    exprEq (Expr.field b f p) (Expr.binOp opq a1q a2q pq) = false := rfl

@[simp] theorem exprEq_fld_unf (b : Expr) (f : Field) (p : Position) (nq : String) (argsq : List Expr) (bq : Expr) (paq : PermAmount) (viq : MaybeEnumVariantIndex) (pq : Position) :
    exprEq (Expr.field b f p) (Expr.unfolding nq argsq bq paq viq pq) = false := rfl

@[simp] theorem exprEq_fld_cnd (b : Expr) (f : Field) (p : Position) (gq : Expr) (a1q : Expr) (a2q : Expr) (pq : Position) :
    exprEq (Expr.field b f p) (Expr.cond gq a1q a2q pq) = false := rfl

@[simp] theorem exprEq_fld_fal (b : Expr) (f : Field) (p : Position) (vsq : List LocalVar) (trgsq : List Trigger) (bq : Expr) (pq : Position) :
    exprEq (Expr.field b f p) (Expr.forAll vsq trgsq bq pq) = false := rfl

@[simp] theorem exprEq_fld_lte (b : Expr) (f : Field) (p : Position) (vq : LocalVar) (dq : Expr) (bq : Expr) (pq : Position) :
    exprEq (Expr.field b f p) (Expr.letExpr vq dq bq pq) = false := rfl

@[simp] theorem exprEq_fld_app (b : Expr) (f : Field) (p : Position) (nq : String) (argsq : List Expr) (faq : List LocalVar) (rtq : Ty) (pq : Position) :
    exprEq (Expr.field b f p) (Expr.funcApp nq argsq faq rtq pq) = false := rfl

@[simp] theorem exprEq_adr_loc (b : Expr) (ty : Ty) (p : Position) (vq : LocalVar) (pq : Position) :
    exprEq (Expr.addrOf b ty p) (Expr.local_ vq pq) = false := rfl

@[simp] theorem exprEq_adr_var (b : Expr) (ty : Ty) (p : Position) (bq : Expr) (fq : Field) (pq : Position) :
    exprEq (Expr.addrOf b ty p) (Expr.variant bq fq pq) = false := rfl

@[simp] theorem exprEq_adr_fld (b : Expr) (ty : Ty) (p : Position) (bq : Expr) (fq : Field) (pq : Position) :
    exprEq (Expr.addrOf b ty p) (Expr.field bq fq pq) = false := rfl

@[simp] theorem exprEq_adr_adr (b : Expr) (ty : Ty) (p : Position) (bq : Expr) (tyq : Ty) (pq : Position) :
    exprEq (Expr.addrOf b ty p) (Expr.addrOf bq tyq pq) = (exprEq b bq && decide (ty = tyq)) := rfl

@[simp] theorem exprEq_adr_old (b : Expr) (ty : Ty) (p : Position) (lq : String) (bq : Expr) (pq : Position) :
    exprEq (Expr.addrOf b ty p) (Expr.labelledOld lq bq pq) = false := rfl

@[simp] theorem exprEq_adr_cst (b : Expr) (ty : Ty) (p : Position) (cq : Const) (pq : Position) :
    exprEq (Expr.addrOf b ty p) (Expr.const cq pq) = false := rfl

@[simp] theorem exprEq_adr_mgw (b : Expr) (ty : Ty) (p : Position) (a1q : Expr) (a2q : Expr) (brq : Option Borrow) (pq : Position) :
    exprEq (Expr.addrOf b ty p) (Expr.magicWand a1q a2q brq pq) = false := rfl

@[simp] theorem exprEq_adr_pap (b : Expr) (ty : Ty) (p : Position) (nq : String) (aq : Expr) (paq : PermAmount) (pq : Position) :
    exprEq (Expr.addrOf b ty p) (Expr.predicateAccessPredicate nq aq paq pq) = false := rfl

@[simp] theorem exprEq_adr_fap (b : Expr) (ty : Ty) (p : Position) (bq : Expr) (paq : PermAmount) (pq : Position) :
    exprEq (Expr.addrOf b ty p) (Expr.fieldAccessPredicate bq paq pq) = false := rfl

@[simp] theorem exprEq_adr_uop (b : Expr) (ty : Ty) (p : Position) (opq : UnaryOpKind) (aq : Expr) (pq : Position) :
    exprEq (Expr.addrOf b ty p) (Expr.unaryOp opq aq pq) = false := rfl

@[simp] theorem exprEq_adr_bop (b : Expr) (ty : Ty) (p : Position) (opq : BinOpKind) (a1q : Expr) (a2q : Expr) (pq : Position) :
    exprEq (Expr.addrOf b ty p) (Expr.binOp opq a1q a2q pq) = false := rfl

@[simp] theorem exprEq_adr_unf (b : Expr) (ty : Ty) (p : Position) (nq : String) (argsq : List Expr) (bq : Expr) (paq : PermAmount) (viq : MaybeEnumVariantIndex) (pq : Position) :
    exprEq (Expr.addrOf b ty p) (Expr.unfolding nq argsq bq paq viq pq) = false := rfl

@[simp] theorem exprEq_adr_cnd (b : Expr) (ty : Ty) (p : Position) (gq : Expr) (a1q : Expr) (a2q : Expr) (pq : Position) :
    exprEq (Expr.addrOf b ty p) (Expr.cond gq a1q a2q pq) = false := rfl

@[simp] theorem exprEq_adr_fal (b : Expr) (ty : Ty) (p : Position) (vsq : List LocalVar) (trgsq : List Trigger) (bq : Expr) (pq : Position) :
    exprEq (Expr.addrOf b ty p) (Expr.forAll vsq trgsq bq pq) = false := rfl

@[simp] theorem exprEq_adr_lte (b : Expr) (ty : Ty) (p : Position) (vq : LocalVar) (dq : Expr) (bq : Expr) (pq : Position) :
    exprEq (Expr.addrOf b ty p) (Expr.letExpr vq dq bq pq) = false := rfl

@[simp] theorem exprEq_adr_app (b : Expr) (ty : Ty) (p : Position) (nq : String) (argsq : List Expr) (faq : List LocalVar) (rtq : Ty) (pq : Position) :
    exprEq (Expr.addrOf b ty p) (Expr.funcApp nq argsq faq rtq pq) = false := rfl

@[simp] theorem exprEq_old_loc (l : String) (b : Expr) (p : Position) (vq : LocalVar) (pq : Position) :
    exprEq (Expr.labelledOld l b p) (Expr.local_ vq pq) = false := rfl

@[simp] theorem exprEq_old_var (l : String) (b : Expr) (p : Position) (bq : Expr) (fq : Field) (pq : Position) :
    exprEq (Expr.labelledOld l b p) (Expr.variant bq fq pq) = false := rfl

@[simp] theorem exprEq_old_fld (l : String) (b : Expr) (p : Position) (bq : Expr) (fq : Field) (pq : Position) :
    exprEq (Expr.labelledOld l b p) (Expr.field bq fq pq) = false := rfl

@[simp] theorem exprEq_old_adr (l : String) (b : Expr) (p : Position) (bq : Expr) (tyq : Ty) (pq : Position) :
    exprEq (Expr.labelledOld l b p) (Expr.addrOf bq tyq pq) = false := rfl

@[simp] theorem exprEq_old_old (l : String) (b : Expr) (p : Position) (lq : String) (bq : Expr) (pq : Position) :
    exprEq (Expr.labelledOld l b p) (Expr.labelledOld lq bq pq) = (decide (l = lq) && exprEq b bq) := rfl

@[simp] theorem exprEq_old_cst (l : String) (b : Expr) (p : Position) (cq : Const) (pq : Position) :
    exprEq (Expr.labelledOld l b p) (Expr.const cq pq) = false := rfl

@[simp] theorem exprEq_old_mgw (l : String) (b : Expr) (p : Position) (a1q : Expr) (a2q : Expr) (brq : Option Borrow) (pq : Position) :
    exprEq (Expr.labelledOld l b p) (Expr.magicWand a1q a2q brq pq) = false := rfl

@[simp] theorem exprEq_old_pap (l : String) (b : Expr) (p : Position) (nq : String) (aq : Expr) (paq : PermAmount) (pq : Position) :
    exprEq (Expr.labelledOld l b p) (Expr.predicateAccessPredicate nq aq paq pq) = false := rfl

@[simp] theorem exprEq_old_fap (l : String) (b : Expr) (p : Position) (bq : Expr) (paq : PermAmount) (pq : Position) :
    exprEq (Expr.labelledOld l b p) (Expr.fieldAccessPredicate bq paq pq) = false := rfl

@[simp] theorem exprEq_old_uop (l : String) (b : Expr) (p : Position) (opq : UnaryOpKind) (aq : Expr) (pq : Position) :
    exprEq (Expr.labelledOld l b p) (Expr.unaryOp opq aq pq) = false := rfl

@[simp] theorem exprEq_old_bop (l : String) (b : Expr) (p : Position) (opq : BinOpKind) (a1q : Expr) (a2q : Expr) (pq : Position) :
    exprEq (Expr.labelledOld l b p) (Expr.binOp opq a1q a2q pq) = false := rfl

@[simp] theorem exprEq_old_unf (l : String) (b : Expr) (p : Position) (nq : String) (argsq : List Expr) (bq : Expr) (paq : PermAmount) (viq : MaybeEnumVariantIndex) (pq : Position) :
    exprEq (Expr.labelledOld l b p) (Expr.unfolding nq argsq bq paq viq pq) = false := rfl

@[simp] theorem exprEq_old_cnd (l : String) (b : Expr) (p : Position) (gq : Expr) (a1q : Expr) (a2q : Expr) (pq : Position) :
    exprEq (Expr.labelledOld l b p) (Expr.cond gq a1q a2q pq) = false := rfl

@[simp] theorem exprEq_old_fal (l : String) (b : Expr) (p : Position) (vsq : List LocalVar) (trgsq : List Trigger) (bq : Expr) (pq : Position) :
    exprEq (Expr.labelledOld l b p) (Expr.forAll vsq trgsq bq pq) = false := rfl

@[simp] theorem exprEq_old_lte (l : String) (b : Expr) (p : Position) (vq : LocalVar) (dq : Expr) (bq : Expr) (pq : Position) :
    exprEq (Expr.labelledOld l b p) (Expr.letExpr vq dq bq pq) = false := rfl

@[simp] theorem exprEq_old_app (l : String) (b : Expr) (p : Position) (nq : String) (argsq : List Expr) (faq : List LocalVar) (rtq : Ty) (pq : Position) :
    exprEq (Expr.labelledOld l b p) (Expr.funcApp nq argsq faq rtq pq) = false := rfl

@[simp] theorem exprEq_cst_loc (c : Const) (p : Position) (vq : LocalVar) (pq : Position) :
    exprEq (Expr.const c p) (Expr.local_ vq pq) = false := rfl

@[simp] theorem exprEq_cst_var (c : Const) (p : Position) (bq : Expr) (fq : Field) (pq : Position) :
    exprEq (Expr.const c p) (Expr.variant bq fq pq) = false := rfl

@[simp] theorem exprEq_cst_fld (c : Const) (p : Position) (bq : Expr) (fq : Field) (pq : Position) :
    exprEq (Expr.const c p) (Expr.field bq fq pq) = false := rfl

@[simp] theorem exprEq_cst_adr (c : Const) (p : Position) (bq : Expr) (tyq : Ty) (pq : Position) :
    exprEq (Expr.const c p) (Expr.addrOf bq tyq pq) = false := rfl

@[simp] theorem exprEq_cst_old (c : Const) (p : Position) (lq : String) (bq : Expr) (pq : Position) :
    exprEq (Expr.const c p) (Expr.labelledOld lq bq pq) = false := rfl

@[simp] theorem exprEq_cst_cst (c : Const) (p : Position) (cq : Const) (pq : Position) :
    exprEq (Expr.const c p) (Expr.const cq pq) = decide (c = cq) := rfl

@[simp] theorem exprEq_cst_mgw (c : Const) (p : Position) (a1q : Expr) (a2q : Expr) (brq : Option Borrow) (pq : Position) :
    exprEq (Expr.const c p) (Expr.magicWand a1q a2q brq pq) = false := rfl

@[simp] theorem exprEq_cst_pap (c : Const) (p : Position) (nq : String) (aq : Expr) (paq : PermAmount) (pq : Position) :
    exprEq (Expr.const c p) (Expr.predicateAccessPredicate nq aq paq pq) = false := rfl

@[simp] theorem exprEq_cst_fap (c : Const) (p : Position) (bq : Expr) (paq : PermAmount) (pq : Position) :
    exprEq (Expr.const c p) (Expr.fieldAccessPredicate bq paq pq) = false := rfl

@[simp] theorem exprEq_cst_uop (c : Const) (p : Position) (opq : UnaryOpKind) (aq : Expr) (pq : Position) :
    exprEq (Expr.const c p) (Expr.unaryOp opq aq pq) = false := rfl

@[simp] theorem exprEq_cst_bop (c : Const) (p : Position) (opq : BinOpKind) (a1q : Expr) (a2q : Expr) (pq : Position) :
    exprEq (Expr.const c p) (Expr.binOp opq a1q a2q pq) = false := rfl

@[simp] theorem exprEq_cst_unf (c : Const) (p : Position) (nq : String) (argsq : List Expr) (bq : Expr) (paq : PermAmount) (viq : MaybeEnumVariantIndex) (pq : Position) :
    exprEq (Expr.const c p) (Expr.unfolding nq argsq bq paq viq pq) = false := rfl

@[simp] theorem exprEq_cst_cnd (c : Const) (p : Position) (gq : Expr) (a1q : Expr) (a2q : Expr) (pq : Position) :
    exprEq (Expr.const c p) (Expr.cond gq a1q a2q pq) = false := rfl

@[simp] theorem exprEq_cst_fal (c : Const) (p : Position) (vsq : List LocalVar) (trgsq : List Trigger) (bq : Expr) (pq : Position) :
    exprEq (Expr.const c p) (Expr.forAll vsq trgsq bq pq) = false := rfl

@[simp] theorem exprEq_cst_lte (c : Const) (p : Position) (vq : LocalVar) (dq : Expr) (bq : Expr) (pq : Position) :
    exprEq (Expr.const c p) (Expr.letExpr vq dq bq pq) = false := rfl

@[simp] theorem exprEq_cst_app (c : Const) (p : Position) (nq : String) (argsq : List Expr) (faq : List LocalVar) (rtq : Ty) (pq : Position) :
    exprEq (Expr.const c p) (Expr.funcApp nq argsq faq rtq pq) = false := rfl

@[simp] theorem exprEq_mgw_loc (a1 : Expr) (a2 : Expr) (br : Option Borrow) (p : Position) (vq : LocalVar) (pq : Position) :
    exprEq (Expr.magicWand a1 a2 br p) (Expr.local_ vq pq) = false := rfl

@[simp] theorem exprEq_mgw_var (a1 : Expr) (a2 : Expr) (br : Option Borrow) (p : Position) (bq : Expr) (fq : Field) (pq : Position) :
    exprEq (Expr.magicWand a1 a2 br p) (Expr.variant bq fq pq) = false := rfl

@[simp] theorem exprEq_mgw_fld (a1 : Expr) (a2 : Expr) (br : Option Borrow) (p : Position) (bq : Expr) (fq : Field) (pq : Position) :
    exprEq (Expr.magicWand a1 a2 br p) (Expr.field bq fq pq) = false := rfl

@[simp] theorem exprEq_mgw_adr (a1 : Expr) (a2 : Expr) (br : Option Borrow) (p : Position) (bq : Expr) (tyq : Ty) (pq : Position) :
    exprEq (Expr.magicWand a1 a2 br p) (Expr.addrOf bq tyq pq) = false := rfl

@[simp] theorem exprEq_mgw_old (a1 : Expr) (a2 : Expr) (br : Option Borrow) (p : Position) (lq : String) (bq : Expr) (pq : Position) :
    exprEq (Expr.magicWand a1 a2 br p) (Expr.labelledOld lq bq pq) = false := rfl

@[simp] theorem exprEq_mgw_cst (a1 : Expr) (a2 : Expr) (br : Option Borrow) (p : Position) (cq : Const) (pq : Position) :
    exprEq (Expr.magicWand a1 a2 br p) (Expr.const cq pq) = false := rfl

@[simp] theorem exprEq_mgw_mgw (a1 : Expr) (a2 : Expr) (br : Option Borrow) (p : Position) (a1q : Expr) (a2q : Expr) (brq : Option Borrow) (pq : Position) :
    exprEq (Expr.magicWand a1 a2 br p) (Expr.magicWand a1q a2q brq pq) = (exprEq a1 a1q && exprEq a2 a2q && decide (br = brq)) := rfl

@[simp] theorem exprEq_mgw_pap (a1 : Expr) (a2 : Expr) (br : Option Borrow) (p : Position) (nq : String) (aq : Expr) (paq : PermAmount) (pq : Position) :
    exprEq (Expr.magicWand a1 a2 br p) (Expr.predicateAccessPredicate nq aq paq pq) = false := rfl

@[simp] theorem exprEq_mgw_fap (a1 : Expr) (a2 : Expr) (br : Option Borrow) (p : Position) (bq : Expr) (paq : PermAmount) (pq : Position) :
    exprEq (Expr.magicWand a1 a2 br p) (Expr.fieldAccessPredicate bq paq pq) = false := rfl

@[simp] theorem exprEq_mgw_uop (a1 : Expr) (a2 : Expr) (br : Option Borrow) (p : Position) (opq : UnaryOpKind) (aq : Expr) (pq : Position) :
    exprEq (Expr.magicWand a1 a2 br p) (Expr.unaryOp opq aq pq) = false := rfl

@[simp] theorem exprEq_mgw_bop (a1 : Expr) (a2 : Expr) (br : Option Borrow) (p : Position) (opq : BinOpKind) (a1q : Expr) (a2q : Expr) (pq : Position) :
    exprEq (Expr.magicWand a1 a2 br p) (Expr.binOp opq a1q a2q pq) = false := rfl

@[simp] theorem exprEq_mgw_unf (a1 : Expr) (a2 : Expr) (br : Option Borrow) (p : Position) (nq : String) (argsq : List Expr) (bq : Expr) (paq : PermAmount) (viq : MaybeEnumVariantIndex) (pq : Position) :
    exprEq (Expr.magicWand a1 a2 br p) (Expr.unfolding nq argsq bq paq viq pq) = false := rfl

@[simp] theorem exprEq_mgw_cnd (a1 : Expr) (a2 : Expr) (br : Option Borrow) (p : Position) (gq : Expr) (a1q : Expr) (a2q : Expr) (pq : Position) :
    exprEq (Expr.magicWand a1 a2 br p) (Expr.cond gq a1q a2q pq) = false := rfl

@[simp] theorem exprEq_mgw_fal (a1 : Expr) (a2 : Expr) (br : Option Borrow) (p : Position) (vsq : List LocalVar) (trgsq : List Trigger) (bq : Expr) (pq : Position) :
    exprEq (Expr.magicWand a1 a2 br p) (Expr.forAll vsq trgsq bq pq) = false := rfl

@[simp] theorem exprEq_mgw_lte (a1 : Expr) (a2 : Expr) (br : Option Borrow) (p : Position) (vq : LocalVar) (dq : Expr) (bq : Expr) (pq : Position) :
    exprEq (Expr.magicWand a1 a2 br p) (Expr.letExpr vq dq bq pq) = false := rfl

@[simp] theorem exprEq_mgw_app (a1 : Expr) (a2 : Expr) (br : Option Borrow) (p : Position) (nq : String) (argsq : List Expr) (faq : List LocalVar) (rtq : Ty) (pq : Position) :
    exprEq (Expr.magicWand a1 a2 br p) (Expr.funcApp nq argsq faq rtq pq) = false := rfl

@[simp] theorem exprEq_pap_loc (n : String) (a : Expr) (pa : PermAmount) (p : Position) (vq : LocalVar) (pq : Position) :
    exprEq (Expr.predicateAccessPredicate n a pa p) (Expr.local_ vq pq) = false := rfl

@[simp] theorem exprEq_pap_var (n : String) (a : Expr) (pa : PermAmount) (p : Position) (bq : Expr) (fq : Field) (pq : Position) :
    exprEq (Expr.predicateAccessPredicate n a pa p) (Expr.variant bq fq pq) = false := rfl

@[simp] theorem exprEq_pap_fld (n : String) (a : Expr) (pa : PermAmount) (p : Position) (bq : Expr) (fq : Field) (pq : Position) :
    exprEq (Expr.predicateAccessPredicate n a pa p) (Expr.field bq fq pq) = false := rfl

@[simp] theorem exprEq_pap_adr (n : String) (a : Expr) (pa : PermAmount) (p : Position) (bq : Expr) (tyq : Ty) (pq : Position) :
    exprEq (Expr.predicateAccessPredicate n a pa p) (Expr.addrOf bq tyq pq) = false := rfl

@[simp] theorem exprEq_pap_old (n : String) (a : Expr) (pa : PermAmount) (p : Position) (lq : String) (bq : Expr) (pq : Position) :
    exprEq (Expr.predicateAccessPredicate n a pa p) (Expr.labelledOld lq bq pq) = false := rfl

@[simp] theorem exprEq_pap_cst (n : String) (a : Expr) (pa : PermAmount) (p : Position) (cq : Const) (pq : Position) :
    exprEq (Expr.predicateAccessPredicate n a pa p) (Expr.const cq pq) = false := rfl

@[simp] theorem exprEq_pap_mgw (n : String) (a : Expr) (pa : PermAmount) (p : Position) (a1q : Expr) (a2q : Expr) (brq : Option Borrow) (pq : Position) :
    exprEq (Expr.predicateAccessPredicate n a pa p) (Expr.magicWand a1q a2q brq pq) = false := rfl

@[simp] theorem exprEq_pap_pap (n : String) (a : Expr) (pa : PermAmount) (p : Position) (nq : String) (aq : Expr) (paq : PermAmount) (pq : Position) :
    exprEq (Expr.predicateAccessPredicate n a pa p) (Expr.predicateAccessPredicate nq aq paq pq) = (decide (n = nq) && exprEq a aq && decide (pa = paq)) := rfl

@[simp] theorem exprEq_pap_fap (n : String) (a : Expr) (pa : PermAmount) (p : Position) (bq : Expr) (paq : PermAmount) (pq : Position) :
    exprEq (Expr.predicateAccessPredicate n a pa p) (Expr.fieldAccessPredicate bq paq pq) = false := rfl

@[simp] theorem exprEq_pap_uop (n : String) (a : Expr) (pa : PermAmount) (p : Position) (opq : UnaryOpKind) (aq : Expr) (pq : Position) :
    exprEq (Expr.predicateAccessPredicate n a pa p) (Expr.unaryOp opq aq pq) = false := rfl

@[simp] theorem exprEq_pap_bop (n : String) (a : Expr) (pa : PermAmount) (p : Position) (opq : BinOpKind) (a1q : Expr) (a2q : Expr) (pq : Position) :
    exprEq (Expr.predicateAccessPredicate n a pa p) (Expr.binOp opq a1q a2q pq) = false := rfl

@[simp] theorem exprEq_pap_unf (n : String) (a : Expr) (pa : PermAmount) (p : Position) (nq : String) (argsq : List Expr) (bq : Expr) (paq : PermAmount) (viq : MaybeEnumVariantIndex) (pq : Position) :
    exprEq (Expr.predicateAccessPredicate n a pa p) (Expr.unfolding nq argsq bq paq viq pq) = false := rfl

@[simp] theorem exprEq_pap_cnd (n : String) (a : Expr) (pa : PermAmount) (p : Position) (gq : Expr) (a1q : Expr) (a2q : Expr) (pq : Position) :
    exprEq (Expr.predicateAccessPredicate n a pa p) (Expr.cond gq a1q a2q pq) = false := rfl

@[simp] theorem exprEq_pap_fal (n : String) (a : Expr) (pa : PermAmount) (p : Position) (vsq : List LocalVar) (trgsq : List Trigger) (bq : Expr) (pq : Position) :
    exprEq (Expr.predicateAccessPredicate n a pa p) (Expr.forAll vsq trgsq bq pq) = false := rfl

@[simp] theorem exprEq_pap_lte (n : String) (a : Expr) (pa : PermAmount) (p : Position) (vq : LocalVar) (dq : Expr) (bq : Expr) (pq : Position) :
    exprEq (Expr.predicateAccessPredicate n a pa p) (Expr.letExpr vq dq bq pq) = false := rfl

@[simp] theorem exprEq_pap_app (n : String) (a : Expr) (pa : PermAmount) (p : Position) (nq : String) (argsq : List Expr) (faq : List LocalVar) (rtq : Ty) (pq : Position) :
    exprEq (Expr.predicateAccessPredicate n a pa p) (Expr.funcApp nq argsq faq rtq pq) = false := rfl

@[simp] theorem exprEq_fap_loc (b : Expr) (pa : PermAmount) (p : Position) (vq : LocalVar) (pq : Position) :
    exprEq (Expr.fieldAccessPredicate b pa p) (Expr.local_ vq pq) = false := rfl

@[simp] theorem exprEq_fap_var (b : Expr) (pa : PermAmount) (p : Position) (bq : Expr) (fq : Field) (pq : Position) :
    exprEq (Expr.fieldAccessPredicate b pa p) (Expr.variant bq fq pq) = false := rfl

@[simp] theorem exprEq_fap_fld (b : Expr) (pa : PermAmount) (p : Position) (bq : Expr) (fq : Field) (pq : Position) :
    exprEq (Expr.fieldAccessPredicate b pa p) (Expr.field bq fq pq) = false := rfl

@[simp] theorem exprEq_fap_adr (b : Expr) (pa : PermAmount) (p : Position) (bq : Expr) (tyq : Ty) (pq : Position) :
    exprEq (Expr.fieldAccessPredicate b pa p) (Expr.addrOf bq tyq pq) = false := rfl

@[simp] theorem exprEq_fap_old (b : Expr) (pa : PermAmount) (p : Position) (lq : String) (bq : Expr) (pq : Position) :
    exprEq (Expr.fieldAccessPredicate b pa p) (Expr.labelledOld lq bq pq) = false := rfl

@[simp] theorem exprEq_fap_cst (b : Expr) (pa : PermAmount) (p : Position) (cq : Const) (pq : Position) :
    exprEq (Expr.fieldAccessPredicate b pa p) (Expr.const cq pq) = false := rfl

@[simp] theorem exprEq_fap_mgw (b : Expr) (pa : PermAmount) (p : Position) (a1q : Expr) (a2q : Expr) (brq : Option Borrow) (pq : Position) :
    exprEq (Expr.fieldAccessPredicate b pa p) (Expr.magicWand a1q a2q brq pq) = false := rfl

@[simp] theorem exprEq_fap_pap (b : Expr) (pa : PermAmount) (p : Position) (nq : String) (aq : Expr) (paq : PermAmount) (pq : Position) :
    exprEq (Expr.fieldAccessPredicate b pa p) (Expr.predicateAccessPredicate nq aq paq pq) = false := rfl

@[simp] theorem exprEq_fap_fap (b : Expr) (pa : PermAmount) (p : Position) (bq : Expr) (paq : PermAmount) (pq : Position) :
    exprEq (Expr.fieldAccessPredicate b pa p) (Expr.fieldAccessPredicate bq paq pq) = (exprEq b bq && decide (pa = paq)) := rfl

@[simp] theorem exprEq_fap_uop (b : Expr) (pa : PermAmount) (p : Position) (opq : UnaryOpKind) (aq : Expr) (pq : Position) :
    exprEq (Expr.fieldAccessPredicate b pa p) (Expr.unaryOp opq aq pq) = false := rfl

@[simp] theorem exprEq_fap_bop (b : Expr) (pa : PermAmount) (p : Position) (opq : BinOpKind) (a1q : Expr) (a2q : Expr) (pq : Position) :
    exprEq (Expr.fieldAccessPredicate b pa p) (Expr.binOp opq a1q a2q pq) = false := rfl

@[simp] theorem exprEq_fap_unf (b : Expr) (pa : PermAmount) (p : Position) (nq : String) (argsq : List Expr) (bq : Expr) (paq : PermAmount) (viq : MaybeEnumVariantIndex) (pq : Position) :
    exprEq (Expr.fieldAccessPredicate b pa p) (Expr.unfolding nq argsq bq paq viq pq) = false := rfl

@[simp] theorem exprEq_fap_cnd (b : Expr) (pa : PermAmount) (p : Position) (gq : Expr) (a1q : Expr) (a2q : Expr) (pq : Position) :
    exprEq (Expr.fieldAccessPredicate b pa p) (Expr.cond gq a1q a2q pq) = false := rfl

@[simp] theorem exprEq_fap_fal (b : Expr) (pa : PermAmount) (p : Position) (vsq : List LocalVar) (trgsq : List Trigger) (bq : Expr) (pq : Position) :
    exprEq (Expr.fieldAccessPredicate b pa p) (Expr.forAll vsq trgsq bq pq) = false := rfl

@[simp] theorem exprEq_fap_lte (b : Expr) (pa : PermAmount) (p : Position) (vq : LocalVar) (dq : Expr) (bq : Expr) (pq : Position) :
    exprEq (Expr.fieldAccessPredicate b pa p) (Expr.letExpr vq dq bq pq) = false := rfl

@[simp] theorem exprEq_fap_app (b : Expr) (pa : PermAmount) (p : Position) (nq : String) (argsq : List Expr) (faq : List LocalVar) (rtq : Ty) (pq : Position) :
    exprEq (Expr.fieldAccessPredicate b pa p) (Expr.funcApp nq argsq faq rtq pq) = false := rfl

@[simp] theorem exprEq_uop_loc (op : UnaryOpKind) (a : Expr) (p : Position) (vq : LocalVar) (pq : Position) :
    exprEq (Expr.unaryOp op a p) (Expr.local_ vq pq) = false := rfl

@[simp] theorem exprEq_uop_var (op : UnaryOpKind) (a : Expr) (p : Position) (bq : Expr) (fq : Field) (pq : Position) :
    exprEq (Expr.unaryOp op a p) (Expr.variant bq fq pq) = false := rfl

@[simp] theorem exprEq_uop_fld (op : UnaryOpKind) (a : Expr) (p : Position) (bq : Expr) (fq : Field) (pq : Position) :
    exprEq (Expr.unaryOp op a p) (Expr.field bq fq pq) = false := rfl

@[simp] theorem exprEq_uop_adr (op : UnaryOpKind) (a : Expr) (p : Position) (bq : Expr) (tyq : Ty) (pq : Position) :
    exprEq (Expr.unaryOp op a p) (Expr.addrOf bq tyq pq) = false := rfl

@[simp] theorem exprEq_uop_old (op : UnaryOpKind) (a : Expr) (p : Position) (lq : String) (bq : Expr) (pq : Position) :
    exprEq (Expr.unaryOp op a p) (Expr.labelledOld lq bq pq) = false := rfl

@[simp] theorem exprEq_uop_cst (op : UnaryOpKind) (a : Expr) (p : Position) (cq : Const) (pq : Position) :
    exprEq (Expr.unaryOp op a p) (Expr.const cq pq) = false := rfl

@[simp] theorem exprEq_uop_mgw (op : UnaryOpKind) (a : Expr) (p : Position) (a1q : Expr) (a2q : Expr) (brq : Option Borrow) (pq : Position) :
    exprEq (Expr.unaryOp op a p) (Expr.magicWand a1q a2q brq pq) = false := rfl

@[simp] theorem exprEq_uop_pap (op : UnaryOpKind) (a : Expr) (p : Position) (nq : String) (aq : Expr) (paq : PermAmount) (pq : Position) :
    exprEq (Expr.unaryOp op a p) (Expr.predicateAccessPredicate nq aq paq pq) = false := rfl

@[simp] theorem exprEq_uop_fap (op : UnaryOpKind) (a : Expr) (p : Position) (bq : Expr) (paq : PermAmount) (pq : Position) :
    exprEq (Expr.unaryOp op a p) (Expr.fieldAccessPredicate bq paq pq) = false := rfl

@[simp] theorem exprEq_uop_uop (op : UnaryOpKind) (a : Expr) (p : Position) (opq : UnaryOpKind) (aq : Expr) (pq : Position) :
    exprEq (Expr.unaryOp op a p) (Expr.unaryOp opq aq pq) = (decide (op = opq) && exprEq a aq) := rfl

@[simp] theorem exprEq_uop_bop (op : UnaryOpKind) (a : Expr) (p : Position) (opq : BinOpKind) (a1q : Expr) (a2q : Expr) (pq : Position) :
    exprEq (Expr.unaryOp op a p) (Expr.binOp opq a1q a2q pq) = false := rfl

@[simp] theorem exprEq_uop_unf (op : UnaryOpKind) (a : Expr) (p : Position) (nq : String) (argsq : List Expr) (bq : Expr) (paq : PermAmount) (viq : MaybeEnumVariantIndex) (pq : Position) :
    exprEq (Expr.unaryOp op a p) (Expr.unfolding nq argsq bq paq viq pq) = false := rfl

@[simp] theorem exprEq_uop_cnd (op : UnaryOpKind) (a : Expr) (p : Position) (gq : Expr) (a1q : Expr) (a2q : Expr) (pq : Position) :
    exprEq (Expr.unaryOp op a p) (Expr.cond gq a1q a2q pq) = false := rfl

@[simp] theorem exprEq_uop_fal (op : UnaryOpKind) (a : Expr) (p : Position) (vsq : List LocalVar) (trgsq : List Trigger) (bq : Expr) (pq : Position) :
    exprEq (Expr.unaryOp op a p) (Expr.forAll vsq trgsq bq pq) = false := rfl

@[simp] theorem exprEq_uop_lte (op : UnaryOpKind) (a : Expr) (p : Position) (vq : LocalVar) (dq : Expr) (bq : Expr) (pq : Position) :
    exprEq (Expr.unaryOp op a p) (Expr.letExpr vq dq bq pq) = false := rfl

@[simp] theorem exprEq_uop_app (op : UnaryOpKind) (a : Expr) (p : Position) (nq : String) (argsq : List Expr) (faq : List LocalVar) (rtq : Ty) (pq : Position) :
    exprEq (Expr.unaryOp op a p) (Expr.funcApp nq argsq faq rtq pq) = false := rfl

@[simp] theorem exprEq_bop_loc (op : BinOpKind) (a1 : Expr) (a2 : Expr) (p : Position) (vq : LocalVar) (pq : Position) :
    exprEq (Expr.binOp op a1 a2 p) (Expr.local_ vq pq) = false := rfl

@[simp] theorem exprEq_bop_var (op : BinOpKind) (a1 : Expr) (a2 : Expr) (p : Position) (bq : Expr) (fq : Field) (pq : Position) :
    exprEq (Expr.binOp op a1 a2 p) (Expr.variant bq fq pq) = false := rfl

@[simp] theorem exprEq_bop_fld (op : BinOpKind) (a1 : Expr) (a2 : Expr) (p : Position) (bq : Expr) (fq : Field) (pq : Position) :
    exprEq (Expr.binOp op a1 a2 p) (Expr.field bq fq pq) = false := rfl

@[simp] theorem exprEq_bop_adr (op : BinOpKind) (a1 : Expr) (a2 : Expr) (p : Position) (bq : Expr) (tyq : Ty) (pq : Position) :
    exprEq (Expr.binOp op a1 a2 p) (Expr.addrOf bq tyq pq) = false := rfl

@[simp] theorem exprEq_bop_old (op : BinOpKind) (a1 : Expr) (a2 : Expr) (p : Position) (lq : String) (bq : Expr) (pq : Position) :
    exprEq (Expr.binOp op a1 a2 p) (Expr.labelledOld lq bq pq) = false := rfl

@[simp] theorem exprEq_bop_cst (op : BinOpKind) (a1 : Expr) (a2 : Expr) (p : Position) (cq : Const) (pq : Position) :
    exprEq (Expr.binOp op a1 a2 p) (Expr.const cq pq) = false := rfl

@[simp] theorem exprEq_bop_mgw (op : BinOpKind) (a1 : Expr) (a2 : Expr) (p : Position) (a1q : Expr) (a2q : Expr) (brq : Option Borrow) (pq : Position) :
    exprEq (Expr.binOp op a1 a2 p) (Expr.magicWand a1q a2q brq pq) = false := rfl

@[simp] theorem exprEq_bop_pap (op : BinOpKind) (a1 : Expr) (a2 : Expr) (p : Position) (nq : String) (aq : Expr) (paq : PermAmount) (pq : Position) :
    exprEq (Expr.binOp op a1 a2 p) (Expr.predicateAccessPredicate nq aq paq pq) = false := rfl

@[simp] theorem exprEq_bop_fap (op : BinOpKind) (a1 : Expr) (a2 : Expr) (p : Position) (bq : Expr) (paq : PermAmount) (pq : Position) :
    exprEq (Expr.binOp op a1 a2 p) (Expr.fieldAccessPredicate bq paq pq) = false := rfl

@[simp] theorem exprEq_bop_uop (op : BinOpKind) (a1 : Expr) (a2 : Expr) (p : Position) (opq : UnaryOpKind) (aq : Expr) (pq : Position) :
    exprEq (Expr.binOp op a1 a2 p) (Expr.unaryOp opq aq pq) = false := rfl

@[simp] theorem exprEq_bop_bop (op : BinOpKind) (a1 : Expr) (a2 : Expr) (p : Position) (opq : BinOpKind) (a1q : Expr) (a2q : Expr) (pq : Position) :
    exprEq (Expr.binOp op a1 a2 p) (Expr.binOp opq a1q a2q pq) = (decide (op = opq) && exprEq a1 a1q && exprEq a2 a2q) := rfl

@[simp] theorem exprEq_bop_unf (op : BinOpKind) (a1 : Expr) (a2 : Expr) (p : Position) (nq : String) (argsq : List Expr) (bq : Expr) (paq : PermAmount) (viq : MaybeEnumVariantIndex) (pq : Position) :
    exprEq (Expr.binOp op a1 a2 p) (Expr.unfolding nq argsq bq paq viq pq) = false := rfl

@[simp] theorem exprEq_bop_cnd (op : BinOpKind) (a1 : Expr) (a2 : Expr) (p : Position) (gq : Expr) (a1q : Expr) (a2q : Expr) (pq : Position) :
    exprEq (Expr.binOp op a1 a2 p) (Expr.cond gq a1q a2q pq) = false := rfl

@[simp] theorem exprEq_bop_fal (op : BinOpKind) (a1 : Expr) (a2 : Expr) (p : Position) (vsq : List LocalVar) (trgsq : List Trigger) (bq : Expr) (pq : Position) :
    exprEq (Expr.binOp op a1 a2 p) (Expr.forAll vsq trgsq bq pq) = false := rfl

@[simp] theorem exprEq_bop_lte (op : BinOpKind) (a1 : Expr) (a2 : Expr) (p : Position) (vq : LocalVar) (dq : Expr) (bq : Expr) (pq : Position) :
    exprEq (Expr.binOp op a1 a2 p) (Expr.letExpr vq dq bq pq) = false := rfl

@[simp] theorem exprEq_bop_app (op : BinOpKind) (a1 : Expr) (a2 : Expr) (p : Position) (nq : String) (argsq : List Expr) (faq : List LocalVar) (rtq : Ty) (pq : Position) :
    exprEq (Expr.binOp op a1 a2 p) (Expr.funcApp nq argsq faq rtq pq) = false := rfl

@[simp] theorem exprEq_unf_loc (n : String) (args : List Expr) (b : Expr) (pa : PermAmount) (vi : MaybeEnumVariantIndex) (p : Position) (vq : LocalVar) (pq : Position) :
    exprEq (Expr.unfolding n args b pa vi p) (Expr.local_ vq pq) = false := rfl

@[simp] theorem exprEq_unf_var (n : String) (args : List Expr) (b : Expr) (pa : PermAmount) (vi : MaybeEnumVariantIndex) (p : Position) (bq : Expr) (fq : Field) (pq : Position) :
    exprEq (Expr.unfolding n args b pa vi p) (Expr.variant bq fq pq) = false := rfl

@[simp] theorem exprEq_unf_fld (n : String) (args : List Expr) (b : Expr) (pa : PermAmount) (vi : MaybeEnumVariantIndex) (p : Position) (bq : Expr) (fq : Field) (pq : Position) :
    exprEq (Expr.unfolding n args b pa vi p) (Expr.field bq fq pq) = false := rfl

@[simp] theorem exprEq_unf_adr (n : String) (args : List Expr) (b : Expr) (pa : PermAmount) (vi : MaybeEnumVariantIndex) (p : Position) (bq : Expr) (tyq : Ty) (pq : Position) :
    exprEq (Expr.unfolding n args b pa vi p) (Expr.addrOf bq tyq pq) = false := rfl

@[simp] theorem exprEq_unf_old (n : String) (args : List Expr) (b : Expr) (pa : PermAmount) (vi : MaybeEnumVariantIndex) (p : Position) (lq : String) (bq : Expr) (pq : Position) :
    exprEq (Expr.unfolding n args b pa vi p) (Expr.labelledOld lq bq pq) = false := rfl

@[simp] theorem exprEq_unf_cst (n : String) (args : List Expr) (b : Expr) (pa : PermAmount) (vi : MaybeEnumVariantIndex) (p : Position) (cq : Const) (pq : Position) :
    exprEq (Expr.unfolding n args b pa vi p) (Expr.const cq pq) = false := rfl

@[simp] theorem exprEq_unf_mgw (n : String) (args : List Expr) (b : Expr) (pa : PermAmount) (vi : MaybeEnumVariantIndex) (p : Position) (a1q : Expr) (a2q : Expr) (brq : Option Borrow) (pq : Position) :
    exprEq (Expr.unfolding n args b pa vi p) (Expr.magicWand a1q a2q brq pq) = false := rfl

@[simp] theorem exprEq_unf_pap (n : String) (args : List Expr) (b : Expr) (pa : PermAmount) (vi : MaybeEnumVariantIndex) (p : Position) (nq : String) (aq : Expr) (paq : PermAmount) (pq : Position) :
    exprEq (Expr.unfolding n args b pa vi p) (Expr.predicateAccessPredicate nq aq paq pq) = false := rfl

@[simp] theorem exprEq_unf_fap (n : String) (args : List Expr) (b : Expr) (pa : PermAmount) (vi : MaybeEnumVariantIndex) (p : Position) (bq : Expr) (paq : PermAmount) (pq : Position) :
    exprEq (Expr.unfolding n args b pa vi p) (Expr.fieldAccessPredicate bq paq pq) = false := rfl

@[simp] theorem exprEq_unf_uop (n : String) (args : List Expr) (b : Expr) (pa : PermAmount) (vi : MaybeEnumVariantIndex) (p : Position) (opq : UnaryOpKind) (aq : Expr) (pq : Position) :
    exprEq (Expr.unfolding n args b pa vi p) (Expr.unaryOp opq aq pq) = false := rfl

@[simp] theorem exprEq_unf_bop (n : String) (args : List Expr) (b : Expr) (pa : PermAmount) (vi : MaybeEnumVariantIndex) (p : Position) (opq : BinOpKind) (a1q : Expr) (a2q : Expr) (pq : Position) :
    exprEq (Expr.unfolding n args b pa vi p) (Expr.binOp opq a1q a2q pq) = false := rfl

@[simp] theorem exprEq_unf_unf (n : String) (args : List Expr) (b : Expr) (pa : PermAmount) (vi : MaybeEnumVariantIndex) (p : Position) (nq : String) (argsq : List Expr) (bq : Expr) (paq : PermAmount) (viq : MaybeEnumVariantIndex) (pq : Position) :
    exprEq (Expr.unfolding n args b pa vi p) (Expr.unfolding nq argsq bq paq viq pq) = (decide (n = nq) && exprEqList args argsq && exprEq b bq && decide (pa = paq) && decide (vi = viq)) := rfl

@[simp] theorem exprEq_unf_cnd (n : String) (args : List Expr) (b : Expr) (pa : PermAmount) (vi : MaybeEnumVariantIndex) (p : Position) (gq : Expr) (a1q : Expr) (a2q : Expr) (pq : Position) :
    exprEq (Expr.unfolding n args b pa vi p) (Expr.cond gq a1q a2q pq) = false := rfl

@[simp] theorem exprEq_unf_fal (n : String) (args : List Expr) (b : Expr) (pa : PermAmount) (vi : MaybeEnumVariantIndex) (p : Position) (vsq : List LocalVar) (trgsq : List Trigger) (bq : Expr) (pq : Position) :
    exprEq (Expr.unfolding n args b pa vi p) (Expr.forAll vsq trgsq bq pq) = false := rfl

@[simp] theorem exprEq_unf_lte (n : String) (args : List Expr) (b : Expr) (pa : PermAmount) (vi : MaybeEnumVariantIndex) (p : Position) (vq : LocalVar) (dq : Expr) (bq : Expr) (pq : Position) :
    exprEq (Expr.unfolding n args b pa vi p) (Expr.letExpr vq dq bq pq) = false := rfl

@[simp] theorem exprEq_unf_app (n : String) (args : List Expr) (b : Expr) (pa : PermAmount) (vi : MaybeEnumVariantIndex) (p : Position) (nq : String) (argsq : List Expr) (faq : List LocalVar) (rtq : Ty) (pq : Position) :
    exprEq (Expr.unfolding n args b pa vi p) (Expr.funcApp nq argsq faq rtq pq) = false := rfl

@[simp] theorem exprEq_cnd_loc (g : Expr) (a1 : Expr) (a2 : Expr) (p : Position) (vq : LocalVar) (pq : Position) :
    exprEq (Expr.cond g a1 a2 p) (Expr.local_ vq pq) = false := rfl

@[simp] theorem exprEq_cnd_var (g : Expr) (a1 : Expr) (a2 : Expr) (p : Position) (bq : Expr) (fq : Field) (pq : Position) :
    exprEq (Expr.cond g a1 a2 p) (Expr.variant bq fq pq) = false := rfl

@[simp] theorem exprEq_cnd_fld (g : Expr) (a1 : Expr) (a2 : Expr) (p : Position) (bq : Expr) (fq : Field) (pq : Position) :
    exprEq (Expr.cond g a1 a2 p) (Expr.field bq fq pq) = false := rfl

@[simp] theorem exprEq_cnd_adr (g : Expr) (a1 : Expr) (a2 : Expr) (p : Position) (bq : Expr) (tyq : Ty) (pq : Position) :
    exprEq (Expr.cond g a1 a2 p) (Expr.addrOf bq tyq pq) = false := rfl

@[simp] theorem exprEq_cnd_old (g : Expr) (a1 : Expr) (a2 : Expr) (p : Position) (lq : String) (bq : Expr) (pq : Position) :
    exprEq (Expr.cond g a1 a2 p) (Expr.labelledOld lq bq pq) = false := rfl

@[simp] theorem exprEq_cnd_cst (g : Expr) (a1 : Expr) (a2 : Expr) (p : Position) (cq : Const) (pq : Position) :
    exprEq (Expr.cond g a1 a2 p) (Expr.const cq pq) = false := rfl

@[simp] theorem exprEq_cnd_mgw (g : Expr) (a1 : Expr) (a2 : Expr) (p : Position) (a1q : Expr) (a2q : Expr) (brq : Option Borrow) (pq : Position) :
    exprEq (Expr.cond g a1 a2 p) (Expr.magicWand a1q a2q brq pq) = false := rfl

@[simp] theorem exprEq_cnd_pap (g : Expr) (a1 : Expr) (a2 : Expr) (p : Position) (nq : String) (aq : Expr) (paq : PermAmount) (pq : Position) :
    exprEq (Expr.cond g a1 a2 p) (Expr.predicateAccessPredicate nq aq paq pq) = false := rfl

@[simp] theorem exprEq_cnd_fap (g : Expr) (a1 : Expr) (a2 : Expr) (p : Position) (bq : Expr) (paq : PermAmount) (pq : Position) :
    exprEq (Expr.cond g a1 a2 p) (Expr.fieldAccessPredicate bq paq pq) = false := rfl

@[simp] theorem exprEq_cnd_uop (g : Expr) (a1 : Expr) (a2 : Expr) (p : Position) (opq : UnaryOpKind) (aq : Expr) (pq : Position) :
    exprEq (Expr.cond g a1 a2 p) (Expr.unaryOp opq aq pq) = false := rfl

@[simp] theorem exprEq_cnd_bop (g : Expr) (a1 : Expr) (a2 : Expr) (p : Position) (opq : BinOpKind) (a1q : Expr) (a2q : Expr) (pq : Position) :
    exprEq (Expr.cond g a1 a2 p) (Expr.binOp opq a1q a2q pq) = false := rfl

@[simp] theorem exprEq_cnd_unf (g : Expr) (a1 : Expr) (a2 : Expr) (p : Position) (nq : String) (argsq : List Expr) (bq : Expr) (paq : PermAmount) (viq : MaybeEnumVariantIndex) (pq : Position) :
    exprEq (Expr.cond g a1 a2 p) (Expr.unfolding nq argsq bq paq viq pq) = false := rfl

@[simp] theorem exprEq_cnd_cnd (g : Expr) (a1 : Expr) (a2 : Expr) (p : Position) (gq : Expr) (a1q : Expr) (a2q : Expr) (pq : Position) :
    exprEq (Expr.cond g a1 a2 p) (Expr.cond gq a1q a2q pq) = (exprEq g gq && exprEq a1 a1q && exprEq a2 a2q) := rfl

@[simp] theorem exprEq_cnd_fal (g : Expr) (a1 : Expr) (a2 : Expr) (p : Position) (vsq : List LocalVar) (trgsq : List Trigger) (bq : Expr) (pq : Position) :
    exprEq (Expr.cond g a1 a2 p) (Expr.forAll vsq trgsq bq pq) = false := rfl

@[simp] theorem exprEq_cnd_lte (g : Expr) (a1 : Expr) (a2 : Expr) (p : Position) (vq : LocalVar) (dq : Expr) (bq : Expr) (pq : Position) :
    exprEq (Expr.cond g a1 a2 p) (Expr.letExpr vq dq bq pq) = false := rfl

@[simp] theorem exprEq_cnd_app (g : Expr) (a1 : Expr) (a2 : Expr) (p : Position) (nq : String) (argsq : List Expr) (faq : List LocalVar) (rtq : Ty) (pq : Position) :
    exprEq (Expr.cond g a1 a2 p) (Expr.funcApp nq argsq faq rtq pq) = false := rfl

@[simp] theorem exprEq_fal_loc (vs : List LocalVar) (trgs : List Trigger) (b : Expr) (p : Position) (vq : LocalVar) (pq : Position) :
    exprEq (Expr.forAll vs trgs b p) (Expr.local_ vq pq) = false := rfl

@[simp] theorem exprEq_fal_var (vs : List LocalVar) (trgs : List Trigger) (b : Expr) (p : Position) (bq : Expr) (fq : Field) (pq : Position) :
    exprEq (Expr.forAll vs trgs b p) (Expr.variant bq fq pq) = false := rfl

@[simp] theorem exprEq_fal_fld (vs : List LocalVar) (trgs : List Trigger) (b : Expr) (p : Position) (bq : Expr) (fq : Field) (pq : Position) :
    exprEq (Expr.forAll vs trgs b p) (Expr.field bq fq pq) = false := rfl

@[simp] theorem exprEq_fal_adr (vs : List LocalVar) (trgs : List Trigger) (b : Expr) (p : Position) (bq : Expr) (tyq : Ty) (pq : Position) :
    exprEq (Expr.forAll vs trgs b p) (Expr.addrOf bq tyq pq) = false := rfl

@[simp] theorem exprEq_fal_old (vs : List LocalVar) (trgs : List Trigger) (b : Expr) (p : Position) (lq : String) (bq : Expr) (pq : Position) :
    exprEq (Expr.forAll vs trgs b p) (Expr.labelledOld lq bq pq) = false := rfl

@[simp] theorem exprEq_fal_cst (vs : List LocalVar) (trgs : List Trigger) (b : Expr) (p : Position) (cq : Const) (pq : Position) :
    exprEq (Expr.forAll vs trgs b p) (Expr.const cq pq) = false := rfl

@[simp] theorem exprEq_fal_mgw (vs : List LocalVar) (trgs : List Trigger) (b : Expr) (p : Position) (a1q : Expr) (a2q : Expr) (brq : Option Borrow) (pq : Position) :
    exprEq (Expr.forAll vs trgs b p) (Expr.magicWand a1q a2q brq pq) = false := rfl

@[simp] theorem exprEq_fal_pap (vs : List LocalVar) (trgs : List Trigger) (b : Expr) (p : Position) (nq : String) (aq : Expr) (paq : PermAmount) (pq : Position) :
    exprEq (Expr.forAll vs trgs b p) (Expr.predicateAccessPredicate nq aq paq pq) = false := rfl

@[simp] theorem exprEq_fal_fap (vs : List LocalVar) (trgs : List Trigger) (b : Expr) (p : Position) (bq : Expr) (paq : PermAmount) (pq : Position) :
    exprEq (Expr.forAll vs trgs b p) (Expr.fieldAccessPredicate bq paq pq) = false := rfl

@[simp] theorem exprEq_fal_uop (vs : List LocalVar) (trgs : List Trigger) (b : Expr) (p : Position) (opq : UnaryOpKind) (aq : Expr) (pq : Position) :
    exprEq (Expr.forAll vs trgs b p) (Expr.unaryOp opq aq pq) = false := rfl

@[simp] theorem exprEq_fal_bop (vs : List LocalVar) (trgs : List Trigger) (b : Expr) (p : Position) (opq : BinOpKind) (a1q : Expr) (a2q : Expr) (pq : Position) :
    exprEq (Expr.forAll vs trgs b p) (Expr.binOp opq a1q a2q pq) = false := rfl

@[simp] theorem exprEq_fal_unf (vs : List LocalVar) (trgs : List Trigger) (b : Expr) (p : Position) (nq : String) (argsq : List Expr) (bq : Expr) (paq : PermAmount) (viq : MaybeEnumVariantIndex) (pq : Position) :
    exprEq (Expr.forAll vs trgs b p) (Expr.unfolding nq argsq bq paq viq pq) = false := rfl

@[simp] theorem exprEq_fal_cnd (vs : List LocalVar) (trgs : List Trigger) (b : Expr) (p : Position) (gq : Expr) (a1q : Expr) (a2q : Expr) (pq : Position) :
    exprEq (Expr.forAll vs trgs b p) (Expr.cond gq a1q a2q pq) = false := rfl

@[simp] theorem exprEq_fal_fal (vs : List LocalVar) (trgs : List Trigger) (b : Expr) (p : Position) (vsq : List LocalVar) (trgsq : List Trigger) (bq : Expr) (pq : Position) :
    exprEq (Expr.forAll vs trgs b p) (Expr.forAll vsq trgsq bq pq) = (decide (vs = vsq) && triggerEqList trgs trgsq && exprEq b bq) := rfl

@[simp] theorem exprEq_fal_lte (vs : List LocalVar) (trgs : List Trigger) (b : Expr) (p : Position) (vq : LocalVar) (dq : Expr) (bq : Expr) (pq : Position) :
    exprEq (Expr.forAll vs trgs b p) (Expr.letExpr vq dq bq pq) = false := rfl

@[simp] theorem exprEq_fal_app (vs : List LocalVar) (trgs : List Trigger) (b : Expr) (p : Position) (nq : String) (argsq : List Expr) (faq : List LocalVar) (rtq : Ty) (pq : Position) :
    exprEq (Expr.forAll vs trgs b p) (Expr.funcApp nq argsq faq rtq pq) = false := rfl

@[simp] theorem exprEq_lte_loc (v : LocalVar) (d : Expr) (b : Expr) (p : Position) (vq : LocalVar) (pq : Position) :
    exprEq (Expr.letExpr v d b p) (Expr.local_ vq pq) = false := rfl

@[simp] theorem exprEq_lte_var (v : LocalVar) (d : Expr) (b : Expr) (p : Position) (bq : Expr) (fq : Field) (pq : Position) :
    exprEq (Expr.letExpr v d b p) (Expr.variant bq fq pq) = false := rfl

@[simp] theorem exprEq_lte_fld (v : LocalVar) (d : Expr) (b : Expr) (p : Position) (bq : Expr) (fq : Field) (pq : Position) :
    exprEq (Expr.letExpr v d b p) (Expr.field bq fq pq) = false := rfl

@[simp] theorem exprEq_lte_adr (v : LocalVar) (d : Expr) (b : Expr) (p : Position) (bq : Expr) (tyq : Ty) (pq : Position) :
    exprEq (Expr.letExpr v d b p) (Expr.addrOf bq tyq pq) = false := rfl

@[simp] theorem exprEq_lte_old (v : LocalVar) (d : Expr) (b : Expr) (p : Position) (lq : String) (bq : Expr) (pq : Position) :
    exprEq (Expr.letExpr v d b p) (Expr.labelledOld lq bq pq) = false := rfl

@[simp] theorem exprEq_lte_cst (v : LocalVar) (d : Expr) (b : Expr) (p : Position) (cq : Const) (pq : Position) :
    exprEq (Expr.letExpr v d b p) (Expr.const cq pq) = false := rfl

@[simp] theorem exprEq_lte_mgw (v : LocalVar) (d : Expr) (b : Expr) (p : Position) (a1q : Expr) (a2q : Expr) (brq : Option Borrow) (pq : Position) :
    exprEq (Expr.letExpr v d b p) (Expr.magicWand a1q a2q brq pq) = false := rfl

@[simp] theorem exprEq_lte_pap (v : LocalVar) (d : Expr) (b : Expr) (p : Position) (nq : String) (aq : Expr) (paq : PermAmount) (pq : Position) :
    exprEq (Expr.letExpr v d b p) (Expr.predicateAccessPredicate nq aq paq pq) = false := rfl

@[simp] theorem exprEq_lte_fap (v : LocalVar) (d : Expr) (b : Expr) (p : Position) (bq : Expr) (paq : PermAmount) (pq : Position) :
    exprEq (Expr.letExpr v d b p) (Expr.fieldAccessPredicate bq paq pq) = false := rfl

@[simp] theorem exprEq_lte_uop (v : LocalVar) (d : Expr) (b : Expr) (p : Position) (opq : UnaryOpKind) (aq : Expr) (pq : Position) :
    exprEq (Expr.letExpr v d b p) (Expr.unaryOp opq aq pq) = false := rfl

@[simp] theorem exprEq_lte_bop (v : LocalVar) (d : Expr) (b : Expr) (p : Position) (opq : BinOpKind) (a1q : Expr) (a2q : Expr) (pq : Position) :
    exprEq (Expr.letExpr v d b p) (Expr.binOp opq a1q a2q pq) = false := rfl

@[simp] theorem exprEq_lte_unf (v : LocalVar) (d : Expr) (b : Expr) (p : Position) (nq : String) (argsq : List Expr) (bq : Expr) (paq : PermAmount) (viq : MaybeEnumVariantIndex) (pq : Position) :
    exprEq (Expr.letExpr v d b p) (Expr.unfolding nq argsq bq paq viq pq) = false := rfl

@[simp] theorem exprEq_lte_cnd (v : LocalVar) (d : Expr) (b : Expr) (p : Position) (gq : Expr) (a1q : Expr) (a2q : Expr) (pq : Position) :
    exprEq (Expr.letExpr v d b p) (Expr.cond gq a1q a2q pq) = false := rfl

@[simp] theorem exprEq_lte_fal (v : LocalVar) (d : Expr) (b : Expr) (p : Position) (vsq : List LocalVar) (trgsq : List Trigger) (bq : Expr) (pq : Position) :
    exprEq (Expr.letExpr v d b p) (Expr.forAll vsq trgsq bq pq) = false := rfl

@[simp] theorem exprEq_lte_lte (v : LocalVar) (d : Expr) (b : Expr) (p : Position) (vq : LocalVar) (dq : Expr) (bq : Expr) (pq : Position) :
    exprEq (Expr.letExpr v d b p) (Expr.letExpr vq dq bq pq) = (decide (v = vq) && exprEq d dq && exprEq b bq) := rfl

@[simp] theorem exprEq_lte_app (v : LocalVar) (d : Expr) (b : Expr) (p : Position) (nq : String) (argsq : List Expr) (faq : List LocalVar) (rtq : Ty) (pq : Position) :
    exprEq (Expr.letExpr v d b p) (Expr.funcApp nq argsq faq rtq pq) = false := rfl

@[simp] theorem exprEq_app_loc (n : String) (args : List Expr) (fa : List LocalVar) (rt : Ty) (p : Position) (vq : LocalVar) (pq : Position) :
    exprEq (Expr.funcApp n args fa rt p) (Expr.local_ vq pq) = false := rfl

@[simp] theorem exprEq_app_var (n : String) (args : List Expr) (fa : List LocalVar) (rt : Ty) (p : Position) (bq : Expr) (fq : Field) (pq : Position) :
    exprEq (Expr.funcApp n args fa rt p) (Expr.variant bq fq pq) = false := rfl

@[simp] theorem exprEq_app_fld (n : String) (args : List Expr) (fa : List LocalVar) (rt : Ty) (p : Position) (bq : Expr) (fq : Field) (pq : Position) :
    exprEq (Expr.funcApp n args fa rt p) (Expr.field bq fq pq) = false := rfl

@[simp] theorem exprEq_app_adr (n : String) (args : List Expr) (fa : List LocalVar) (rt : Ty) (p : Position) (bq : Expr) (tyq : Ty) (pq : Position) :
    exprEq (Expr.funcApp n args fa rt p) (Expr.addrOf bq tyq pq) = false := rfl

@[simp] theorem exprEq_app_old (n : String) (args : List Expr) (fa : List LocalVar) (rt : Ty) (p : Position) (lq : String) (bq : Expr) (pq : Position) :
    exprEq (Expr.funcApp n args fa rt p) (Expr.labelledOld lq bq pq) = false := rfl

@[simp] theorem exprEq_app_cst (n : String) (args : List Expr) (fa : List LocalVar) (rt : Ty) (p : Position) (cq : Const) (pq : Position) :
    exprEq (Expr.funcApp n args fa rt p) (Expr.const cq pq) = false := rfl

@[simp] theorem exprEq_app_mgw (n : String) (args : List Expr) (fa : List LocalVar) (rt : Ty) (p : Position) (a1q : Expr) (a2q : Expr) (brq : Option Borrow) (pq : Position) :
    exprEq (Expr.funcApp n args fa rt p) (Expr.magicWand a1q a2q brq pq) = false := rfl

@[simp] theorem exprEq_app_pap (n : String) (args : List Expr) (fa : List LocalVar) (rt : Ty) (p : Position) (nq : String) (aq : Expr) (paq : PermAmount) (pq : Position) :
    exprEq (Expr.funcApp n args fa rt p) (Expr.predicateAccessPredicate nq aq paq pq) = false := rfl

@[simp] theorem exprEq_app_fap (n : String) (args : List Expr) (fa : List LocalVar) (rt : Ty) (p : Position) (bq : Expr) (paq : PermAmount) (pq : Position) :
    exprEq (Expr.funcApp n args fa rt p) (Expr.fieldAccessPredicate bq paq pq) = false := rfl

@[simp] theorem exprEq_app_uop (n : String) (args : List Expr) (fa : List LocalVar) (rt : Ty) (p : Position) (opq : UnaryOpKind) (aq : Expr) (pq : Position) :
    exprEq (Expr.funcApp n args fa rt p) (Expr.unaryOp opq aq pq) = false := rfl

@[simp] theorem exprEq_app_bop (n : String) (args : List Expr) (fa : List LocalVar) (rt : Ty) (p : Position) (opq : BinOpKind) (a1q : Expr) (a2q : Expr) (pq : Position) :
    exprEq (Expr.funcApp n args fa rt p) (Expr.binOp opq a1q a2q pq) = false := rfl

@[simp] theorem exprEq_app_unf (n : String) (args : List Expr) (fa : List LocalVar) (rt : Ty) (p : Position) (nq : String) (argsq : List Expr) (bq : Expr) (paq : PermAmount) (viq : MaybeEnumVariantIndex) (pq : Position) :
    exprEq (Expr.funcApp n args fa rt p) (Expr.unfolding nq argsq bq paq viq pq) = false := rfl

@[simp] theorem exprEq_app_cnd (n : String) (args : List Expr) (fa : List LocalVar) (rt : Ty) (p : Position) (gq : Expr) (a1q : Expr) (a2q : Expr) (pq : Position) :
    exprEq (Expr.funcApp n args fa rt p) (Expr.cond gq a1q a2q pq) = false := rfl

@[simp] theorem exprEq_app_fal (n : String) (args : List Expr) (fa : List LocalVar) (rt : Ty) (p : Position) (vsq : List LocalVar) (trgsq : List Trigger) (bq : Expr) (pq : Position) :
    exprEq (Expr.funcApp n args fa rt p) (Expr.forAll vsq trgsq bq pq) = false := rfl

@[simp] theorem exprEq_app_lte (n : String) (args : List Expr) (fa : List LocalVar) (rt : Ty) (p : Position) (vq : LocalVar) (dq : Expr) (bq : Expr) (pq : Position) :
    exprEq (Expr.funcApp n args fa rt p) (Expr.letExpr vq dq bq pq) = false := rfl

@[simp] theorem exprEq_app_app (n : String) (args : List Expr) (fa : List LocalVar) (rt : Ty) (p : Position) (nq : String) (argsq : List Expr) (faq : List LocalVar) (rtq : Ty) (pq : Position) :
    exprEq (Expr.funcApp n args fa rt p) (Expr.funcApp nq argsq faq rtq pq) = (decide (n = nq) && exprEqList args argsq) := rfl

@[simp] theorem exprEqList_nil_nil : exprEqList [] [] = true := rfl

@[simp] theorem exprEqList_cons_cons (e eq_ : Expr) (es esq : List Expr) :
    exprEqList (e :: es) (eq_ :: esq) = (exprEq e eq_ && exprEqList es esq) := rfl

@[simp] theorem exprEqList_nil_cons (e : Expr) (es : List Expr) :
    exprEqList [] (e :: es) = false := rfl

@[simp] theorem exprEqList_cons_nil (e : Expr) (es : List Expr) :
    exprEqList (e :: es) [] = false := rfl

@[simp] theorem triggerEqList_nil_nil : triggerEqList [] [] = true := rfl

@[simp] theorem triggerEqList_cons_cons (ps psq : List Expr) (ts tsq : List Trigger) :
    triggerEqList (.mk ps :: ts) (.mk psq :: tsq) = (exprEqList ps psq && triggerEqList ts tsq) := rfl

@[simp] theorem triggerEqList_nil_cons (tr : Trigger) (ts : List Trigger) :
    triggerEqList [] (tr :: ts) = false := rfl

@[simp] theorem triggerEqList_cons_nil (ps : List Expr) (ts : List Trigger) :
    triggerEqList (.mk ps :: ts) [] = false := rfl

@[simp] theorem hashExpr_loc (v : LocalVar) (p : Position) :
    hashExpr (Expr.local_ v p) = Nat.pair 0 (hashLocalVar v) := rfl

@[simp] theorem hashExpr_var (b : Expr) (f : Field) (p : Position) :
    hashExpr (Expr.variant b f p) = Nat.pair 1 (Nat.pair (hashExpr b) (hashField f)) := rfl

@[simp] theorem hashExpr_fld (b : Expr) (f : Field) (p : Position) :
    hashExpr (Expr.field b f p) = Nat.pair 2 (Nat.pair (hashExpr b) (hashField f)) := rfl

@[simp] theorem hashExpr_adr (b : Expr) (ty : Ty) (p : Position) :
    hashExpr (Expr.addrOf b ty p) = Nat.pair 3 (Nat.pair (hashExpr b) (hashTy ty)) := rfl

@[simp] theorem hashExpr_old (l : String) (b : Expr) (p : Position) :
    hashExpr (Expr.labelledOld l b p) = Nat.pair 4 (Nat.pair (hashString l) (hashExpr b)) := rfl

@[simp] theorem hashExpr_cst (c : Const) (p : Position) :
    hashExpr (Expr.const c p) = Nat.pair 5 (hashConst c) := rfl

@[simp] theorem hashExpr_mgw (a1 : Expr) (a2 : Expr) (br : Option Borrow) (p : Position) :
    hashExpr (Expr.magicWand a1 a2 br p) = Nat.pair 6 (Nat.pair (hashExpr a1) (Nat.pair (hashExpr a2) (hashOption id br))) := rfl

@[simp] theorem hashExpr_pap (n : String) (a : Expr) (pa : PermAmount) (p : Position) :
    hashExpr (Expr.predicateAccessPredicate n a pa p) = Nat.pair 7 (Nat.pair (hashString n) (Nat.pair (hashExpr a) (hashPermAmount pa))) := rfl

@[simp] theorem hashExpr_fap (b : Expr) (pa : PermAmount) (p : Position) :
    hashExpr (Expr.fieldAccessPredicate b pa p) = Nat.pair 8 (Nat.pair (hashExpr b) (hashPermAmount pa)) := rfl

@[simp] theorem hashExpr_uop (op : UnaryOpKind) (a : Expr) (p : Position) :
    hashExpr (Expr.unaryOp op a p) = Nat.pair 9 (Nat.pair (hashUnaryOpKind op) (hashExpr a)) := rfl

@[simp] theorem hashExpr_bop (op : BinOpKind) (a1 : Expr) (a2 : Expr) (p : Position) :
    hashExpr (Expr.binOp op a1 a2 p) = Nat.pair 10 (Nat.pair (hashBinOpKind op) (Nat.pair (hashExpr a1) (hashExpr a2))) := rfl

@[simp] theorem hashExpr_unf (n : String) (args : List Expr) (b : Expr) (pa : PermAmount) (vi : MaybeEnumVariantIndex) (p : Position) :
    hashExpr (Expr.unfolding n args b pa vi p) = Nat.pair 11 (Nat.pair (hashString n) (Nat.pair (hashExprList args) (Nat.pair (hashExpr b) (Nat.pair (hashPermAmount pa) (hashOption hashString vi))))) := rfl

@[simp] theorem hashExpr_cnd (g : Expr) (a1 : Expr) (a2 : Expr) (p : Position) :
    hashExpr (Expr.cond g a1 a2 p) = Nat.pair 12 (Nat.pair (hashExpr g) (Nat.pair (hashExpr a1) (hashExpr a2))) := rfl

@[simp] theorem hashExpr_fal (vs : List LocalVar) (trgs : List Trigger) (b : Expr) (p : Position) :
    hashExpr (Expr.forAll vs trgs b p) = Nat.pair 13 (Nat.pair (hashLocalVarList vs) (Nat.pair (hashTriggerList trgs) (hashExpr b))) := rfl

@[simp] theorem hashExpr_lte (v : LocalVar) (d : Expr) (b : Expr) (p : Position) :
    hashExpr (Expr.letExpr v d b p) = Nat.pair 14 (Nat.pair (hashLocalVar v) (Nat.pair (hashExpr d) (hashExpr b))) := rfl

@[simp] theorem hashExpr_app (n : String) (args : List Expr) (fa : List LocalVar) (rt : Ty) (p : Position) :
    hashExpr (Expr.funcApp n args fa rt p) = Nat.pair 15 (Nat.pair (hashString n) (hashExprList args)) := rfl

@[simp] theorem hashExprList_nil : hashExprList [] = 23 := rfl

@[simp] theorem hashExprList_cons (e : Expr) (es : List Expr) :
    hashExprList (e :: es) = Nat.pair (hashExpr e) (hashExprList es) := rfl

@[simp] theorem hashTriggerList_nil : hashTriggerList [] = 29 := rfl

@[simp] theorem hashTriggerList_cons (ps : List Expr) (ts : List Trigger) :
    hashTriggerList (.mk ps :: ts) = Nat.pair (hashExprList ps) (hashTriggerList ts) := rfl

@[simp] theorem computeFootprint_loc (perm : PermAmount) (v : LocalVar) (p : Position) :
    computeFootprint perm (Expr.local_ v p) = [] := rfl

@[simp] theorem computeFootprint_var (perm : PermAmount) (b : Expr) (f : Field) (p : Position) :
    computeFootprint perm (Expr.variant b f p) = (computeFootprint perm b ++ [Expr.accPermission (Expr.variant b f p) perm]) := rfl

@[simp] theorem computeFootprint_fld (perm : PermAmount) (b : Expr) (f : Field) (p : Position) :
    computeFootprint perm (Expr.field b f p) = (computeFootprint perm b ++ [Expr.accPermission (Expr.field b f p) perm]) := rfl

@[simp] theorem computeFootprint_adr (perm : PermAmount) (b : Expr) (ty : Ty) (p : Position) :
    computeFootprint perm (Expr.addrOf b ty p) = computeFootprint perm b := rfl

@[simp] theorem computeFootprint_old (perm : PermAmount) (l : String) (b : Expr) (p : Position) :
    computeFootprint perm (Expr.labelledOld l b p) = [] := rfl

@[simp] theorem computeFootprint_cst (perm : PermAmount) (c : Const) (p : Position) :
    computeFootprint perm (Expr.const c p) = [] := rfl

@[simp] theorem computeFootprint_mgw (perm : PermAmount) (a1 : Expr) (a2 : Expr) (br : Option Borrow) (p : Position) :
    computeFootprint perm (Expr.magicWand a1 a2 br p) = (computeFootprint perm a1 ++ computeFootprint perm a2) := rfl

@[simp] theorem computeFootprint_pap (perm : PermAmount) (n : String) (a : Expr) (pa : PermAmount) (p : Position) :
    computeFootprint perm (Expr.predicateAccessPredicate n a pa p) = computeFootprint perm a := rfl

@[simp] theorem computeFootprint_fap (perm : PermAmount) (b : Expr) (pa : PermAmount) (p : Position) :
    computeFootprint perm (Expr.fieldAccessPredicate b pa p) = computeFootprint perm b := rfl

@[simp] theorem computeFootprint_uop (perm : PermAmount) (op : UnaryOpKind) (a : Expr) (p : Position) :
    computeFootprint perm (Expr.unaryOp op a p) = computeFootprint perm a := rfl

@[simp] theorem computeFootprint_bop (perm : PermAmount) (op : BinOpKind) (a1 : Expr) (a2 : Expr) (p : Position) :
    computeFootprint perm (Expr.binOp op a1 a2 p) = (computeFootprint perm a1 ++ computeFootprint perm a2) := rfl

@[simp] theorem computeFootprint_unf (perm : PermAmount) (n : String) (args : List Expr) (b : Expr) (pa : PermAmount) (vi : MaybeEnumVariantIndex) (p : Position) :
    computeFootprint perm (Expr.unfolding n args b pa vi p) = (computeFootprintList perm args ++ computeFootprint perm b) := rfl

@[simp] theorem computeFootprint_cnd (perm : PermAmount) (g : Expr) (a1 : Expr) (a2 : Expr) (p : Position) :
    computeFootprint perm (Expr.cond g a1 a2 p) = (computeFootprint perm g ++ computeFootprint perm a1 ++ computeFootprint perm a2) := rfl

@[simp] theorem computeFootprint_fal (perm : PermAmount) (vs : List LocalVar) (trgs : List Trigger) (b : Expr) (p : Position) :
    computeFootprint perm (Expr.forAll vs trgs b p) = computeFootprint perm b := rfl

@[simp] theorem computeFootprint_lte (perm : PermAmount) (v : LocalVar) (d : Expr) (b : Expr) (p : Position) :
    computeFootprint perm (Expr.letExpr v d b p) = (computeFootprint perm d ++ computeFootprint perm b) := rfl

@[simp] theorem computeFootprint_app (perm : PermAmount) (n : String) (args : List Expr) (fa : List LocalVar) (rt : Ty) (p : Position) :
    computeFootprint perm (Expr.funcApp n args fa rt p) = computeFootprintList perm args := rfl

@[simp] theorem computeFootprintList_nil (perm : PermAmount) :
    computeFootprintList perm [] = [] := rfl

@[simp] theorem computeFootprintList_cons (perm : PermAmount) (e : Expr) (es : List Expr) :
    computeFootprintList perm (e :: es) = (computeFootprint perm e ++ computeFootprintList perm es) := rfl

@[simp] theorem purityFlag_loc (v : LocalVar) (p : Position) :
    purityFlag (Expr.local_ v p) = false := rfl

@[simp] theorem purityFlag_var (b : Expr) (f : Field) (p : Position) :
    purityFlag (Expr.variant b f p) = purityFlag b := rfl

@[simp] theorem purityFlag_fld (b : Expr) (f : Field) (p : Position) :
    purityFlag (Expr.field b f p) = purityFlag b := rfl

@[simp] theorem purityFlag_adr (b : Expr) (ty : Ty) (p : Position) :
    purityFlag (Expr.addrOf b ty p) = purityFlag b := rfl

@[simp] theorem purityFlag_old (l : String) (b : Expr) (p : Position) :
    purityFlag (Expr.labelledOld l b p) = purityFlag b := rfl

@[simp] theorem purityFlag_cst (c : Const) (p : Position) :
    purityFlag (Expr.const c p) = false := rfl

@[simp] theorem purityFlag_mgw (a1 : Expr) (a2 : Expr) (br : Option Borrow) (p : Position) :
    purityFlag (Expr.magicWand a1 a2 br p) = (purityFlag a1 || purityFlag a2) := rfl

@[simp] theorem purityFlag_pap (n : String) (a : Expr) (pa : PermAmount) (p : Position) :
    purityFlag (Expr.predicateAccessPredicate n a pa p) = true := rfl

@[simp] theorem purityFlag_fap (b : Expr) (pa : PermAmount) (p : Position) :
    purityFlag (Expr.fieldAccessPredicate b pa p) = true := rfl

@[simp] theorem purityFlag_uop (op : UnaryOpKind) (a : Expr) (p : Position) :
    purityFlag (Expr.unaryOp op a p) = purityFlag a := rfl

@[simp] theorem purityFlag_bop (op : BinOpKind) (a1 : Expr) (a2 : Expr) (p : Position) :
    purityFlag (Expr.binOp op a1 a2 p) = (purityFlag a1 || purityFlag a2) := rfl

@[simp] theorem purityFlag_unf (n : String) (args : List Expr) (b : Expr) (pa : PermAmount) (vi : MaybeEnumVariantIndex) (p : Position) :
    purityFlag (Expr.unfolding n args b pa vi p) = (purityFlagList args || purityFlag b) := rfl

@[simp] theorem purityFlag_cnd (g : Expr) (a1 : Expr) (a2 : Expr) (p : Position) :
    purityFlag (Expr.cond g a1 a2 p) = (purityFlag g || purityFlag a1 || purityFlag a2) := rfl

@[simp] theorem purityFlag_fal (vs : List LocalVar) (trgs : List Trigger) (b : Expr) (p : Position) :
    purityFlag (Expr.forAll vs trgs b p) = purityFlag b := rfl

@[simp] theorem purityFlag_lte (v : LocalVar) (d : Expr) (b : Expr) (p : Position) :
    purityFlag (Expr.letExpr v d b p) = (purityFlag d || purityFlag b) := rfl

@[simp] theorem purityFlag_app (n : String) (args : List Expr) (fa : List LocalVar) (rt : Ty) (p : Position) :
    purityFlag (Expr.funcApp n args fa rt p) = purityFlagList args := rfl

@[simp] theorem purityFlagList_nil : purityFlagList [] = false := rfl

@[simp] theorem purityFlagList_cons (e : Expr) (es : List Expr) :
    purityFlagList (e :: es) = (purityFlag e || purityFlagList es) := rfl

@[simp] theorem containsPermNode_loc (wt : Bool) (v : LocalVar) (p : Position) :
    containsPermNode wt (Expr.local_ v p) = false := rfl

@[simp] theorem containsPermNode_var (wt : Bool) (b : Expr) (f : Field) (p : Position) :
    containsPermNode wt (Expr.variant b f p) = containsPermNode wt b := rfl

@[simp] theorem containsPermNode_fld (wt : Bool) (b : Expr) (f : Field) (p : Position) :
    containsPermNode wt (Expr.field b f p) = containsPermNode wt b := rfl

@[simp] theorem containsPermNode_adr (wt : Bool) (b : Expr) (ty : Ty) (p : Position) :
    containsPermNode wt (Expr.addrOf b ty p) = containsPermNode wt b := rfl

@[simp] theorem containsPermNode_old (wt : Bool) (l : String) (b : Expr) (p : Position) :
    containsPermNode wt (Expr.labelledOld l b p) = containsPermNode wt b := rfl

@[simp] theorem containsPermNode_cst (wt : Bool) (c : Const) (p : Position) :
    containsPermNode wt (Expr.const c p) = false := rfl

@[simp] theorem containsPermNode_mgw (wt : Bool) (a1 : Expr) (a2 : Expr) (br : Option Borrow) (p : Position) :
    containsPermNode wt (Expr.magicWand a1 a2 br p) = (containsPermNode wt a1 || containsPermNode wt a2) := rfl

@[simp] theorem containsPermNode_pap (wt : Bool) (n : String) (a : Expr) (pa : PermAmount) (p : Position) :
    containsPermNode wt (Expr.predicateAccessPredicate n a pa p) = true := rfl

@[simp] theorem containsPermNode_fap (wt : Bool) (b : Expr) (pa : PermAmount) (p : Position) :
    containsPermNode wt (Expr.fieldAccessPredicate b pa p) = true := rfl

@[simp] theorem containsPermNode_uop (wt : Bool) (op : UnaryOpKind) (a : Expr) (p : Position) :
    containsPermNode wt (Expr.unaryOp op a p) = containsPermNode wt a := rfl

@[simp] theorem containsPermNode_bop (wt : Bool) (op : BinOpKind) (a1 : Expr) (a2 : Expr) (p : Position) :
    containsPermNode wt (Expr.binOp op a1 a2 p) = (containsPermNode wt a1 || containsPermNode wt a2) := rfl

@[simp] theorem containsPermNode_unf (wt : Bool) (n : String) (args : List Expr) (b : Expr) (pa : PermAmount) (vi : MaybeEnumVariantIndex) (p : Position) :
    containsPermNode wt (Expr.unfolding n args b pa vi p) = (containsPermNodeList wt args || containsPermNode wt b) := rfl

@[simp] theorem containsPermNode_cnd (wt : Bool) (g : Expr) (a1 : Expr) (a2 : Expr) (p : Position) :
    containsPermNode wt (Expr.cond g a1 a2 p) = (containsPermNode wt g || containsPermNode wt a1 || containsPermNode wt a2) := rfl

@[simp] theorem containsPermNode_fal (wt : Bool) (vs : List LocalVar) (trgs : List Trigger) (b : Expr) (p : Position) :
    containsPermNode wt (Expr.forAll vs trgs b p) = ((wt && containsPermNodeTriggers wt trgs) || containsPermNode wt b) := rfl

@[simp] theorem containsPermNode_lte (wt : Bool) (v : LocalVar) (d : Expr) (b : Expr) (p : Position) :
    containsPermNode wt (Expr.letExpr v d b p) = (containsPermNode wt d || containsPermNode wt b) := rfl

@[simp] theorem containsPermNode_app (wt : Bool) (n : String) (args : List Expr) (fa : List LocalVar) (rt : Ty) (p : Position) :
    containsPermNode wt (Expr.funcApp n args fa rt p) = containsPermNodeList wt args := rfl

@[simp] theorem containsPermNodeList_nil (wt : Bool) : containsPermNodeList wt [] = false := rfl

@[simp] theorem containsPermNodeList_cons (wt : Bool) (e : Expr) (es : List Expr) :
    containsPermNodeList wt (e :: es) = (containsPermNode wt e || containsPermNodeList wt es) := rfl

@[simp] theorem containsPermNodeTriggers_nil (wt : Bool) : containsPermNodeTriggers wt [] = false := rfl

@[simp] theorem containsPermNodeTriggers_cons (wt : Bool) (ps : List Expr) (ts : List Trigger) :
    containsPermNodeTriggers wt (.mk ps :: ts) = (containsPermNodeList wt ps || containsPermNodeTriggers wt ts) := rfl

@[simp] theorem removeReadPermissions_loc (v : LocalVar) (p : Position) :
    removeReadPermissions (Expr.local_ v p) = some (Expr.local_ v p) := rfl

@[simp] theorem removeReadPermissions_var (b : Expr) (f : Field) (p : Position) :
    removeReadPermissions (Expr.variant b f p) = (removeReadPermissions b).bind fun x => some (Expr.variant x f p) := rfl

@[simp] theorem removeReadPermissions_fld (b : Expr) (f : Field) (p : Position) :
    removeReadPermissions (Expr.field b f p) = (removeReadPermissions b).bind fun x => some (Expr.field x f p) := rfl

@[simp] theorem removeReadPermissions_adr (b : Expr) (ty : Ty) (p : Position) :
    removeReadPermissions (Expr.addrOf b ty p) = (removeReadPermissions b).bind fun x => some (Expr.addrOf x ty p) := rfl

@[simp] theorem removeReadPermissions_old (l : String) (b : Expr) (p : Position) :
    removeReadPermissions (Expr.labelledOld l b p) = (removeReadPermissions b).bind fun x => some (Expr.labelledOld l x p) := rfl

@[simp] theorem removeReadPermissions_cst (c : Const) (p : Position) :
    removeReadPermissions (Expr.const c p) = some (Expr.const c p) := rfl

@[simp] theorem removeReadPermissions_mgw (a1 : Expr) (a2 : Expr) (br : Option Borrow) (p : Position) :
    removeReadPermissions (Expr.magicWand a1 a2 br p) = (removeReadPermissions a1).bind fun x => (removeReadPermissions a2).bind fun y => some (Expr.magicWand x y br p) := rfl

@[simp] theorem removeReadPermissions_uop (op : UnaryOpKind) (a : Expr) (p : Position) :
    removeReadPermissions (Expr.unaryOp op a p) = (removeReadPermissions a).bind fun x => some (Expr.unaryOp op x p) := rfl

@[simp] theorem removeReadPermissions_bop (op : BinOpKind) (a1 : Expr) (a2 : Expr) (p : Position) :
    removeReadPermissions (Expr.binOp op a1 a2 p) = (removeReadPermissions a1).bind fun x => (removeReadPermissions a2).bind fun y => some (Expr.binOp op x y p) := rfl

@[simp] theorem removeReadPermissions_unf (n : String) (args : List Expr) (b : Expr) (pa : PermAmount) (vi : MaybeEnumVariantIndex) (p : Position) :
    removeReadPermissions (Expr.unfolding n args b pa vi p) = (removeReadPermissionsList args).bind fun xs => (removeReadPermissions b).bind fun y => some (Expr.unfolding n xs y pa vi p) := rfl

@[simp] theorem removeReadPermissions_cnd (g : Expr) (a1 : Expr) (a2 : Expr) (p : Position) :
    removeReadPermissions (Expr.cond g a1 a2 p) = (removeReadPermissions g).bind fun x => (removeReadPermissions a1).bind fun y => (removeReadPermissions a2).bind fun z => some (Expr.cond x y z p) := rfl

@[simp] theorem removeReadPermissions_fal (vs : List LocalVar) (trgs : List Trigger) (b : Expr) (p : Position) :
    removeReadPermissions (Expr.forAll vs trgs b p) = (removeReadPermissions b).bind fun y => some (Expr.forAll vs trgs y p) := rfl

@[simp] theorem removeReadPermissions_lte (v : LocalVar) (d : Expr) (b : Expr) (p : Position) :
    removeReadPermissions (Expr.letExpr v d b p) = (removeReadPermissions d).bind fun x => (removeReadPermissions b).bind fun y => some (Expr.letExpr v x y p) := rfl

@[simp] theorem removeReadPermissions_app (n : String) (args : List Expr) (fa : List LocalVar) (rt : Ty) (p : Position) :
    removeReadPermissions (Expr.funcApp n args fa rt p) = (removeReadPermissionsList args).bind fun xs => some (Expr.funcApp n xs fa rt p) := rfl

@[simp] theorem removeReadPermissions_pap_write (n : String) (a : Expr) (p : Position) :
    removeReadPermissions (Expr.predicateAccessPredicate n a .write p) = some (Expr.predicateAccessPredicate n a .write p) := rfl

@[simp] theorem removeReadPermissions_fap_write (b : Expr) (p : Position) :
    removeReadPermissions (Expr.fieldAccessPredicate b .write p) = some (Expr.fieldAccessPredicate b .write p) := rfl

@[simp] theorem removeReadPermissions_pap_read (n : String) (a : Expr) (p : Position) :
    removeReadPermissions (Expr.predicateAccessPredicate n a .read p) = some Expr.trueLit := rfl

@[simp] theorem removeReadPermissions_fap_read (b : Expr) (p : Position) :
    removeReadPermissions (Expr.fieldAccessPredicate b .read p) = some Expr.trueLit := rfl

@[simp] theorem removeReadPermissions_pap_none (n : String) (a : Expr) (p : Position) :
    removeReadPermissions (Expr.predicateAccessPredicate n a .none p) = none := rfl

@[simp] theorem removeReadPermissions_fap_none (b : Expr) (p : Position) :
    removeReadPermissions (Expr.fieldAccessPredicate b .none p) = none := rfl

@[simp] theorem removeReadPermissions_pap_fractional (n : String) (a : Expr) (p : Position) :
    removeReadPermissions (Expr.predicateAccessPredicate n a .fractional p) = none := rfl

@[simp] theorem removeReadPermissions_fap_fractional (b : Expr) (p : Position) :
    removeReadPermissions (Expr.fieldAccessPredicate b .fractional p) = none := rfl

@[simp] theorem removeReadPermissionsList_nil : removeReadPermissionsList [] = some [] := rfl

@[simp] theorem removeReadPermissionsList_cons (e : Expr) (es : List Expr) :
    removeReadPermissionsList (e :: es) = (removeReadPermissions e).bind fun x => (removeReadPermissionsList es).bind fun xs => some (x :: xs) := rfl

@[simp] theorem visitedPermsRW_loc (v : LocalVar) (p : Position) :
    visitedPermsRW (Expr.local_ v p) = true := rfl

@[simp] theorem visitedPermsRW_var (b : Expr) (f : Field) (p : Position) :
    visitedPermsRW (Expr.variant b f p) = visitedPermsRW b := rfl

@[simp] theorem visitedPermsRW_fld (b : Expr) (f : Field) (p : Position) :
    visitedPermsRW (Expr.field b f p) = visitedPermsRW b := rfl

@[simp] theorem visitedPermsRW_adr (b : Expr) (ty : Ty) (p : Position) :
    visitedPermsRW (Expr.addrOf b ty p) = visitedPermsRW b := rfl

@[simp] theorem visitedPermsRW_old (l : String) (b : Expr) (p : Position) :
    visitedPermsRW (Expr.labelledOld l b p) = visitedPermsRW b := rfl

@[simp] theorem visitedPermsRW_cst (c : Const) (p : Position) :
    visitedPermsRW (Expr.const c p) = true := rfl

@[simp] theorem visitedPermsRW_mgw (a1 : Expr) (a2 : Expr) (br : Option Borrow) (p : Position) :
    visitedPermsRW (Expr.magicWand a1 a2 br p) = (visitedPermsRW a1 && visitedPermsRW a2) := rfl

@[simp] theorem visitedPermsRW_uop (op : UnaryOpKind) (a : Expr) (p : Position) :
    visitedPermsRW (Expr.unaryOp op a p) = visitedPermsRW a := rfl

@[simp] theorem visitedPermsRW_bop (op : BinOpKind) (a1 : Expr) (a2 : Expr) (p : Position) :
    visitedPermsRW (Expr.binOp op a1 a2 p) = (visitedPermsRW a1 && visitedPermsRW a2) := rfl

@[simp] theorem visitedPermsRW_unf (n : String) (args : List Expr) (b : Expr) (pa : PermAmount) (vi : MaybeEnumVariantIndex) (p : Position) :
    visitedPermsRW (Expr.unfolding n args b pa vi p) = (visitedPermsRWList args && visitedPermsRW b) := rfl

@[simp] theorem visitedPermsRW_cnd (g : Expr) (a1 : Expr) (a2 : Expr) (p : Position) :
    visitedPermsRW (Expr.cond g a1 a2 p) = (visitedPermsRW g && visitedPermsRW a1 && visitedPermsRW a2) := rfl

@[simp] theorem visitedPermsRW_fal (vs : List LocalVar) (trgs : List Trigger) (b : Expr) (p : Position) :
    visitedPermsRW (Expr.forAll vs trgs b p) = visitedPermsRW b := rfl

@[simp] theorem visitedPermsRW_lte (v : LocalVar) (d : Expr) (b : Expr) (p : Position) :
    visitedPermsRW (Expr.letExpr v d b p) = (visitedPermsRW d && visitedPermsRW b) := rfl

@[simp] theorem visitedPermsRW_app (n : String) (args : List Expr) (fa : List LocalVar) (rt : Ty) (p : Position) :
    visitedPermsRW (Expr.funcApp n args fa rt p) = visitedPermsRWList args := rfl

@[simp] theorem visitedPermsRW_pap_write (n : String) (a : Expr) (p : Position) :
    visitedPermsRW (Expr.predicateAccessPredicate n a .write p) = true := rfl

@[simp] theorem visitedPermsRW_fap_write (b : Expr) (p : Position) :
    visitedPermsRW (Expr.fieldAccessPredicate b .write p) = true := rfl

@[simp] theorem visitedPermsRW_pap_read (n : String) (a : Expr) (p : Position) :
    visitedPermsRW (Expr.predicateAccessPredicate n a .read p) = true := rfl

@[simp] theorem visitedPermsRW_fap_read (b : Expr) (p : Position) :
    visitedPermsRW (Expr.fieldAccessPredicate b .read p) = true := rfl

@[simp] theorem visitedPermsRW_pap_none (n : String) (a : Expr) (p : Position) :
    visitedPermsRW (Expr.predicateAccessPredicate n a .none p) = false := rfl

@[simp] theorem visitedPermsRW_fap_none (b : Expr) (p : Position) :
    visitedPermsRW (Expr.fieldAccessPredicate b .none p) = false := rfl

@[simp] theorem visitedPermsRW_pap_fractional (n : String) (a : Expr) (p : Position) :
    visitedPermsRW (Expr.predicateAccessPredicate n a .fractional p) = false := rfl

@[simp] theorem visitedPermsRW_fap_fractional (b : Expr) (p : Position) :
    visitedPermsRW (Expr.fieldAccessPredicate b .fractional p) = false := rfl

@[simp] theorem visitedPermsRWList_nil : visitedPermsRWList [] = true := rfl

@[simp] theorem visitedPermsRWList_cons (e : Expr) (es : List Expr) :
    visitedPermsRWList (e :: es) = (visitedPermsRW e && visitedPermsRWList es) := rfl

@[simp] theorem removeReadSpec_loc (v : LocalVar) (p : Position) :
    removeReadSpec (Expr.local_ v p) = Expr.local_ v p := rfl

@[simp] theorem removeReadSpec_var (b : Expr) (f : Field) (p : Position) :
    removeReadSpec (Expr.variant b f p) = Expr.variant (removeReadSpec b) f p := rfl

@[simp] theorem removeReadSpec_fld (b : Expr) (f : Field) (p : Position) :
    removeReadSpec (Expr.field b f p) = Expr.field (removeReadSpec b) f p := rfl

@[simp] theorem removeReadSpec_adr (b : Expr) (ty : Ty) (p : Position) :
    removeReadSpec (Expr.addrOf b ty p) = Expr.addrOf (removeReadSpec b) ty p := rfl

@[simp] theorem removeReadSpec_old (l : String) (b : Expr) (p : Position) :
    removeReadSpec (Expr.labelledOld l b p) = Expr.labelledOld l (removeReadSpec b) p := rfl

@[simp] theorem removeReadSpec_cst (c : Const) (p : Position) :
    removeReadSpec (Expr.const c p) = Expr.const c p := rfl

@[simp] theorem removeReadSpec_mgw (a1 : Expr) (a2 : Expr) (br : Option Borrow) (p : Position) :
    removeReadSpec (Expr.magicWand a1 a2 br p) = Expr.magicWand (removeReadSpec a1) (removeReadSpec a2) br p := rfl

@[simp] theorem removeReadSpec_uop (op : UnaryOpKind) (a : Expr) (p : Position) :
    removeReadSpec (Expr.unaryOp op a p) = Expr.unaryOp op (removeReadSpec a) p := rfl

@[simp] theorem removeReadSpec_bop (op : BinOpKind) (a1 : Expr) (a2 : Expr) (p : Position) :
    removeReadSpec (Expr.binOp op a1 a2 p) = Expr.binOp op (removeReadSpec a1) (removeReadSpec a2) p := rfl

@[simp] theorem removeReadSpec_unf (n : String) (args : List Expr) (b : Expr) (pa : PermAmount) (vi : MaybeEnumVariantIndex) (p : Position) :
    removeReadSpec (Expr.unfolding n args b pa vi p) = Expr.unfolding n (removeReadSpecList args) (removeReadSpec b) pa vi p := rfl

@[simp] theorem removeReadSpec_cnd (g : Expr) (a1 : Expr) (a2 : Expr) (p : Position) :
    removeReadSpec (Expr.cond g a1 a2 p) = Expr.cond (removeReadSpec g) (removeReadSpec a1) (removeReadSpec a2) p := rfl

@[simp] theorem removeReadSpec_fal (vs : List LocalVar) (trgs : List Trigger) (b : Expr) (p : Position) :
    removeReadSpec (Expr.forAll vs trgs b p) = Expr.forAll vs trgs (removeReadSpec b) p := rfl

@[simp] theorem removeReadSpec_lte (v : LocalVar) (d : Expr) (b : Expr) (p : Position) :
    removeReadSpec (Expr.letExpr v d b p) = Expr.letExpr v (removeReadSpec d) (removeReadSpec b) p := rfl

@[simp] theorem removeReadSpec_app (n : String) (args : List Expr) (fa : List LocalVar) (rt : Ty) (p : Position) :
    removeReadSpec (Expr.funcApp n args fa rt p) = Expr.funcApp n (removeReadSpecList args) fa rt p := rfl

@[simp] theorem removeReadSpec_pap_write (n : String) (a : Expr) (p : Position) :
    removeReadSpec (Expr.predicateAccessPredicate n a .write p) = Expr.predicateAccessPredicate n a .write p := rfl

@[simp] theorem removeReadSpec_fap_write (b : Expr) (p : Position) :
    removeReadSpec (Expr.fieldAccessPredicate b .write p) = Expr.fieldAccessPredicate b .write p := rfl

@[simp] theorem removeReadSpec_pap_read (n : String) (a : Expr) (p : Position) :
    removeReadSpec (Expr.predicateAccessPredicate n a .read p) = Expr.trueLit := rfl

@[simp] theorem removeReadSpec_fap_read (b : Expr) (p : Position) :
    removeReadSpec (Expr.fieldAccessPredicate b .read p) = Expr.trueLit := rfl

@[simp] theorem removeReadSpec_pap_none (n : String) (a : Expr) (p : Position) :
    removeReadSpec (Expr.predicateAccessPredicate n a .none p) = Expr.predicateAccessPredicate n a .none p := rfl

@[simp] theorem removeReadSpec_fap_none (b : Expr) (p : Position) :
    removeReadSpec (Expr.fieldAccessPredicate b .none p) = Expr.fieldAccessPredicate b .none p := rfl

@[simp] theorem removeReadSpec_pap_fractional (n : String) (a : Expr) (p : Position) :
    removeReadSpec (Expr.predicateAccessPredicate n a .fractional p) = Expr.predicateAccessPredicate n a .fractional p := rfl

@[simp] theorem removeReadSpec_fap_fractional (b : Expr) (p : Position) :
    removeReadSpec (Expr.fieldAccessPredicate b .fractional p) = Expr.fieldAccessPredicate b .fractional p := rfl

@[simp] theorem removeReadSpecList_nil : removeReadSpecList [] = [] := rfl

@[simp] theorem removeReadSpecList_cons (e : Expr) (es : List Expr) :
    removeReadSpecList (e :: es) = removeReadSpec e :: removeReadSpecList es := rfl

@[simp] theorem rpFold_loc (t r : Expr) (tps : Option Substs) (flag : Bool) (v : LocalVar) (p : Position) :
    rpFold t r tps (Expr.local_ v p) flag =
      if isTheTarget t (Expr.local_ v p) then (r, true)
      else (Expr.local_ v p, false) := rfl

@[simp] theorem rpFold_var (t r : Expr) (tps : Option Substs) (flag : Bool) (b : Expr) (f : Field) (p : Position) :
    rpFold t r tps (Expr.variant b f p) flag =
      if isTheTarget t (Expr.variant b f p) then (r, true)
      else (Expr.variant (rpFold t r tps b flag).1 f p, false) := rfl

@[simp] theorem rpFold_fld (t r : Expr) (tps : Option Substs) (flag : Bool) (b : Expr) (f : Field) (p : Position) :
    rpFold t r tps (Expr.field b f p) flag =
      if isTheTarget t (Expr.field b f p) then (r, true)
      else (Expr.field (rpFold t r tps b flag).1 (patchField tps (rpFold t r tps b flag).2 f) p, (rpFold t r tps b flag).2) := rfl

@[simp] theorem rpFold_adr (t r : Expr) (tps : Option Substs) (flag : Bool) (b : Expr) (ty : Ty) (p : Position) :
    rpFold t r tps (Expr.addrOf b ty p) flag =
      if isTheTarget t (Expr.addrOf b ty p) then (r, true)
      else (Expr.addrOf (rpFold t r tps b flag).1 ty p, false) := rfl

@[simp] theorem rpFold_old (t r : Expr) (tps : Option Substs) (flag : Bool) (l : String) (b : Expr) (p : Position) :
    rpFold t r tps (Expr.labelledOld l b p) flag =
      if isTheTarget t (Expr.labelledOld l b p) then (r, true)
      else (Expr.labelledOld l (rpFold t r tps b flag).1 p, false) := rfl

@[simp] theorem rpFold_cst (t r : Expr) (tps : Option Substs) (flag : Bool) (c : Const) (p : Position) :
    rpFold t r tps (Expr.const c p) flag =
      if isTheTarget t (Expr.const c p) then (r, true)
      else (Expr.const c p, false) := rfl

@[simp] theorem rpFold_mgw (t r : Expr) (tps : Option Substs) (flag : Bool) (a1 : Expr) (a2 : Expr) (br : Option Borrow) (p : Position) :
    rpFold t r tps (Expr.magicWand a1 a2 br p) flag =
      if isTheTarget t (Expr.magicWand a1 a2 br p) then (r, true)
      else (Expr.magicWand (rpFold t r tps a1 flag).1 (rpFold t r tps a2 (rpFold t r tps a1 flag).2).1 br p, false) := rfl

@[simp] theorem rpFold_pap (t r : Expr) (tps : Option Substs) (flag : Bool) (n : String) (a : Expr) (pa : PermAmount) (p : Position) :
    rpFold t r tps (Expr.predicateAccessPredicate n a pa p) flag =
      if isTheTarget t (Expr.predicateAccessPredicate n a pa p) then (r, true)
      else (Expr.predicateAccessPredicate n (rpFold t r tps a flag).1 pa p, false) := rfl

@[simp] theorem rpFold_fap (t r : Expr) (tps : Option Substs) (flag : Bool) (b : Expr) (pa : PermAmount) (p : Position) :
    rpFold t r tps (Expr.fieldAccessPredicate b pa p) flag =
      if isTheTarget t (Expr.fieldAccessPredicate b pa p) then (r, true)
      else (Expr.fieldAccessPredicate (rpFold t r tps b flag).1 pa p, false) := rfl

@[simp] theorem rpFold_uop (t r : Expr) (tps : Option Substs) (flag : Bool) (op : UnaryOpKind) (a : Expr) (p : Position) :
    rpFold t r tps (Expr.unaryOp op a p) flag =
      if isTheTarget t (Expr.unaryOp op a p) then (r, true)
      else (Expr.unaryOp op (rpFold t r tps a flag).1 p, false) := rfl

@[simp] theorem rpFold_bop (t r : Expr) (tps : Option Substs) (flag : Bool) (op : BinOpKind) (a1 : Expr) (a2 : Expr) (p : Position) :
    rpFold t r tps (Expr.binOp op a1 a2 p) flag =
      if isTheTarget t (Expr.binOp op a1 a2 p) then (r, true)
      else (Expr.binOp op (rpFold t r tps a1 flag).1 (rpFold t r tps a2 (rpFold t r tps a1 flag).2).1 p, false) := rfl

@[simp] theorem rpFold_unf (t r : Expr) (tps : Option Substs) (flag : Bool) (n : String) (args : List Expr) (b : Expr) (pa : PermAmount) (vi : MaybeEnumVariantIndex) (p : Position) :
    rpFold t r tps (Expr.unfolding n args b pa vi p) flag =
      if isTheTarget t (Expr.unfolding n args b pa vi p) then (r, true)
      else (Expr.unfolding n (rpFoldList t r tps args flag).1 (rpFold t r tps b (rpFoldList t r tps args flag).2).1 pa vi p, false) := rfl

@[simp] theorem rpFold_cnd (t r : Expr) (tps : Option Substs) (flag : Bool) (g : Expr) (a1 : Expr) (a2 : Expr) (p : Position) :
    rpFold t r tps (Expr.cond g a1 a2 p) flag =
      if isTheTarget t (Expr.cond g a1 a2 p) then (r, true)
      else (Expr.cond (rpFold t r tps g flag).1 (rpFold t r tps a1 (rpFold t r tps g flag).2).1 (rpFold t r tps a2 (rpFold t r tps a1 (rpFold t r tps g flag).2).2).1 p, false) := rfl

@[simp] theorem rpFold_fal (t r : Expr) (tps : Option Substs) (flag : Bool) (vs : List LocalVar) (trgs : List Trigger) (b : Expr) (p : Position) :
    rpFold t r tps (Expr.forAll vs trgs b p) flag =
      if isTheTarget t (Expr.forAll vs trgs b p) then (r, true)
      else (if shadowsTarget t vs then (Expr.forAll vs trgs b p, false) else (Expr.forAll vs (rpFoldTriggers t r tps trgs) (rpFold t r tps b flag).1 p, false)) := rfl

@[simp] theorem rpFold_lte (t r : Expr) (tps : Option Substs) (flag : Bool) (v : LocalVar) (d : Expr) (b : Expr) (p : Position) :
    rpFold t r tps (Expr.letExpr v d b p) flag =
      if isTheTarget t (Expr.letExpr v d b p) then (r, true)
      else (Expr.letExpr v (rpFold t r tps d flag).1 (rpFold t r tps b (rpFold t r tps d flag).2).1 p, false) := rfl

@[simp] theorem rpFold_app (t r : Expr) (tps : Option Substs) (flag : Bool) (n : String) (args : List Expr) (fa : List LocalVar) (rt : Ty) (p : Position) :
    rpFold t r tps (Expr.funcApp n args fa rt p) flag =
      if isTheTarget t (Expr.funcApp n args fa rt p) then (r, true)
      else (Expr.funcApp n (rpFoldList t r tps args flag).1 fa rt p, false) := rfl

@[simp] theorem rpFoldList_nil (t r : Expr) (tps : Option Substs) (flag : Bool) :
    rpFoldList t r tps [] flag = ([], flag) := rfl

@[simp] theorem rpFoldList_cons (t r : Expr) (tps : Option Substs) (flag : Bool) (e : Expr) (es : List Expr) :
    rpFoldList t r tps (e :: es) flag =
      ((rpFold t r tps e flag).1 :: (rpFoldList t r tps es (rpFold t r tps e flag).2).1,
        (rpFoldList t r tps es (rpFold t r tps e flag).2).2) := rfl

@[simp] theorem rpFoldTriggers_nil (t r : Expr) (tps : Option Substs) :
    rpFoldTriggers t r tps [] = [] := rfl

@[simp] theorem rpFoldTriggers_cons (t r : Expr) (tps : Option Substs) (ps : List Expr) (rest : List Trigger) :
    rpFoldTriggers t r tps (.mk ps :: rest) = .mk (rpFoldParts t r tps ps) :: rpFoldTriggers t r tps rest := rfl

@[simp] theorem rpFoldParts_nil (t r : Expr) (tps : Option Substs) :
    rpFoldParts t r tps [] = [] := rfl

@[simp] theorem rpFoldParts_cons (t r : Expr) (tps : Option Substs) (e : Expr) (es : List Expr) :
    rpFoldParts t r tps (e :: es) = (rpFold t r tps e false).1 :: rpFoldParts t r tps es := rfl

@[simp] theorem replacePlaceSpec_loc (t r : Expr) (v : LocalVar) (p : Position) :
    replacePlaceSpec t r (Expr.local_ v p) =
      if isTheTarget t (Expr.local_ v p) then r
      else Expr.local_ v p := rfl

@[simp] theorem replacePlaceSpec_var (t r : Expr) (b : Expr) (f : Field) (p : Position) :
    replacePlaceSpec t r (Expr.variant b f p) =
      if isTheTarget t (Expr.variant b f p) then r
      else Expr.variant (replacePlaceSpec t r b) f p := rfl

@[simp] theorem replacePlaceSpec_fld (t r : Expr) (b : Expr) (f : Field) (p : Position) :
    replacePlaceSpec t r (Expr.field b f p) =
      if isTheTarget t (Expr.field b f p) then r
      else Expr.field (replacePlaceSpec t r b) f p := rfl

@[simp] theorem replacePlaceSpec_adr (t r : Expr) (b : Expr) (ty : Ty) (p : Position) :
    replacePlaceSpec t r (Expr.addrOf b ty p) =
      if isTheTarget t (Expr.addrOf b ty p) then r
      else Expr.addrOf (replacePlaceSpec t r b) ty p := rfl

@[simp] theorem replacePlaceSpec_old (t r : Expr) (l : String) (b : Expr) (p : Position) :
    replacePlaceSpec t r (Expr.labelledOld l b p) =
      if isTheTarget t (Expr.labelledOld l b p) then r
      else Expr.labelledOld l (replacePlaceSpec t r b) p := rfl

@[simp] theorem replacePlaceSpec_cst (t r : Expr) (c : Const) (p : Position) :
    replacePlaceSpec t r (Expr.const c p) =
      if isTheTarget t (Expr.const c p) then r
      else Expr.const c p := rfl

@[simp] theorem replacePlaceSpec_mgw (t r : Expr) (a1 : Expr) (a2 : Expr) (br : Option Borrow) (p : Position) :
    replacePlaceSpec t r (Expr.magicWand a1 a2 br p) =
      if isTheTarget t (Expr.magicWand a1 a2 br p) then r
      else Expr.magicWand (replacePlaceSpec t r a1) (replacePlaceSpec t r a2) br p := rfl

@[simp] theorem replacePlaceSpec_pap (t r : Expr) (n : String) (a : Expr) (pa : PermAmount) (p : Position) :
    replacePlaceSpec t r (Expr.predicateAccessPredicate n a pa p) =
      if isTheTarget t (Expr.predicateAccessPredicate n a pa p) then r
      else Expr.predicateAccessPredicate n (replacePlaceSpec t r a) pa p := rfl

@[simp] theorem replacePlaceSpec_fap (t r : Expr) (b : Expr) (pa : PermAmount) (p : Position) :
    replacePlaceSpec t r (Expr.fieldAccessPredicate b pa p) =
      if isTheTarget t (Expr.fieldAccessPredicate b pa p) then r
      else Expr.fieldAccessPredicate (replacePlaceSpec t r b) pa p := rfl

@[simp] theorem replacePlaceSpec_uop (t r : Expr) (op : UnaryOpKind) (a : Expr) (p : Position) :
    replacePlaceSpec t r (Expr.unaryOp op a p) =
      if isTheTarget t (Expr.unaryOp op a p) then r
      else Expr.unaryOp op (replacePlaceSpec t r a) p := rfl

@[simp] theorem replacePlaceSpec_bop (t r : Expr) (op : BinOpKind) (a1 : Expr) (a2 : Expr) (p : Position) :
    replacePlaceSpec t r (Expr.binOp op a1 a2 p) =
      if isTheTarget t (Expr.binOp op a1 a2 p) then r
      else Expr.binOp op (replacePlaceSpec t r a1) (replacePlaceSpec t r a2) p := rfl

@[simp] theorem replacePlaceSpec_unf (t r : Expr) (n : String) (args : List Expr) (b : Expr) (pa : PermAmount) (vi : MaybeEnumVariantIndex) (p : Position) :
    replacePlaceSpec t r (Expr.unfolding n args b pa vi p) =
      if isTheTarget t (Expr.unfolding n args b pa vi p) then r
      else Expr.unfolding n (replacePlaceSpecList t r args) (replacePlaceSpec t r b) pa vi p := rfl

@[simp] theorem replacePlaceSpec_cnd (t r : Expr) (g : Expr) (a1 : Expr) (a2 : Expr) (p : Position) :
    replacePlaceSpec t r (Expr.cond g a1 a2 p) =
      if isTheTarget t (Expr.cond g a1 a2 p) then r
      else Expr.cond (replacePlaceSpec t r g) (replacePlaceSpec t r a1) (replacePlaceSpec t r a2) p := rfl

@[simp] theorem replacePlaceSpec_fal (t r : Expr) (vs : List LocalVar) (trgs : List Trigger) (b : Expr) (p : Position) :
    replacePlaceSpec t r (Expr.forAll vs trgs b p) =
      if isTheTarget t (Expr.forAll vs trgs b p) then r
      else (if shadowsTarget t vs then Expr.forAll vs trgs b p else Expr.forAll vs (replacePlaceSpecTriggers t r trgs) (replacePlaceSpec t r b) p) := rfl

@[simp] theorem replacePlaceSpec_lte (t r : Expr) (v : LocalVar) (d : Expr) (b : Expr) (p : Position) :
    replacePlaceSpec t r (Expr.letExpr v d b p) =
      if isTheTarget t (Expr.letExpr v d b p) then r
      else Expr.letExpr v (replacePlaceSpec t r d) (replacePlaceSpec t r b) p := rfl

@[simp] theorem replacePlaceSpec_app (t r : Expr) (n : String) (args : List Expr) (fa : List LocalVar) (rt : Ty) (p : Position) :
    replacePlaceSpec t r (Expr.funcApp n args fa rt p) =
      if isTheTarget t (Expr.funcApp n args fa rt p) then r
      else Expr.funcApp n (replacePlaceSpecList t r args) fa rt p := rfl

@[simp] theorem replacePlaceSpecList_nil (t r : Expr) :
    replacePlaceSpecList t r [] = [] := rfl

@[simp] theorem replacePlaceSpecList_cons (t r : Expr) (e : Expr) (es : List Expr) :
    replacePlaceSpecList t r (e :: es) = replacePlaceSpec t r e :: replacePlaceSpecList t r es := rfl

@[simp] theorem replacePlaceSpecTriggers_nil (t r : Expr) :
    replacePlaceSpecTriggers t r [] = [] := rfl

@[simp] theorem replacePlaceSpecTriggers_cons (t r : Expr) (ps : List Expr) (rest : List Trigger) :
    replacePlaceSpecTriggers t r (.mk ps :: rest) = .mk (replacePlaceSpecList t r ps) :: replacePlaceSpecTriggers t r rest := rfl


/-! ## Basic lemmas about the structural equality and the hash encoding -/

mutual
theorem exprEq_refl : (e : Expr) → exprEq e e = true
  | .local_ _ _ => by simp
  | .variant b _ _ => by simp [exprEq_refl b]
  | .field b _ _ => by simp [exprEq_refl b]
  | .addrOf b _ _ => by simp [exprEq_refl b]
  | .labelledOld _ b _ => by simp [exprEq_refl b]
  | .const _ _ => by simp
  | .magicWand l r _ _ => by simp [exprEq_refl l, exprEq_refl r]
  | .predicateAccessPredicate _ a _ _ => by simp [exprEq_refl a]
  | .fieldAccessPredicate b _ _ => by simp [exprEq_refl b]
  | .unaryOp _ a _ => by simp [exprEq_refl a]
  | .binOp _ l r _ => by simp [exprEq_refl l, exprEq_refl r]
  | .unfolding _ args b _ _ _ => by
      simp [exprEqList_refl args, exprEq_refl b]
  | .cond g t e _ => by simp [exprEq_refl g, exprEq_refl t, exprEq_refl e]
  | .forAll _ ts b _ => by simp [triggerEqList_refl ts, exprEq_refl b]
  | .letExpr _ d b _ => by simp [exprEq_refl d, exprEq_refl b]
  | .funcApp _ args _ _ _ => by simp [exprEqList_refl args]

theorem exprEqList_refl : (es : List Expr) → exprEqList es es = true
  | [] => rfl
  | e :: es => by simp [exprEq_refl e, exprEqList_refl es]

theorem triggerEqList_refl : (ts : List Trigger) → triggerEqList ts ts = true
  | [] => rfl
  | .mk ps :: ts => by simp [exprEqList_refl ps, triggerEqList_refl ts]
end

mutual
/-- Hash consistency: structurally equal expressions (ignoring positions)
feed the same data to the hasher. -/
theorem exprEq_hash : (a b : Expr) → exprEq a b = true → hashExpr a = hashExpr b
  | .local_ v p, b, h => by
      cases b <;> simp at h
      simp [h]
  | .variant x f p, b, h => by
      cases b <;> simp at h
      simp [h.2, exprEq_hash _ _ h.1]
  | .field x f p, b, h => by
      cases b <;> simp at h
      simp [h.2, exprEq_hash _ _ h.1]
  | .addrOf x t p, b, h => by
      cases b <;> simp at h
      simp [h.2, exprEq_hash _ _ h.1]
  | .labelledOld l x p, b, h => by
      cases b <;> simp at h
      simp [h.1, exprEq_hash _ _ h.2]
  | .const c p, b, h => by
      cases b <;> simp at h
      simp [h]
  | .magicWand l r br p, b, h => by
      cases b <;> simp at h
      simp [h.2, exprEq_hash _ _ h.1.1, exprEq_hash _ _ h.1.2]
  | .predicateAccessPredicate n a pa p, b, h => by
      cases b <;> simp at h
      simp [h.1.1, h.2, exprEq_hash _ _ h.1.2]
  | .fieldAccessPredicate x pa p, b, h => by
      cases b <;> simp at h
      simp [h.2, exprEq_hash _ _ h.1]
  | .unaryOp op a p, b, h => by
      cases b <;> simp at h
      simp [h.1, exprEq_hash _ _ h.2]
  | .binOp op l r p, b, h => by
      cases b <;> simp at h
      simp [h.1.1, exprEq_hash _ _ h.1.2, exprEq_hash _ _ h.2]
  | .unfolding n args x pa v p, b, h => by
      cases b <;> simp at h
      simp [h.1.1.1.1, h.1.2, h.2, exprEqList_hash _ _ h.1.1.1.2,
        exprEq_hash _ _ h.1.1.2]
  | .cond g t e p, b, h => by
      cases b <;> simp at h
      simp [exprEq_hash _ _ h.1.1, exprEq_hash _ _ h.1.2, exprEq_hash _ _ h.2]
  | .forAll vs ts x p, b, h => by
      cases b <;> simp at h
      simp [h.1.1, triggerEqList_hash _ _ h.1.2, exprEq_hash _ _ h.2]
  | .letExpr v d x p, b, h => by
      cases b <;> simp at h
      simp [h.1.1, exprEq_hash _ _ h.1.2, exprEq_hash _ _ h.2]
  | .funcApp n args fa rt p, b, h => by
      cases b <;> simp at h
      simp [h.1, exprEqList_hash _ _ h.2]

theorem exprEqList_hash :
    (as bs : List Expr) → exprEqList as bs = true →
      hashExprList as = hashExprList bs
  | [], bs, h => by
      cases bs <;> simp at h ⊢
  | a :: as, bs, h => by
      cases bs <;> simp at h
      simp [exprEq_hash _ _ h.1, exprEqList_hash _ _ h.2]

theorem triggerEqList_hash :
    (as bs : List Trigger) → triggerEqList as bs = true →
      hashTriggerList as = hashTriggerList bs
  | [], bs, h => by
      cases bs with
      | nil => rfl
      | cons hd tl => cases hd with | mk qs => simp at h
  | .mk ps :: as, bs, h => by
      cases bs with
      | nil => simp at h
      | cons hd tl =>
          cases hd with
          | mk qs =>
              simp at h
              simp [exprEqList_hash _ _ h.1, triggerEqList_hash _ _ h.2]
end

/-! ## Concrete sample expressions used by witnesses and counterexamples -/

/-- The local variable `x : Ref(T)` of the spec's scenarios. -/
def xv : LocalVar := ⟨"x", .typedRef "T"⟩

/-- The local variable `y : Ref(U)` of scenario B. -/
def yv : LocalVar := ⟨"y", .typedRef "U"⟩

/-- The local variable `z : Ref(V)`. -/
def zv : LocalVar := ⟨"z", .typedRef "V"⟩

/-- The field `f : Ref(U)`. -/
def fFld : Field := ⟨"f", .typedRef "U"⟩

/-- The field `g : Int`. -/
def gFld : Field := ⟨"g", .int⟩

/-- The field `h : Int`. -/
def hFld : Field := ⟨"h", .int⟩

/-- The place `x`. -/
def xE : Expr := .local_ xv ⟨0⟩

/-- The place `x.f`. -/
def xf : Expr := .field xE fFld ⟨0⟩

/-- The place `x.f.g`. -/
def xfg : Expr := .field xf gFld ⟨0⟩

/-- The place `y`. -/
def yE : Expr := .local_ yv ⟨0⟩

/-- The place `z.h`. -/
def zh : Expr := .field (.local_ zv ⟨0⟩) hFld ⟨0⟩

/-! ## Claim theorems -/

/-- Claim C1: for every Expression `e` and every Position `p`, `e` and
`e.set_pos(p)` are equal under the structural equality and produce
identical hash values (equality and hashing compare discriminant and
children while ignoring the Position field). -/
theorem claim_C1 (e : Expr) (p : Position) :
    exprEq e (e.setPos p) = true ∧ hashExpr (e.setPos p) = hashExpr e := by
  cases e <;>
    simp [Expr.setPos, exprEq_refl, exprEqList_refl, triggerEqList_refl]

/-- Claim C1 witness: position independence at a concrete expression. -/
theorem claim_C1_witness :
    exprEq xf (xf.setPos ⟨7⟩) = true ∧ hashExpr (xf.setPos ⟨7⟩) = hashExpr xf :=
  claim_C1 xf ⟨7⟩

/-- Claim C10: two FuncApp expressions with the same function name and
structurally equal argument lists are equal under the structural equality
and hash identically, even when their formal-argument lists or return
types differ. -/
theorem claim_C10 (n : String) (args1 args2 : List Expr)
    (fa1 fa2 : List LocalVar) (rt1 rt2 : Ty) (p1 p2 : Position)
    (h : exprEqList args1 args2 = true) :
    exprEq (.funcApp n args1 fa1 rt1 p1) (.funcApp n args2 fa2 rt2 p2) = true ∧
      hashExpr (.funcApp n args1 fa1 rt1 p1)
        = hashExpr (.funcApp n args2 fa2 rt2 p2) := by
  simp [h, exprEqList_hash _ _ h]

/-- Claim C10 witness: a concrete pair of FuncApp expressions with equal
names and arguments but different formal arguments, return types and
positions. -/
theorem claim_C10_witness :
    exprEqList [xE] [Expr.local_ xv ⟨5⟩] = true ∧
      (exprEq (.funcApp "foo" [xE] [yv] .int ⟨1⟩)
          (.funcApp "foo" [Expr.local_ xv ⟨5⟩] [] .bool ⟨2⟩) = true ∧
        hashExpr (.funcApp "foo" [xE] [yv] .int ⟨1⟩)
          = hashExpr (.funcApp "foo" [Expr.local_ xv ⟨5⟩] [] .bool ⟨2⟩)) :=
  ⟨rfl, claim_C10 "foo" [xE] [Expr.local_ xv ⟨5⟩] [yv] [] .int .bool ⟨1⟩ ⟨2⟩ rfl⟩

/-- The explode/reconstruct round trip, proved by structural recursion on
the `Variant`/`Field` spine. -/
theorem explode_reconstruct :
    (e : Expr) →
      Expr.reconstructPlace (Expr.explodePlace e).1 (Expr.explodePlace e).2 = e
  | .variant b f p => by
      have ih := explode_reconstruct b
      simp only [Expr.explodePlace, Expr.reconstructPlace] at ih ⊢
      simp [List.foldl_append, ih]
  | .field b f p => by
      have ih := explode_reconstruct b
      simp only [Expr.explodePlace, Expr.reconstructPlace] at ih ⊢
      simp [List.foldl_append, ih]
  | .local_ _ _ => rfl
  | .addrOf _ _ _ => rfl
  | .labelledOld _ _ _ => rfl
  | .const _ _ => rfl
  | .magicWand _ _ _ _ => rfl
  | .predicateAccessPredicate _ _ _ _ => rfl
  | .fieldAccessPredicate _ _ _ => rfl
  | .unaryOp _ _ _ => rfl
  | .binOp _ _ _ _ => rfl
  | .unfolding _ _ _ _ _ _ => rfl
  | .cond _ _ _ _ => rfl
  | .forAll _ _ _ _ => rfl
  | .letExpr _ _ _ _ => rfl
  | .funcApp _ _ _ _ _ => rfl

/-- Claim C4: `reconstruct_place` applied to the base and component list
produced by `explode_place(e)` yields `e` itself (hence in particular an
expression equal to `e` under the Position-ignoring structural
equality). -/
theorem claim_C4 (e : Expr) :
    Expr.reconstructPlace (Expr.explodePlace e).1 (Expr.explodePlace e).2 = e ∧
      exprEq
        (Expr.reconstructPlace (Expr.explodePlace e).1 (Expr.explodePlace e).2)
        e = true := by
  refine ⟨explode_reconstruct e, ?_⟩
  rw [explode_reconstruct e]
  exact exprEq_refl e

/-- Every place's prefix list ends in the place itself. -/
theorem allPrefixes_concat (e : Expr) :
    ∃ xs, Expr.allPrefixes e = xs ++ [e] := by
  cases e
  case variant b f p => exact ⟨Expr.allPrefixes b, rfl⟩
  case field b f p => exact ⟨Expr.allPrefixes b, rfl⟩
  case addrOf b t p => exact ⟨Expr.allPrefixes b, rfl⟩
  all_goals exact ⟨[], rfl⟩

/-- Every member of a place's prefix list is one of its prefixes. -/
theorem mem_allPrefixes_hasPrefixOf :
    (e a : Expr) → a ∈ Expr.allPrefixes e → Expr.hasPrefixOf e a = true
  | .variant b f p, a, h => by
      simp [Expr.allPrefixes] at h
      rcases h with h | h
      · simp [Expr.hasPrefixOf, mem_allPrefixes_hasPrefixOf b a h]
      · subst h
        simp [Expr.hasPrefixOf, exprEq_refl]
  | .field b f p, a, h => by
      simp [Expr.allPrefixes] at h
      rcases h with h | h
      · simp [Expr.hasPrefixOf, mem_allPrefixes_hasPrefixOf b a h]
      · subst h
        simp [Expr.hasPrefixOf, exprEq_refl]
  | .addrOf b t p, a, h => by
      simp [Expr.allPrefixes] at h
      rcases h with h | h
      · simp [Expr.hasPrefixOf, mem_allPrefixes_hasPrefixOf b a h]
      · subst h
        simp [Expr.hasPrefixOf, exprEq_refl]
  | .local_ v p, a, h => by
      simp [Expr.allPrefixes] at h
      subst h
      simp [Expr.hasPrefixOf, exprEq_refl]
  | .labelledOld l b p, a, h => by
      simp [Expr.allPrefixes] at h
      subst h
      simp [Expr.hasPrefixOf, exprEq_refl]
  | .const c p, a, h => by
      simp [Expr.allPrefixes] at h
      subst h
      simp [Expr.hasPrefixOf, exprEq_refl]
  | .magicWand x y br p, a, h => by
      simp [Expr.allPrefixes] at h
      subst h
      simp [Expr.hasPrefixOf, exprEq_refl]
  | .predicateAccessPredicate n x pa p, a, h => by
      simp [Expr.allPrefixes] at h
      subst h
      simp [Expr.hasPrefixOf, exprEq_refl]
  | .fieldAccessPredicate x pa p, a, h => by
      simp [Expr.allPrefixes] at h
      subst h
      simp [Expr.hasPrefixOf, exprEq_refl]
  | .unaryOp op x p, a, h => by
      simp [Expr.allPrefixes] at h
      subst h
      simp [Expr.hasPrefixOf, exprEq_refl]
  | .binOp op x y p, a, h => by
      simp [Expr.allPrefixes] at h
      subst h
      simp [Expr.hasPrefixOf, exprEq_refl]
  | .unfolding n args x pa v p, a, h => by
      simp [Expr.allPrefixes] at h
      subst h
      simp [Expr.hasPrefixOf, exprEq_refl]
  | .cond g x y p, a, h => by
      simp [Expr.allPrefixes] at h
      subst h
      simp [Expr.hasPrefixOf, exprEq_refl]
  | .forAll vs ts x p, a, h => by
      simp [Expr.allPrefixes] at h
      subst h
      simp [Expr.hasPrefixOf, exprEq_refl]
  | .letExpr v d x p, a, h => by
      simp [Expr.allPrefixes] at h
      subst h
      simp [Expr.hasPrefixOf, exprEq_refl]
  | .funcApp n args fa rt p, a, h => by
      simp [Expr.allPrefixes] at h
      subst h
      simp [Expr.hasPrefixOf, exprEq_refl]

/-- Every member of a place's prefix list is at most as deep. -/
theorem mem_allPrefixes_depth :
    (e a : Expr) → a ∈ Expr.allPrefixes e →
      Expr.placeDepth a ≤ Expr.placeDepth e
  | .variant b f p, a, h => by
      simp [Expr.allPrefixes] at h
      rcases h with h | h
      · have := mem_allPrefixes_depth b a h
        simp [Expr.placeDepth]
        omega
      · subst h
        exact le_refl _
  | .field b f p, a, h => by
      simp [Expr.allPrefixes] at h
      rcases h with h | h
      · have := mem_allPrefixes_depth b a h
        simp [Expr.placeDepth]
        omega
      · subst h
        exact le_refl _
  | .addrOf b t p, a, h => by
      simp [Expr.allPrefixes] at h
      rcases h with h | h
      · have := mem_allPrefixes_depth b a h
        simp [Expr.placeDepth]
        omega
      · subst h
        exact le_refl _
  | .local_ v p, a, h => by
      simp [Expr.allPrefixes] at h
      subst h
      exact le_refl _
  | .labelledOld l b p, a, h => by
      simp [Expr.allPrefixes] at h
      subst h
      exact le_refl _
  | .const c p, a, h => by
      simp [Expr.allPrefixes] at h
      subst h
      exact le_refl _
  | .magicWand x y br p, a, h => by
      simp [Expr.allPrefixes] at h
      subst h
      exact le_refl _
  | .predicateAccessPredicate n x pa p, a, h => by
      simp [Expr.allPrefixes] at h
      subst h
      exact le_refl _
  | .fieldAccessPredicate x pa p, a, h => by
      simp [Expr.allPrefixes] at h
      subst h
      exact le_refl _
  | .unaryOp op x p, a, h => by
      simp [Expr.allPrefixes] at h
      subst h
      exact le_refl _
  | .binOp op x y p, a, h => by
      simp [Expr.allPrefixes] at h
      subst h
      exact le_refl _
  | .unfolding n args x pa v p, a, h => by
      simp [Expr.allPrefixes] at h
      subst h
      exact le_refl _
  | .cond g x y p, a, h => by
      simp [Expr.allPrefixes] at h
      subst h
      exact le_refl _
  | .forAll vs ts x p, a, h => by
      simp [Expr.allPrefixes] at h
      subst h
      exact le_refl _
  | .letExpr v d x p, a, h => by
      simp [Expr.allPrefixes] at h
      subst h
      exact le_refl _
  | .funcApp n args fa rt p, a, h => by
      simp [Expr.allPrefixes] at h
      subst h
      exact le_refl _

/-- Structurally equal expressions (ignoring positions) have equal place
depth. -/
theorem exprEq_placeDepth :
    (a b : Expr) → exprEq a b = true → Expr.placeDepth a = Expr.placeDepth b
  | .local_ v p, b, h => by
      cases b <;> simp at h
      simp [Expr.placeDepth]
  | .variant x f p, b, h => by
      cases b <;> simp at h
      simp [Expr.placeDepth, exprEq_placeDepth _ _ h.1]
  | .field x f p, b, h => by
      cases b <;> simp at h
      simp [Expr.placeDepth, exprEq_placeDepth _ _ h.1]
  | .addrOf x t p, b, h => by
      cases b <;> simp at h
      simp [Expr.placeDepth, exprEq_placeDepth _ _ h.1]
  | .labelledOld l x p, b, h => by
      cases b <;> simp at h
      simp [Expr.placeDepth, exprEq_placeDepth _ _ h.2]
  | .const c p, b, h => by
      cases b <;> simp at h
      simp [Expr.placeDepth]
  | .magicWand x y br p, b, h => by
      cases b <;> simp at h
      simp [Expr.placeDepth]
  | .predicateAccessPredicate n x pa p, b, h => by
      cases b <;> simp at h
      simp [Expr.placeDepth]
  | .fieldAccessPredicate x pa p, b, h => by
      cases b <;> simp at h
      simp [Expr.placeDepth]
  | .unaryOp op x p, b, h => by
      cases b <;> simp at h
      simp [Expr.placeDepth]
  | .binOp op x y p, b, h => by
      cases b <;> simp at h
      simp [Expr.placeDepth]
  | .unfolding n args x pa v p, b, h => by
      cases b <;> simp at h
      simp [Expr.placeDepth, exprEq_placeDepth _ _ h.1.1.2]
  | .cond g x y p, b, h => by
      cases b <;> simp at h
      simp [Expr.placeDepth]
  | .forAll vs ts x p, b, h => by
      cases b <;> simp at h
      simp [Expr.placeDepth]
  | .letExpr v d x p, b, h => by
      cases b <;> simp at h
      simp [Expr.placeDepth]
  | .funcApp n args fa rt p, b, h => by
      cases b <;> simp at h
      simp [Expr.placeDepth]

/-- The prefix list of a place is strictly increasing in place depth. -/
theorem allPrefixes_depth_pairwise :
    (e : Expr) →
      List.Pairwise (fun a b => Expr.placeDepth a < Expr.placeDepth b)
        (Expr.allPrefixes e)
  | .variant b f p => by
      simp only [Expr.allPrefixes, List.pairwise_append]
      refine ⟨allPrefixes_depth_pairwise b, by simp, ?_⟩
      intro a ha c hc
      simp at hc
      subst hc
      have := mem_allPrefixes_depth b a ha
      simp [Expr.placeDepth]
      omega
  | .field b f p => by
      simp only [Expr.allPrefixes, List.pairwise_append]
      refine ⟨allPrefixes_depth_pairwise b, by simp, ?_⟩
      intro a ha c hc
      simp at hc
      subst hc
      have := mem_allPrefixes_depth b a ha
      simp [Expr.placeDepth]
      omega
  | .addrOf b t p => by
      simp only [Expr.allPrefixes, List.pairwise_append]
      refine ⟨allPrefixes_depth_pairwise b, by simp, ?_⟩
      intro a ha c hc
      simp at hc
      subst hc
      have := mem_allPrefixes_depth b a ha
      simp [Expr.placeDepth]
      omega
  | .local_ _ _ => by simp [Expr.allPrefixes]
  | .labelledOld _ _ _ => by simp [Expr.allPrefixes]
  | .const _ _ => by simp [Expr.allPrefixes]
  | .magicWand _ _ _ _ => by simp [Expr.allPrefixes]
  | .predicateAccessPredicate _ _ _ _ => by simp [Expr.allPrefixes]
  | .fieldAccessPredicate _ _ _ => by simp [Expr.allPrefixes]
  | .unaryOp _ _ _ => by simp [Expr.allPrefixes]
  | .binOp _ _ _ _ => by simp [Expr.allPrefixes]
  | .unfolding _ _ _ _ _ _ => by simp [Expr.allPrefixes]
  | .cond _ _ _ _ => by simp [Expr.allPrefixes]
  | .forAll _ _ _ _ => by simp [Expr.allPrefixes]
  | .letExpr _ _ _ _ => by simp [Expr.allPrefixes]
  | .funcApp _ _ _ _ _ => by simp [Expr.allPrefixes]

/-- In a place's prefix list, every earlier element is a proper prefix of
every later element. -/
theorem allPrefixes_proper_pairwise :
    (e : Expr) →
      List.Pairwise (fun a b => Expr.hasProperPrefixOf b a = true)
        (Expr.allPrefixes e)
  | .variant b f p => by
      simp only [Expr.allPrefixes, List.pairwise_append]
      refine ⟨allPrefixes_proper_pairwise b, by simp, ?_⟩
      intro a ha c hc
      simp at hc
      subst hc
      have hpre := mem_allPrefixes_hasPrefixOf b a ha
      have hdep := mem_allPrefixes_depth b a ha
      have hne : exprEq (.variant b f p) a = false := by
        cases hq : exprEq (.variant b f p) a
        · rfl
        · exfalso
          have := exprEq_placeDepth _ _ hq
          simp [Expr.placeDepth] at this
          omega
      simp [Expr.hasProperPrefixOf, hne, Expr.hasPrefixOf, hpre]
  | .field b f p => by
      simp only [Expr.allPrefixes, List.pairwise_append]
      refine ⟨allPrefixes_proper_pairwise b, by simp, ?_⟩
      intro a ha c hc
      simp at hc
      subst hc
      have hpre := mem_allPrefixes_hasPrefixOf b a ha
      have hdep := mem_allPrefixes_depth b a ha
      have hne : exprEq (.field b f p) a = false := by
        cases hq : exprEq (.field b f p) a
        · rfl
        · exfalso
          have := exprEq_placeDepth _ _ hq
          simp [Expr.placeDepth] at this
          omega
      simp [Expr.hasProperPrefixOf, hne, Expr.hasPrefixOf, hpre]
  | .addrOf b t p => by
      simp only [Expr.allPrefixes, List.pairwise_append]
      refine ⟨allPrefixes_proper_pairwise b, by simp, ?_⟩
      intro a ha c hc
      simp at hc
      subst hc
      have hpre := mem_allPrefixes_hasPrefixOf b a ha
      have hdep := mem_allPrefixes_depth b a ha
      have hne : exprEq (.addrOf b t p) a = false := by
        cases hq : exprEq (.addrOf b t p) a
        · rfl
        · exfalso
          have := exprEq_placeDepth _ _ hq
          simp [Expr.placeDepth] at this
          omega
      simp [Expr.hasProperPrefixOf, hne, Expr.hasPrefixOf, hpre]
  | .local_ _ _ => by simp [Expr.allPrefixes]
  | .labelledOld _ _ _ => by simp [Expr.allPrefixes]
  | .const _ _ => by simp [Expr.allPrefixes]
  | .magicWand _ _ _ _ => by simp [Expr.allPrefixes]
  | .predicateAccessPredicate _ _ _ _ => by simp [Expr.allPrefixes]
  | .fieldAccessPredicate _ _ _ => by simp [Expr.allPrefixes]
  | .unaryOp _ _ _ => by simp [Expr.allPrefixes]
  | .binOp _ _ _ _ => by simp [Expr.allPrefixes]
  | .unfolding _ _ _ _ _ _ => by simp [Expr.allPrefixes]
  | .cond _ _ _ _ => by simp [Expr.allPrefixes]
  | .forAll _ _ _ _ => by simp [Expr.allPrefixes]
  | .letExpr _ _ _ _ => by simp [Expr.allPrefixes]
  | .funcApp _ _ _ _ _ => by simp [Expr.allPrefixes]

/-- Claim C5: for every place `e`, `all_prefixes(e)` is a non-empty list
that is strictly increasing by `place_depth`, whose last element is `e`
itself, and in which every earlier element is a proper prefix of every
later element. -/
theorem claim_C5 (e : Expr) (hp : e.isPlace = true) :
    Expr.allPrefixes e ≠ [] ∧
      (Expr.allPrefixes e).getLast? = some e ∧
      List.Pairwise (fun a b => Expr.placeDepth a < Expr.placeDepth b)
        (Expr.allPrefixes e) ∧
      List.Pairwise (fun a b => Expr.hasProperPrefixOf b a = true)
        (Expr.allPrefixes e) := by
  obtain ⟨xs, hxs⟩ := allPrefixes_concat e
  refine ⟨?_, ?_, allPrefixes_depth_pairwise e, allPrefixes_proper_pairwise e⟩
  · rw [hxs]
    simp
  · rw [hxs]
    simp

/-- Claim C5 witness (scenario A): `x.f.g` has base `x`, depth 3, and
prefix chain `[x, x.f, x.f.g]` satisfying all chain properties. -/
theorem claim_C5_witness :
    Expr.isPlace xfg = true ∧
      (Expr.allPrefixes xfg ≠ [] ∧
        (Expr.allPrefixes xfg).getLast? = some xfg ∧
        List.Pairwise (fun a b => Expr.placeDepth a < Expr.placeDepth b)
          (Expr.allPrefixes xfg) ∧
        List.Pairwise (fun a b => Expr.hasProperPrefixOf b a = true)
          (Expr.allPrefixes xfg)) ∧
      Expr.getBase xfg = some xv ∧ Expr.placeDepth xfg = 3 ∧
      Expr.allPrefixes xfg = [xE, xf, xfg] :=
  ⟨rfl, claim_C5 xfg rfl, rfl, rfl, rfl⟩

/-! ## Claim C6: purity -/

mutual
/-- The purity walker's flag agrees with the trigger-skipping occurrence
test. -/
theorem purityFlag_eq_containsPermNode :
    (e : Expr) → purityFlag e = containsPermNode false e
  | .local_ _ _ => by simp
  | .variant b _ _ => by simp [purityFlag_eq_containsPermNode b]
  | .field b _ _ => by simp [purityFlag_eq_containsPermNode b]
  | .addrOf b _ _ => by simp [purityFlag_eq_containsPermNode b]
  | .labelledOld _ b _ => by simp [purityFlag_eq_containsPermNode b]
  | .const _ _ => by simp
  | .magicWand l r _ _ => by
      simp [purityFlag_eq_containsPermNode l, purityFlag_eq_containsPermNode r]
  | .predicateAccessPredicate _ _ _ _ => by simp
  | .fieldAccessPredicate _ _ _ => by simp
  | .unaryOp _ a _ => by simp [purityFlag_eq_containsPermNode a]
  | .binOp _ l r _ => by
      simp [purityFlag_eq_containsPermNode l, purityFlag_eq_containsPermNode r]
  | .unfolding _ args b _ _ _ => by
      simp [purityFlagList_eq_containsPermNodeList args,
        purityFlag_eq_containsPermNode b]
  | .cond g t e _ => by
      simp [purityFlag_eq_containsPermNode g, purityFlag_eq_containsPermNode t,
        purityFlag_eq_containsPermNode e]
  | .forAll _ _ b _ => by simp [purityFlag_eq_containsPermNode b]
  | .letExpr _ d b _ => by
      simp [purityFlag_eq_containsPermNode d, purityFlag_eq_containsPermNode b]
  | .funcApp _ args _ _ _ => by
      simp [purityFlagList_eq_containsPermNodeList args]

theorem purityFlagList_eq_containsPermNodeList :
    (es : List Expr) → purityFlagList es = containsPermNodeList false es
  | [] => by simp
  | e :: es => by
      simp [purityFlag_eq_containsPermNode e,
        purityFlagList_eq_containsPermNodeList es]
end

/-- Claim C6, amended: `is_pure(e)` is true iff no permission node
(PredicateAccessPredicate or FieldAccessPredicate) occurs in `e` outside
quantifier triggers — the walker's default `walk_forall` does not visit
triggers, so permission nodes inside triggers do not affect purity. -/
theorem claim_C6 (e : Expr) :
    e.isPure = true ↔ containsPermNode false e = false := by
  rw [Expr.isPure, purityFlag_eq_containsPermNode e]
  cases containsPermNode false e <;> simp

/-- Claim C6 counterexample: a quantifier whose trigger contains a
permission node is reported pure, although a permission node occurs in it
when triggers are counted — refuting the claim that `is_pure(e)` is true
iff no permission node occurs anywhere in `e` including triggers. -/
theorem claim_C6_counterexample :
    Expr.isPure
        (.forAll [] [.mk [.fieldAccessPredicate xf .write ⟨0⟩]]
          (.const (.bool true) ⟨0⟩) ⟨0⟩) = true ∧
      containsPermNode true
        (.forAll [] [.mk [.fieldAccessPredicate xf .write ⟨0⟩]]
          (.const (.bool true) ⟨0⟩) ⟨0⟩) = true :=
  ⟨rfl, rfl⟩

/-! ## Claim C7: permission-conjunction filtering -/

/-- The filter's output is a conjunction of permission leaves and
default-position `true` leaves. -/
theorem fpc_grammar :
    (e : Expr) → isPermConjOrTrue (Expr.filterPermConjunction e) = true
  | .predicateAccessPredicate n a pa p => by
      simp [Expr.filterPermConjunction, isPermConjOrTrue]
  | .fieldAccessPredicate b pa p => by
      simp [Expr.filterPermConjunction, isPermConjOrTrue]
  | .binOp op l r p => by
      cases op
      case and =>
        simp [Expr.filterPermConjunction, isPermConjOrTrue, fpc_grammar l,
          fpc_grammar r]
      all_goals
        simp [Expr.filterPermConjunction, isPermConjOrTrue, Expr.trueLit]
  | .local_ _ _ => by
      simp [Expr.filterPermConjunction, isPermConjOrTrue, Expr.trueLit]
  | .variant _ _ _ => by
      simp [Expr.filterPermConjunction, isPermConjOrTrue, Expr.trueLit]
  | .field _ _ _ => by
      simp [Expr.filterPermConjunction, isPermConjOrTrue, Expr.trueLit]
  | .addrOf _ _ _ => by
      simp [Expr.filterPermConjunction, isPermConjOrTrue, Expr.trueLit]
  | .labelledOld _ _ _ => by
      simp [Expr.filterPermConjunction, isPermConjOrTrue, Expr.trueLit]
  | .const _ _ => by
      simp [Expr.filterPermConjunction, isPermConjOrTrue, Expr.trueLit]
  | .magicWand _ _ _ _ => by
      simp [Expr.filterPermConjunction, isPermConjOrTrue, Expr.trueLit]
  | .unaryOp _ _ _ => by
      simp [Expr.filterPermConjunction, isPermConjOrTrue, Expr.trueLit]
  | .unfolding _ _ _ _ _ _ => by
      simp [Expr.filterPermConjunction, isPermConjOrTrue, Expr.trueLit]
  | .cond _ _ _ _ => by
      simp [Expr.filterPermConjunction, isPermConjOrTrue, Expr.trueLit]
  | .forAll _ _ _ _ => by
      simp [Expr.filterPermConjunction, isPermConjOrTrue, Expr.trueLit]
  | .letExpr _ _ _ _ => by
      simp [Expr.filterPermConjunction, isPermConjOrTrue, Expr.trueLit]
  | .funcApp _ _ _ _ _ => by
      simp [Expr.filterPermConjunction, isPermConjOrTrue, Expr.trueLit]

/-- The filter is idempotent (exactly, including positions). -/
theorem fpc_idem :
    (e : Expr) →
      Expr.filterPermConjunction (Expr.filterPermConjunction e)
        = Expr.filterPermConjunction e
  | .predicateAccessPredicate n a pa p => by
      simp [Expr.filterPermConjunction]
  | .fieldAccessPredicate b pa p => by
      simp [Expr.filterPermConjunction]
  | .binOp op l r p => by
      cases op
      case and => simp [Expr.filterPermConjunction, fpc_idem l, fpc_idem r]
      all_goals simp [Expr.filterPermConjunction, Expr.trueLit]
  | .local_ _ _ => by simp [Expr.filterPermConjunction, Expr.trueLit]
  | .variant _ _ _ => by simp [Expr.filterPermConjunction, Expr.trueLit]
  | .field _ _ _ => by simp [Expr.filterPermConjunction, Expr.trueLit]
  | .addrOf _ _ _ => by simp [Expr.filterPermConjunction, Expr.trueLit]
  | .labelledOld _ _ _ => by simp [Expr.filterPermConjunction, Expr.trueLit]
  | .const _ _ => by simp [Expr.filterPermConjunction, Expr.trueLit]
  | .magicWand _ _ _ _ => by simp [Expr.filterPermConjunction, Expr.trueLit]
  | .unaryOp _ _ _ => by simp [Expr.filterPermConjunction, Expr.trueLit]
  | .unfolding _ _ _ _ _ _ => by simp [Expr.filterPermConjunction, Expr.trueLit]
  | .cond _ _ _ _ => by simp [Expr.filterPermConjunction, Expr.trueLit]
  | .forAll _ _ _ _ => by simp [Expr.filterPermConjunction, Expr.trueLit]
  | .letExpr _ _ _ _ => by simp [Expr.filterPermConjunction, Expr.trueLit]
  | .funcApp _ _ _ _ _ => by simp [Expr.filterPermConjunction, Expr.trueLit]

/-- Claim C7, amended: the output of `filter_perm_conjunction` contains
only permission leaves and the constant `true` joined by `&&` (the
replacement of every non-permission node introduces `true` leaves), and
the transformation is idempotent. -/
theorem claim_C7 (e : Expr) :
    isPermConjOrTrue (Expr.filterPermConjunction e) = true ∧
      Expr.filterPermConjunction (Expr.filterPermConjunction e)
        = Expr.filterPermConjunction e :=
  ⟨fpc_grammar e, fpc_idem e⟩

/-- Claim C7 counterexample: on the integer constant `5` the filter
produces the bare constant `true`, which is not a conjunction of
permission leaves — refuting the claim that the output contains only
permission leaves joined by `&&`. -/
theorem claim_C7_counterexample :
    Expr.filterPermConjunction (.const (.int 5) ⟨0⟩) = Expr.trueLit ∧
      isPermConjStrict (Expr.filterPermConjunction (.const (.int 5) ⟨0⟩))
        = false :=
  ⟨rfl, rfl⟩

/-! ## Claim C9: read-permission stripping -/

mutual
/-- The fold succeeds exactly when every permission node reaching it
carries `Read` or `Write`, and then computes the claim-side transform. -/
theorem rrp_eq :
    (e : Expr) → removeReadPermissions e =
      if visitedPermsRW e then some (removeReadSpec e) else none
  | .local_ v p => by simp
  | .variant b f p => by
      cases hv : visitedPermsRW b <;> simp [rrp_eq b, hv]
  | .field b f p => by
      cases hv : visitedPermsRW b <;> simp [rrp_eq b, hv]
  | .addrOf b t p => by
      cases hv : visitedPermsRW b <;> simp [rrp_eq b, hv]
  | .labelledOld l b p => by
      cases hv : visitedPermsRW b <;> simp [rrp_eq b, hv]
  | .const c p => by simp
  | .magicWand l r br p => by
      cases hv1 : visitedPermsRW l <;> cases hv2 : visitedPermsRW r <;>
        simp [rrp_eq l, rrp_eq r, hv1, hv2]
  | .predicateAccessPredicate n a pa p => by
      cases pa <;> simp
  | .fieldAccessPredicate b pa p => by
      cases pa <;> simp
  | .unaryOp op a p => by
      cases hv : visitedPermsRW a <;> simp [rrp_eq a, hv]
  | .binOp op l r p => by
      cases hv1 : visitedPermsRW l <;> cases hv2 : visitedPermsRW r <;>
        simp [rrp_eq l, rrp_eq r, hv1, hv2]
  | .unfolding n args b pa v p => by
      cases hv1 : visitedPermsRWList args <;> cases hv2 : visitedPermsRW b <;>
        simp [rrpList_eq args, rrp_eq b, hv1, hv2]
  | .cond g t e p => by
      cases hv1 : visitedPermsRW g <;> cases hv2 : visitedPermsRW t <;>
        cases hv3 : visitedPermsRW e <;>
        simp [rrp_eq g, rrp_eq t, rrp_eq e, hv1, hv2, hv3]
  | .forAll vs ts b p => by
      cases hv : visitedPermsRW b <;> simp [rrp_eq b, hv]
  | .letExpr v d b p => by
      cases hv1 : visitedPermsRW d <;> cases hv2 : visitedPermsRW b <;>
        simp [rrp_eq d, rrp_eq b, hv1, hv2]
  | .funcApp n args fa rt p => by
      cases hv : visitedPermsRWList args <;> simp [rrpList_eq args, hv]

theorem rrpList_eq :
    (es : List Expr) → removeReadPermissionsList es =
      if visitedPermsRWList es then some (removeReadSpecList es) else none
  | [] => by simp
  | e :: es => by
      cases hv1 : visitedPermsRW e <;> cases hv2 : visitedPermsRWList es <;>
        simp [rrp_eq e, rrpList_eq es, hv1, hv2]
end

/-- Claim C9, amended: on an expression whose permission nodes reaching
the transform (i.e. outside quantifier triggers and not nested inside a
kept node's argument) all carry `Write` or `Read`, the fold leaves every
`Write`-amount node unchanged and replaces every such `Read`-amount node
by `true`; it fails fast when a permission node of any other amount
reaches it.  Triggers are not entered by the default fold, so permission
nodes inside quantifier triggers are left as they are. -/
theorem claim_C9 (e : Expr) :
    (visitedPermsRW e = true →
        removeReadPermissions e = some (removeReadSpec e)) ∧
      (visitedPermsRW e = false → removeReadPermissions e = none) := by
  refine ⟨fun h => ?_, fun h => ?_⟩ <;> simp [rrp_eq e, h]

/-- Claim C9 witness (scenario C): `acc(P(x), write) && acc(x.f, read)`
is rewritten to `acc(P(x), write) && true`. -/
theorem claim_C9_witness :
    visitedPermsRW
        (.binOp .and (.predicateAccessPredicate "P" xE .write ⟨0⟩)
          (.fieldAccessPredicate xf .read ⟨0⟩) ⟨0⟩) = true ∧
      removeReadPermissions
          (.binOp .and (.predicateAccessPredicate "P" xE .write ⟨0⟩)
            (.fieldAccessPredicate xf .read ⟨0⟩) ⟨0⟩)
        = some (.binOp .and (.predicateAccessPredicate "P" xE .write ⟨0⟩)
            Expr.trueLit ⟨0⟩) :=
  ⟨rfl,
    (claim_C9
        (.binOp .and (.predicateAccessPredicate "P" xE .write ⟨0⟩)
          (.fieldAccessPredicate xf .read ⟨0⟩) ⟨0⟩)).1 rfl⟩

/-- Claim C9 counterexample: a `Read`-amount permission node inside a
quantifier trigger is left unchanged (the default fold does not enter
triggers), refuting the claim that every `Read`-amount node of the
expression is replaced by `true`. -/
theorem claim_C9_counterexample :
    removeReadPermissions
        (.forAll [] [.mk [.fieldAccessPredicate xf .read ⟨0⟩]]
          (.const (.bool true) ⟨0⟩) ⟨0⟩)
      = some (.forAll [] [.mk [.fieldAccessPredicate xf .read ⟨0⟩]]
          (.const (.bool true) ⟨0⟩) ⟨0⟩) ∧
      removeReadPermissions
          (.forAll [] [.mk [.fieldAccessPredicate xf .read ⟨0⟩]]
            (.const (.bool true) ⟨0⟩) ⟨0⟩)
        ≠ some (.forAll [] [.mk [Expr.trueLit]]
            (.const (.bool true) ⟨0⟩) ⟨0⟩) := by
  refine ⟨rfl, ?_⟩
  intro hcontra
  rw [show removeReadPermissions
        (.forAll [] [.mk [.fieldAccessPredicate xf .read ⟨0⟩]]
          (.const (.bool true) ⟨0⟩) ⟨0⟩)
      = some (.forAll [] [.mk [.fieldAccessPredicate xf .read ⟨0⟩]]
          (.const (.bool true) ⟨0⟩) ⟨0⟩) from rfl] at hcontra
  simp [Expr.trueLit] at hcontra

/-! ## Claim C3: footprint computation -/

/-- `Expr::get_place`: the place governed by a permission node. -/
def Expr.getPlace : Expr → Option Expr
  | .predicateAccessPredicate _ a _ _ => some a
  | .fieldAccessPredicate a _ _ => some a
  | _ => none

/-- The depth of the place a permission node talks about (0 for
non-permission nodes). -/
def receiverDepth (e : Expr) : Nat :=
  match Expr.getPlace e with
  | some q => Expr.placeDepth q
  | none => 0

@[simp] theorem receiverDepth_acc (q : Expr) (perm : PermAmount) :
    receiverDepth (Expr.accPermission q perm) = Expr.placeDepth q := rfl

/-- On a simple place the footprint is exactly the non-local prefixes, in
chain order, wrapped in `acc(_, perm)`. -/
theorem fp_simple (perm : PermAmount) :
    (e : Expr) → Expr.isSimplePlace e = true →
      computeFootprint perm e =
        ((Expr.allPrefixes e).filter (fun q => !q.isLocal)).map
          (fun q => Expr.accPermission q perm)
  | .local_ v p, _ => by
      simp [Expr.allPrefixes, Expr.isLocal]
  | .variant b f p, h => by
      simp [Expr.isSimplePlace] at h
      simp [fp_simple perm b h, Expr.allPrefixes, List.filter_append,
        Expr.isLocal]
  | .field b f p, h => by
      simp [Expr.isSimplePlace] at h
      simp [fp_simple perm b h, Expr.allPrefixes, List.filter_append,
        Expr.isLocal]
  | .addrOf _ _ _, h => by simp [Expr.isSimplePlace] at h
  | .labelledOld _ _ _, h => by simp [Expr.isSimplePlace] at h
  | .const _ _, h => by simp [Expr.isSimplePlace] at h
  | .magicWand _ _ _ _, h => by simp [Expr.isSimplePlace] at h
  | .predicateAccessPredicate _ _ _ _, h => by simp [Expr.isSimplePlace] at h
  | .fieldAccessPredicate _ _ _, h => by simp [Expr.isSimplePlace] at h
  | .unaryOp _ _ _, h => by simp [Expr.isSimplePlace] at h
  | .binOp _ _ _ _, h => by simp [Expr.isSimplePlace] at h
  | .unfolding _ _ _ _ _ _, h => by simp [Expr.isSimplePlace] at h
  | .cond _ _ _ _, h => by simp [Expr.isSimplePlace] at h
  | .forAll _ _ _ _, h => by simp [Expr.isSimplePlace] at h
  | .letExpr _ _ _ _, h => by simp [Expr.isSimplePlace] at h
  | .funcApp _ _ _ _ _, h => by simp [Expr.isSimplePlace] at h

mutual
/-- Every emitted footprint element is a `FieldAccessPredicate` at the
requested amount on some place. -/
theorem fp_elem (perm : PermAmount) :
    (e : Expr) → ∀ x, x ∈ computeFootprint perm e →
      ∃ q, x = Expr.accPermission q perm
  | .local_ _ _, x, h => by simp at h
  | .variant b f p, x, h => by
      simp at h
      rcases h with h | h
      · exact fp_elem perm b x h
      · exact ⟨_, h⟩
  | .field b f p, x, h => by
      simp at h
      rcases h with h | h
      · exact fp_elem perm b x h
      · exact ⟨_, h⟩
  | .addrOf b _ _, x, h => fp_elem perm b x (by simpa using h)
  | .labelledOld _ _ _, x, h => by simp at h
  | .const _ _, x, h => by simp at h
  | .magicWand l r _ _, x, h => by
      simp at h
      rcases h with h | h
      · exact fp_elem perm l x h
      · exact fp_elem perm r x h
  | .predicateAccessPredicate _ a _ _, x, h =>
      fp_elem perm a x (by simpa using h)
  | .fieldAccessPredicate b _ _, x, h => fp_elem perm b x (by simpa using h)
  | .unaryOp _ a _, x, h => fp_elem perm a x (by simpa using h)
  | .binOp _ l r _, x, h => by
      simp at h
      rcases h with h | h
      · exact fp_elem perm l x h
      · exact fp_elem perm r x h
  | .unfolding _ args b _ _ _, x, h => by
      simp at h
      rcases h with h | h
      · exact fp_elemList perm args x h
      · exact fp_elem perm b x h
  | .cond g t e _, x, h => by
      simp at h
      rcases h with h | h | h
      · exact fp_elem perm g x h
      · exact fp_elem perm t x h
      · exact fp_elem perm e x h
  | .forAll _ _ b _, x, h => fp_elem perm b x (by simpa using h)
  | .letExpr _ d b _, x, h => by
      simp at h
      rcases h with h | h
      · exact fp_elem perm d x h
      · exact fp_elem perm b x h
  | .funcApp _ args _ _ _, x, h => fp_elemList perm args x (by simpa using h)

theorem fp_elemList (perm : PermAmount) :
    (es : List Expr) → ∀ x, x ∈ computeFootprintList perm es →
      ∃ q, x = Expr.accPermission q perm
  | [], x, h => by simp at h
  | e :: es, x, h => by
      simp at h
      rcases h with h | h
      · exact fp_elem perm e x h
      · exact fp_elemList perm es x h
end

/-- Claim C3, amended: `compute_footprint(perm)` emits one
FieldAccessPredicate at amount `perm` for every Field/Variant access step
it visits, where the traversal proceeds left to right, does not recurse
below LabelledOld nodes, and does not enter quantifier triggers; within
each place chain the steps appear shallowest-first (on a simple place the
output is exactly the non-local prefixes in chain order).  The output need
not be globally sorted by depth across different chains. -/
theorem claim_C3 (perm : PermAmount) :
    (∀ e, Expr.isSimplePlace e = true →
        computeFootprint perm e =
          ((Expr.allPrefixes e).filter (fun q => !q.isLocal)).map
            (fun q => Expr.accPermission q perm)) ∧
      (∀ e, Expr.isSimplePlace e = true →
        List.Pairwise (fun a b => a < b)
          ((computeFootprint perm e).map receiverDepth)) ∧
      (∀ l b p, computeFootprint perm (.labelledOld l b p) = []) ∧
      (∀ vs ts b p,
        computeFootprint perm (.forAll vs ts b p) = computeFootprint perm b) ∧
      (∀ e x, x ∈ computeFootprint perm e →
        ∃ q, x = Expr.accPermission q perm) := by
  refine ⟨fp_simple perm, ?_, fun _ _ _ => rfl, fun _ _ _ _ => rfl,
    fp_elem perm⟩
  intro e he
  rw [fp_simple perm e he, List.map_map]
  have hmap :
      (receiverDepth ∘ fun q => Expr.accPermission q perm)
        = Expr.placeDepth := by
    funext q
    simp [Function.comp]
  rw [hmap, List.pairwise_map]
  exact List.Pairwise.sublist (List.filter_sublist _)
    (allPrefixes_depth_pairwise e)

/-- Claim C3 witness (scenario D): `compute_footprint(write)` on `x.f.g`
yields `[acc(x.f, write), acc(x.f.g, write)]`, and on `old[l](x.f)` it
yields `[]`. -/
theorem claim_C3_witness :
    Expr.isSimplePlace xfg = true ∧
      computeFootprint .write xfg
        = [Expr.accPermission xf .write, Expr.accPermission xfg .write] ∧
      computeFootprint .write (.labelledOld "l" xf ⟨0⟩) = [] :=
  ⟨rfl, ((claim_C3 .write).1 xfg rfl).trans rfl,
    (claim_C3 .write).2.2.1 "l" xf ⟨0⟩⟩

/-- The local variable `w : Ref(W)`. -/
def wv : LocalVar := ⟨"w", .typedRef "W"⟩

/-- The place `w.k`. -/
def wk : Expr := .field (.local_ wv ⟨0⟩) ⟨"k", .int⟩ ⟨0⟩

/-- An expression with two place chains and a quantifier trigger holding a
third place: `(x.f.g && z.h) && forall :: {w.k} :: true`. -/
def footprintSample : Expr :=
  .binOp .and (.binOp .and xfg zh ⟨0⟩)
    (.forAll [] [.mk [wk]] (.const (.bool true) ⟨0⟩) ⟨0⟩) ⟨0⟩

/-- Claim C3 counterexample: on `(x.f.g && z.h) && forall :: {w.k} :: true`
the emitted list is `[acc(x.f), acc(x.f.g), acc(z.h)]` with receiver
depths `[2, 3, 2]` — not in increasing-depth order — and the Field step
`w.k` occurring inside the trigger contributes nothing (only 3 predicates
are emitted for the 4 access steps occurring in the expression). -/
theorem claim_C3_counterexample :
    computeFootprint .write footprintSample
      = [Expr.accPermission xf .write, Expr.accPermission xfg .write,
          Expr.accPermission zh .write] ∧
      (computeFootprint .write footprintSample).map receiverDepth
        = [2, 3, 2] ∧
      ¬ List.Pairwise (fun a b => a < b)
          ((computeFootprint .write footprintSample).map receiverDepth) ∧
      (computeFootprint .write footprintSample).length = 3 := by
  refine ⟨rfl, rfl, ?_, rfl⟩
  rw [show (computeFootprint .write footprintSample).map receiverDepth
      = [2, 3, 2] from rfl]
  intro h
  rcases h with _ | ⟨h1, h2⟩
  have := h1 2 (by simp)
  omega

/-! ## Claim C8: Rust remainder encoded over the Euclidean Mod primitive -/

/-- Claim C8: under the interpretation of the `Mod` primitive as
Euclidean-style modulo (SMT-LIB semantics, `Int.emod`), the expression
built by `rem(left, right)` evaluates to `left mod right` when
`left ≥ 0` or `left mod right = 0`, and otherwise to
`(left mod right) - |right|`; in particular `rem(-7,3) = -1`,
`rem(7,3) = 1`, `rem(7,-3) = 1` and `rem(0,5) = 0`. -/
theorem claim_C8 :
    (∀ l r : Int,
        evalE (Expr.rem (Expr.intLit l) (Expr.intLit r))
          = some (.int (if 0 ≤ l ∨ l.emod r = 0 then l.emod r
              else l.emod r - |r|))) ∧
      evalE (Expr.rem (Expr.intLit (-7)) (Expr.intLit 3))
        = some (.int (-1)) ∧
      evalE (Expr.rem (Expr.intLit 7) (Expr.intLit 3)) = some (.int 1) ∧
      evalE (Expr.rem (Expr.intLit 7) (Expr.intLit (-3))) = some (.int 1) ∧
      evalE (Expr.rem (Expr.intLit 0) (Expr.intLit 5)) = some (.int 0) := by
  refine ⟨?_, rfl, rfl, rfl, rfl⟩
  intro l r
  simp only [Expr.rem, Expr.ite, Expr.orE, Expr.geCmp, Expr.eqCmp,
    Expr.modulo, Expr.subE, Expr.minus, Expr.intLit, evalE, evalIntOp,
    evalBoolOp]
  by_cases hl : 0 ≤ l
  · simp [hl]
  · by_cases hm : l.emod r = 0
    · simp [hl, hm]
    · by_cases hr : 0 ≤ r
      · simp [hl, hm, hr, abs_of_nonneg hr]
      · have hr' : r < 0 := lt_of_not_ge hr
        simp [hl, hm, hr, abs_of_neg hr']

/-! ## Claim C2: place substitution -/

/-- When the typaram table is absent or empty, field patching is the
identity. -/
theorem patchField_id (tps : Option Substs)
    (h : tps = Option.none ∨ tps = some []) :
    ∀ (flag : Bool) (f : Field), patchField tps flag f = f := by
  intro flag f
  rcases h with h | h <;> subst h
  · rfl
  · cases f with
    | mk nm ty =>
        cases flag <;> cases ty <;>
          simp [patchField, Ty.isRef, Ty.name, Substs.apply, Field.new]

/-- Under the type-compatibility assertion, the learned typaram table is
absent or empty (both type names coincide when both ends are
reference-typed locals). -/
theorem learnSubsts_ok (t r : Expr)
    (h2 : r.isPlace = true → Expr.getType t = Expr.getType r) :
    learnSubsts t r = Option.none ∨ learnSubsts t r = some [] := by
  cases t <;> cases r <;> simp [learnSubsts]
  rename_i tv pt rv pr
  have hT : tv.typ = rv.typ := by
    have := h2 rfl
    simpa [Expr.getType] using this
  cases hi : rv.typ.isRef <;> simp [hi, hT, Substs.learn]

mutual
/-- The `PlaceReplacer` fold computes the claim-side substitution whenever
the typaram table is absent or empty, for every incoming flag value. -/
theorem rpFold_fst (t r : Expr) (tps : Option Substs)
    (hts : tps = Option.none ∨ tps = some []) :
    (e : Expr) → (flag : Bool) →
      (rpFold t r tps e flag).1 = replacePlaceSpec t r e
  | .local_ v p, flag => by
      cases hc : isTheTarget t (.local_ v p) <;> simp [hc]
  | .variant b f p, flag => by
      cases hc : isTheTarget t (.variant b f p) <;>
        simp [hc, rpFold_fst t r tps hts b flag]
  | .field b f p, flag => by
      cases hc : isTheTarget t (.field b f p) <;>
        simp [hc, patchField_id tps hts, rpFold_fst t r tps hts b flag]
  | .addrOf b ty p, flag => by
      cases hc : isTheTarget t (.addrOf b ty p) <;>
        simp [hc, rpFold_fst t r tps hts b flag]
  | .labelledOld l b p, flag => by
      cases hc : isTheTarget t (.labelledOld l b p) <;>
        simp [hc, rpFold_fst t r tps hts b flag]
  | .const c p, flag => by
      cases hc : isTheTarget t (.const c p) <;> simp [hc]
  | .magicWand a1 a2 br p, flag => by
      cases hc : isTheTarget t (.magicWand a1 a2 br p) <;>
        simp [hc, rpFold_fst t r tps hts a1 flag,
          rpFold_fst t r tps hts a2 (rpFold t r tps a1 flag).2]
  | .predicateAccessPredicate n a pa p, flag => by
      cases hc : isTheTarget t (.predicateAccessPredicate n a pa p) <;>
        simp [hc, rpFold_fst t r tps hts a flag]
  | .fieldAccessPredicate b pa p, flag => by
      cases hc : isTheTarget t (.fieldAccessPredicate b pa p) <;>
        simp [hc, rpFold_fst t r tps hts b flag]
  | .unaryOp op a p, flag => by
      cases hc : isTheTarget t (.unaryOp op a p) <;>
        simp [hc, rpFold_fst t r tps hts a flag]
  | .binOp op a1 a2 p, flag => by
      cases hc : isTheTarget t (.binOp op a1 a2 p) <;>
        simp [hc, rpFold_fst t r tps hts a1 flag,
          rpFold_fst t r tps hts a2 (rpFold t r tps a1 flag).2]
  | .unfolding n args b pa vi p, flag => by
      cases hc : isTheTarget t (.unfolding n args b pa vi p) <;>
        simp [hc, rpFoldList_fst t r tps hts args flag,
          rpFold_fst t r tps hts b (rpFoldList t r tps args flag).2]
  | .cond g a1 a2 p, flag => by
      cases hc : isTheTarget t (.cond g a1 a2 p) <;>
        simp [hc, rpFold_fst t r tps hts g flag,
          rpFold_fst t r tps hts a1 (rpFold t r tps g flag).2,
          rpFold_fst t r tps hts a2
            (rpFold t r tps a1 (rpFold t r tps g flag).2).2]
  | .forAll vs trgs b p, flag => by
      cases hc : isTheTarget t (.forAll vs trgs b p) <;>
        cases hs : shadowsTarget t vs <;>
        simp [hc, hs, rpFoldTriggers_fst t r tps hts trgs,
          rpFold_fst t r tps hts b flag]
  | .letExpr v d b p, flag => by
      cases hc : isTheTarget t (.letExpr v d b p) <;>
        simp [hc, rpFold_fst t r tps hts d flag,
          rpFold_fst t r tps hts b (rpFold t r tps d flag).2]
  | .funcApp n args fa rt p, flag => by
      cases hc : isTheTarget t (.funcApp n args fa rt p) <;>
        simp [hc, rpFoldList_fst t r tps hts args flag]

theorem rpFoldList_fst (t r : Expr) (tps : Option Substs)
    (hts : tps = Option.none ∨ tps = some []) :
    (es : List Expr) → (flag : Bool) →
      (rpFoldList t r tps es flag).1 = replacePlaceSpecList t r es
  | [], flag => by simp
  | e :: es, flag => by
      simp [rpFold_fst t r tps hts e flag,
        rpFoldList_fst t r tps hts es (rpFold t r tps e flag).2]

theorem rpFoldTriggers_fst (t r : Expr) (tps : Option Substs)
    (hts : tps = Option.none ∨ tps = some []) :
    (trgs : List Trigger) →
      rpFoldTriggers t r tps trgs = replacePlaceSpecTriggers t r trgs
  | [] => by simp
  | .mk ps :: rest => by
      simp [rpFoldParts_fst t r tps hts ps,
        rpFoldTriggers_fst t r tps hts rest]

theorem rpFoldParts_fst (t r : Expr) (tps : Option Substs)
    (hts : tps = Option.none ∨ tps = some []) :
    (es : List Expr) → rpFoldParts t r tps es = replacePlaceSpecList t r es
  | [] => by simp
  | e :: es => by
      simp [rpFold_fst t r tps hts e false, rpFoldParts_fst t r tps hts es]
end

/-- Claim C2: for a place target and a type-compatible replacement,
`replace_place(target, replacement)` succeeds and replaces every place
sub-expression structurally equal to the target (ignoring positions) with
the replacement, leaving untouched any `ForAll` subtree whose bound
variables contain the target's root variable — the claim-side function
`replacePlaceSpec`. -/
theorem claim_C2 (e t r : Expr) (h1 : t.isPlace = true)
    (h2 : r.isPlace = true → Expr.getType t = Expr.getType r) :
    Expr.replacePlace e t r = some (replacePlaceSpec t r e) := by
  have hguard :
      (r.isPlace && !(decide (Expr.getType t = Expr.getType r))) = false := by
    cases hr : r.isPlace
    · simp
    · simp [h2 hr]
  simp [Expr.replacePlace, hguard,
    rpFold_fst t r (learnSubsts t r) (learnSubsts_ok t r h2) e false]

/-- The expression `x.f.g && acc(x.f, write)` of scenario B. -/
def scB : Expr := .binOp .and xfg (.fieldAccessPredicate xf .write ⟨0⟩) ⟨0⟩

/-- The expected result `y.g && acc(y, write)` of scenario B. -/
def scBres : Expr :=
  .binOp .and (.field yE gFld ⟨0⟩) (.fieldAccessPredicate yE .write ⟨0⟩) ⟨0⟩

/-- Claim C2 witness (scenario B): `replace_place(x.f, y)` with
`y : Ref(U)` on `x.f.g && acc(x.f, write)` yields `y.g && acc(y, write)`. -/
theorem claim_C2_witness :
    Expr.isPlace xf = true ∧ Expr.replacePlace scB xf yE = some scBres :=
  ⟨rfl, (claim_C2 scB xf yE rfl (fun _ => rfl)).trans (by rfl)⟩

end Vir
